import Mathlib

/-!
# elementor-whatsapp: the terminal application's navigation engine

A shallow embedding of the Go sources under `internal/tui`, `internal/views/...`,
`internal/config` and `internal/database`.

Conventions of the embedding:

* A Go `error` value is an `Option String` (`none` is `nil`).
* A `tea.Cmd` is the list of the atomic commands it stands for: `nil` is `[]`,
  a single command is a singleton and `tea.Batch` drops `nil`s and concatenates.
* A method value such as `m.loadForms` is a tag (`Cmd.formsLoad`); the receiver
  is the view that returned it.
* The widgets of the external libraries (bubbles table, spinner, text input and
  the huh form) are parameters, collected in `Lib`.  Their commands are opaque
  (`Cmd.lib`) and so are the messages those commands deliver (`Msg.other`).
* A run-time panic (nil dereference, index out of range, division by zero) is
  `none`.
* Styles and rendering are left out: they do not influence any state.
-/

namespace ElementorWhatsapp

/-- Go `error`: `none` is `nil`, `some s` an error with text `s`. -/
abbrev Err := Option String

/-! ## internal/config -/

namespace config

structure CloudflareConfig where
  AccountID : String
  APIToken : String
  DatabaseID : String
  WorkerURL : String
  deriving DecidableEq

structure ZAPIConfig where
  InstanceID : String
  InstanceToken : String
  ClientToken : String
  deriving DecidableEq

structure UIConfig where
  Theme : String
  Mouse : Bool
  Animations : Bool
  VimBindings : Bool
  AutoRefresh : Int
  ConfirmDestructive : Bool
  deriving DecidableEq

structure Config where
  Cloudflare : CloudflareConfig
  ZAPI : ZAPIConfig
  UI : UIConfig
  deriving DecidableEq

/-- Method `(*Config).Validate` of config.go. -/
def Config.Validate (c : Config) : Err :=
  if c.Cloudflare.AccountID = "" then
    some "cloudflare.account_id is required"
  else if c.Cloudflare.APIToken = "" then
    some "cloudflare.api_token is required"
  else if c.Cloudflare.DatabaseID = "" then
    some "cloudflare.database_id is required"
  else if c.Cloudflare.WorkerURL = "" then
    some "cloudflare.worker_url is required"
  else
    none

end config

/-! ## internal/database -/

namespace database

structure Field where
  ID : String
  FormID : String
  ElementorID : String
  Label : String
  /-- Field `Type` of the Go struct (a reserved word here). -/
  Typ : String
  Required : Bool
  Position : Int
  deriving DecidableEq

/-- A non-nil `*int`: the address of the cell and the integer stored in it. -/
structure IntPtr where
  addr : Nat
  val : Int
  deriving DecidableEq

structure Number where
  ID : Int
  FormID : String
  PhoneNumber : String
  Label : String
  ContactID : Option IntPtr
  deriving DecidableEq

/-- Struct `Form` of models.go; a `time.Time` is kept as an integer time stamp. -/
structure Form where
  ID : String
  Name : String
  Description : String
  Fields : List Field
  Numbers : List Number
  CreatedAt : Int
  UpdatedAt : Int
  deriving DecidableEq

structure Contact where
  ID : Int
  PhoneNumber : String
  Name : String
  Company : String
  Role : String
  Notes : String
  CreatedAt : Int
  UpdatedAt : Int
  deriving DecidableEq

structure FormWithStats where
  toForm : Form
  FieldCount : Int
  NumberCount : Int
  deriving DecidableEq

structure ContactWithStats where
  toContact : Contact
  FormCount : Int
  FormIDs : List String
  deriving DecidableEq

structure Stats where
  TotalForms : Int
  ActiveForms : Int
  TotalContacts : Int
  WebhooksToday : Int
  WebhooksThisWeek : Int
  LastWebhook : Int
  ConnectionStatus : String
  deriving DecidableEq

/-- Struct `Client` of client.go (the HTTP client itself is external). -/
structure Client where
  config : config.Config
  baseURL : String
  deriving DecidableEq

/-- Function `NewClient` of client.go: fails exactly when the configuration is invalid. -/
def NewClient (cfg : config.Config) : Except String Client :=
  match cfg.Validate with
  | some e => .error ("invalid config: " ++ e)
  | none =>
    .ok
      { config := cfg
        baseURL := "https://api.cloudflare.com/client/v4/accounts/" ++ cfg.Cloudflare.AccountID
          ++ "/d1/database/" ++ cfg.Cloudflare.DatabaseID }

/-- The `(db, err)` pair that every view constructor keeps from `NewClient`. -/
def clientOf (cfg : config.Config) : Option Client × Err :=
  match NewClient cfg with
  | .ok c => (some c, none)
  | .error e => (none, some e)

/-- The remote store as the constructors of the views query it (the answers of the
HTTP service are external). -/
structure Remote where
  GetAllContacts : Except String (List Contact)
  GetFormByID : String → Except String Form
  GetContactByID : Int → Except String Contact

end database

/-! ## Messages and commands -/

/-- Type `View` of app.go is an `int`. -/
abbrev View := Int

/-- Every `tea.Msg` the program distinguishes in a type switch. -/
inductive Msg where
  /-- The `tea.WindowSizeMsg`. -/
  | windowSize (Width Height : Int)
  /-- A `tea.KeyMsg`, identified by what `msg.String()` returns. -/
  | key (s : String)
  /-- The `tui.SwitchViewMsg`; `Data` is an `interface` value, `none` is `nil`. -/
  | switchView (view : View) (Title : String) (Data : Option Msg)
  | formsViewActivated
  | formsSwitchToCreate
  | formsSwitchToEdit (FormID : String)
  | formsGoBackToList
  | formsLoaded (Forms : List database.FormWithStats) (Error : Err)
  | formDeleted (FormID : String) (Error : Err)
  | formCreated (FormID : String) (Error : Err)
  | formUpdated (FormID : String) (Error : Err)
  | contactsViewActivated
  | contactsSwitchToCreate
  | contactsSwitchToEdit (ContactID : Int)
  | contactsGoBackToList
  | contactsLoaded (Contacts : List database.ContactWithStats) (Error : Err)
  | contactDeleted (ContactID : Int) (Error : Err)
  | contactCreated (ContactID : Int) (Error : Err)
  | contactUpdated (ContactID : Int) (Error : Err)
  | statsLoaded (Stats : Option database.Stats) (Error : Err)
  /-- The `spinner.TickMsg`. -/
  | spinnerTick (tag : Nat)
  /-- The function-local `SwitchViewMsg` struct of `dashboard.Model.switchView`. -/
  | dashboardSwitchView (view : Int) (Title : String)
  /-- The function-local `SwitchViewMsg` struct of `settings.Model.Update`. -/
  | settingsSwitchView (view : Int) (Title : String)
  /-- A message whose dynamic type implements `error`. -/
  | error (e : String)
  /-- The `tea.QuitMsg`. -/
  | quit
  /-- Any other message, private to a library. -/
  | other (tag : Nat)

/-- The atomic commands: the closures and method values the program returns as `tea.Cmd`. -/
inductive Cmd where
  /-- The `tea.Quit` command. -/
  | quit
  /-- A closure `func() tea.Msg` that returns a fixed message. -/
  | msg (m : Msg)
  /-- Method value `m.loadForms` of the forms list. -/
  | formsLoad
  /-- Closure of the forms list that returns `SwitchToEditMsg` for `m.forms[selectedIdx]`. -/
  | formsEditAt (selectedIdx : Int)
  /-- Closure returned by `deleteForm(formID)`. -/
  | formsDelete (formID : String)
  /-- Method value `v.createForm`. -/
  | formsCreate
  /-- Method value `v.updateForm`. -/
  | formsUpdate
  /-- Method value `m.loadContacts` of the contacts list. -/
  | contactsLoad
  /-- Closure of the contacts list that returns `SwitchToEditMsg` for `m.contacts[selectedIdx]`. -/
  | contactsEditAt (selectedIdx : Int)
  /-- Closure returned by `deleteContact(contactID)`. -/
  | contactsDelete (contactID : Int)
  /-- Method value `v.createContact`. -/
  | contactsCreate
  /-- Method value `v.updateContact`. -/
  | contactsUpdate
  /-- Method value `m.loadStats` of the dashboard. -/
  | statsLoad
  /-- Method value `m.spinner.Tick`. -/
  | spinnerTick
  /-- A command of an external library. -/
  | lib (tag : Nat)

/-- What a bound huh field does to the variables the view handed to it by pointer:
it stores a value, or it runs the validator of a field on a text. -/
inductive Write where
  | str (slot : Nat) (v : String)
  | strs (slot : Nat) (v : List String)
  | bool (slot : Nat) (v : Bool)
  | validate (slot : Nat) (text : String)

/-- The `huh.FormState` enumeration. -/
inductive FormState where
  | StateNormal
  | StateCompleted
  | StateAborted
  deriving DecidableEq

/-- The widgets of the external libraries. -/
structure Lib where
  /-- The `table.Model` of bubbles. -/
  Table : Type
  /-- The `spinner.Model` of bubbles. -/
  Spinner : Type
  /-- The `textinput.Model` of bubbles. -/
  Input : Type
  /-- The `huh.Form`. -/
  Form : Type
  tableNew : List (String × Int) → Table
  tableSetHeight : Table → Int → Table
  tableSetRows : Table → List (List String) → Table
  /-- Method `Cursor`: the index of the selected row, an `int`; nothing in the program
  keeps it from being negative. -/
  tableCursor : Table → Int
  tableUpdate : Table → Msg → Table × List Nat
  spinnerNew : Spinner
  spinnerUpdate : Spinner → Msg → Spinner × List Nat
  inputNew : String → String → Int → Input
  inputFocus : Input → Input
  inputBlur : Input → Input
  inputUpdate : Input → Msg → Input × List Nat
  formNew : String → List (String × String) → Form
  formInit : Form → List Nat
  formGetState : Form → FormState
  formUpdate : Form → Msg → Form × List Write × List Nat
  /-- Method `time.Time.Format` with the layout of the list views. -/
  formatTime : Int → String
  /-- Method `time.Duration.String`. -/
  durationString : Int → String

/-- The commands of a library widget, as commands of the program. -/
def libCmds (tags : List Nat) : List Cmd := tags.map Cmd.lib

/-- Predicate selecting the load command of the forms list. -/
def Cmd.isFormsLoad : Cmd → Bool
  | .formsLoad => true
  | _ => false

/-- Predicate selecting the load command of the contacts list. -/
def Cmd.isContactsLoad : Cmd → Bool
  | .contactsLoad => true
  | _ => false

/-- Predicate selecting the `tea.Quit` command. -/
def Cmd.isQuit : Cmd → Bool
  | .quit => true
  | _ => false

/-- The index expression `xs[i]` of a slice with an `int` index; `none` is the panic of an
index out of range. -/
def sliceAt {α : Type} (xs : List α) (i : Int) : Option α :=
  if i < 0 then none else xs[i.toNat]?

/-- Verb `%d` of `fmt.Sprintf` on an `int`. -/
def fmtInt (i : Int) : String := toString i

/-- Verb `%d` of `fmt.Sprintf` on a `*int`: the address in decimal, `0` for `nil`. -/
def fmtIntPtr : Option database.IntPtr → String
  | none => "0"
  | some p => toString p.addr

/-! ## internal/views/forms: the list -/

namespace forms

structure ListView (L : Lib) where
  config : config.Config
  table : L.Table
  spinner : L.Spinner
  db : Option database.Client
  forms : List database.FormWithStats
  loading : Bool
  err : Err
  width : Int
  height : Int

/-- Function `NewListView` of forms/list.go. -/
def NewListView (L : Lib) (cfg : config.Config) : ListView L :=
  { config := cfg
    table := L.tableNew [("ID", 20), ("Name", 30), ("Fields", 10), ("Recipients", 12),
      ("Created", 20)]
    spinner := L.spinnerNew
    db := (database.clientOf cfg).1
    forms := []
    loading := false
    err := (database.clientOf cfg).2
    width := 0
    height := 0 }

/-- Method `Init` of the forms list. -/
def ListView.Init {L : Lib} (_m : ListView L) : List Cmd := [Cmd.spinnerTick]

/-- Method `StartLoading` of the forms list. -/
def ListView.StartLoading {L : Lib} (m : ListView L) : ListView L × List Cmd :=
  if !m.loading then ({ m with loading := true }, [Cmd.formsLoad]) else (m, [])

/-- Method `ForceReload` of the forms list. -/
def ListView.ForceReload {L : Lib} (m : ListView L) : ListView L × List Cmd :=
  ({ m with loading := true }, [Cmd.formsLoad])

/-- Method `updateTable` of the forms list. -/
def ListView.updateTable {L : Lib} (m : ListView L) : ListView L :=
  { m with
    table := L.tableSetRows m.table
      (m.forms.map fun form =>
        [form.toForm.ID, form.toForm.Name, fmtInt form.FieldCount, fmtInt form.NumberCount,
          L.formatTime form.toForm.CreatedAt]) }

/-- The last statements of `Update`: the table sees the message and its command is batched. -/
def ListView.finish {L : Lib} (m : ListView L) (msg : Msg) (cmds : List Cmd) :
    ListView L × List Cmd :=
  ({ m with table := (L.tableUpdate m.table msg).1 },
    cmds ++ libCmds (L.tableUpdate m.table msg).2)

/-- Method `Update` of the forms list; `none` is the panic of `m.forms[selectedIdx]` in the
case `d`, which is evaluated before `deleteForm` is called. -/
def ListView.Update {L : Lib} (m : ListView L) (msg : Msg) : Option (ListView L × List Cmd) :=
  match msg with
  | .formsViewActivated => some (m.StartLoading.1.finish msg m.StartLoading.2)
  | .windowSize w h =>
    some
      (ListView.finish
        { m with width := w, height := h, table := L.tableSetHeight m.table (h - 10) } msg [])
  | .key s =>
    if m.loading then some (m, [])
    else if s = "n" then some (m, [Cmd.msg .formsSwitchToCreate])
    else if s = "e" then
      if 0 < m.forms.length ∧ L.tableCursor m.table < (m.forms.length : Int) then
        some (m, [Cmd.formsEditAt (L.tableCursor m.table)])
      else some (m.finish msg [])
    else if s = "d" then
      if 0 < m.forms.length ∧ L.tableCursor m.table < (m.forms.length : Int) then
        match sliceAt m.forms (L.tableCursor m.table) with
        | some form => some (m, [Cmd.formsDelete form.toForm.ID])
        | none => none
      else some (m.finish msg [])
    else if s = "enter" then
      if 0 < m.forms.length ∧ L.tableCursor m.table < (m.forms.length : Int) then
        some (m, [Cmd.formsEditAt (L.tableCursor m.table)])
      else some (m.finish msg [])
    else if s = "r" then some ({ m with loading := true }, [Cmd.formsLoad])
    else some (m.finish msg [])
  | .formsLoaded forms error =>
    some
      (ListView.finish
        (ListView.updateTable { m with loading := false, forms := forms, err := error }) msg [])
  | .spinnerTick _ =>
    if m.loading then
      some
        (ListView.finish { m with spinner := (L.spinnerUpdate m.spinner msg).1 } msg
          (libCmds (L.spinnerUpdate m.spinner msg).2))
    else some (m.finish msg [])
  | _ => some (m.finish msg [])

end forms

/-! ## internal/views/contacts: the list -/

namespace contacts

structure ListView (L : Lib) where
  config : config.Config
  table : L.Table
  spinner : L.Spinner
  db : Option database.Client
  contacts : List database.ContactWithStats
  loading : Bool
  err : Err
  width : Int
  height : Int

/-- Function `NewListView` of contacts/list.go. -/
def NewListView (L : Lib) (cfg : config.Config) : ListView L :=
  { config := cfg
    table := L.tableNew [("Name", 25), ("Phone", 20), ("Company", 25), ("Role", 20),
      ("Forms", 10)]
    spinner := L.spinnerNew
    db := (database.clientOf cfg).1
    contacts := []
    loading := false
    err := (database.clientOf cfg).2
    width := 0
    height := 0 }

/-- Method `Init` of the contacts list. -/
def ListView.Init {L : Lib} (_m : ListView L) : List Cmd := [Cmd.spinnerTick]

/-- Method `StartLoading` of the contacts list. -/
def ListView.StartLoading {L : Lib} (m : ListView L) : ListView L × List Cmd :=
  if !m.loading && m.contacts.length == 0 then ({ m with loading := true }, [Cmd.contactsLoad])
  else (m, [])

/-- Method `ForceReload` of the contacts list. -/
def ListView.ForceReload {L : Lib} (m : ListView L) : ListView L × List Cmd :=
  ({ m with loading := true }, [Cmd.contactsLoad])

/-- Method `updateTable` of the contacts list. -/
def ListView.updateTable {L : Lib} (m : ListView L) : ListView L :=
  { m with
    table := L.tableSetRows m.table
      (m.contacts.map fun contact =>
        [contact.toContact.Name, contact.toContact.PhoneNumber,
          if contact.toContact.Company = "" then "-" else contact.toContact.Company,
          if contact.toContact.Role = "" then "-" else contact.toContact.Role,
          fmtInt contact.FormCount]) }

/-- The last statements of `Update`: the table sees the message and its command is batched. -/
def ListView.finish {L : Lib} (m : ListView L) (msg : Msg) (cmds : List Cmd) :
    ListView L × List Cmd :=
  ({ m with table := (L.tableUpdate m.table msg).1 },
    cmds ++ libCmds (L.tableUpdate m.table msg).2)

/-- Method `Update` of the contacts list; `none` is the panic of `m.contacts[selectedIdx]`
in the case `d`, which is evaluated before `deleteContact` is called. -/
def ListView.Update {L : Lib} (m : ListView L) (msg : Msg) : Option (ListView L × List Cmd) :=
  match msg with
  | .contactsViewActivated => some (m.StartLoading.1.finish msg m.StartLoading.2)
  | .windowSize w h =>
    some
      (ListView.finish
        { m with width := w, height := h, table := L.tableSetHeight m.table (h - 10) } msg [])
  | .key s =>
    if m.loading then some (m, [])
    else if s = "a" then some (m, [Cmd.msg .contactsSwitchToCreate])
    else if s = "e" then
      if 0 < m.contacts.length ∧ L.tableCursor m.table < (m.contacts.length : Int) then
        some (m, [Cmd.contactsEditAt (L.tableCursor m.table)])
      else some (m.finish msg [])
    else if s = "d" then
      if 0 < m.contacts.length ∧ L.tableCursor m.table < (m.contacts.length : Int) then
        match sliceAt m.contacts (L.tableCursor m.table) with
        | some contact => some (m, [Cmd.contactsDelete contact.toContact.ID])
        | none => none
      else some (m.finish msg [])
    else if s = "enter" then
      if 0 < m.contacts.length ∧ L.tableCursor m.table < (m.contacts.length : Int) then
        some (m, [Cmd.contactsEditAt (L.tableCursor m.table)])
      else some (m.finish msg [])
    else if s = "r" then some ({ m with loading := true }, [Cmd.contactsLoad])
    else some (m.finish msg [])
  | .contactsLoaded contacts error =>
    some
      (ListView.finish
        (ListView.updateTable { m with loading := false, contacts := contacts, err := error })
        msg [])
  | .spinnerTick _ =>
    if m.loading then
      some
        (ListView.finish { m with spinner := (L.spinnerUpdate m.spinner msg).1 } msg
          (libCmds (L.spinnerUpdate m.spinner msg).2))
    else some (m.finish msg [])
  | _ => some (m.finish msg [])

end contacts

/-! ## The functions of package `strings` that the views call -/

namespace strings

/-- Function `unicode.IsSpace`. -/
def isSpace (c : Char) : Bool :=
  let n := c.toNat
  n == 9 || n == 10 || n == 11 || n == 12 || n == 13 || n == 32 || n == 0x85 || n == 0xA0
    || n == 0x1680 || (0x2000 ≤ n && n ≤ 0x200A) || n == 0x2028 || n == 0x2029 || n == 0x202F
    || n == 0x205F || n == 0x3000

/-- Function `strings.TrimSpace`, on the characters of the string. -/
def trimSpaceChars (cs : List Char) : List Char :=
  ((cs.dropWhile isSpace).reverse.dropWhile isSpace).reverse

/-- Function `strings.TrimSpace`. -/
def TrimSpace (s : String) : String := String.mk (trimSpaceChars s.data)

/-- Function `strings.Split` for a separator of one character, on the characters. -/
def splitChars (sep : Char) : List Char → List (List Char)
  | [] => [[]]
  | c :: cs =>
    if c = sep then [] :: splitChars sep cs
    else
      match splitChars sep cs with
      | [] => [[c]]
      | part :: parts => (c :: part) :: parts

/-- Function `strings.Split` for a separator of one character. -/
def Split (s : String) (sep : Char) : List String := (splitChars sep s.data).map String.mk

/-- Function `strings.HasSuffix` for the suffix `*`. -/
def hasStarSuffix (cs : List Char) : Bool := cs.getLast? == some '*'

/-- Function `strings.TrimSuffix` for the suffix `*`. -/
def trimStarSuffix (cs : List Char) : List Char := if hasStarSuffix cs then cs.dropLast else cs

end strings

/-! ## internal/views/forms: create and edit -/

namespace forms

structure FieldData where
  ElementorID : String
  Label : String
  /-- Field `Type` of the Go struct (a reserved word here). -/
  Typ : String
  Required : Bool
  deriving DecidableEq

structure FormData where
  ID : String
  Name : String
  Description : String
  Fields : List FieldData
  SelectedContacts : List String
  Confirmed : Bool
  deriving DecidableEq

/-- The zero value of `FormData`. -/
def FormData.zero : FormData :=
  { ID := "", Name := "", Description := "", Fields := [], SelectedContacts := [],
    Confirmed := false }

structure CreateView (L : Lib) where
  config : config.Config
  db : Option database.Client
  form : Option L.Form
  formData : FormData
  contacts : List database.Contact
  err : Err
  width : Int
  height : Int
  done : Bool

/-- The options of the recipients field, built by `buildForm` from the contacts. -/
def contactOptions (contacts : List database.Contact) : List (String × String) :=
  contacts.map fun contact =>
    (if contact.Company ≠ "" then
        contact.Name ++ " - " ++ contact.Company ++ " (" ++ contact.PhoneNumber ++ ")"
      else contact.Name ++ " (" ++ contact.PhoneNumber ++ ")",
      fmtInt contact.ID)

/-- Method `buildForm` of the form create view. -/
def CreateView.buildForm {L : Lib} (R : database.Remote) (v : CreateView L) : CreateView L :=
  let contacts :=
    match v.db, R.GetAllContacts with
    | some _, .ok cs => cs
    | _, _ => v.contacts
  { v with contacts := contacts, form := some (L.formNew "forms.create" (contactOptions contacts)) }

/-- Function `NewCreateView` of forms/create.go. -/
def NewCreateView (L : Lib) (R : database.Remote) (cfg : config.Config) : CreateView L :=
  CreateView.buildForm R
    { config := cfg
      db := (database.clientOf cfg).1
      form := none
      formData :=
        { FormData.zero with
          Fields :=
            [ { ElementorID := "name", Label := "Name", Typ := "text", Required := true },
              { ElementorID := "email", Label := "Email", Typ := "email", Required := true },
              { ElementorID := "phone", Label := "Phone", Typ := "tel", Required := false },
              { ElementorID := "message", Label := "Message", Typ := "textarea",
                Required := false } ] }
      contacts := []
      err := (database.clientOf cfg).2
      width := 0
      height := 0
      done := false }

/-- Method `Init` of the form create view; `none` is the nil dereference of `v.form`. -/
def CreateView.Init {L : Lib} (v : CreateView L) : Option (List Cmd) :=
  v.form.map fun f => libCmds (L.formInit f)

/-- A store of the create form through the pointers `buildForm` bound: Form ID, Form Name,
Description, Select Recipients and the confirmation, in this order.  Its validators have
no effect on the view. -/
def FormData.writeCreate (d : FormData) : Write → FormData
  | .str 0 v => { d with ID := v }
  | .str 1 v => { d with Name := v }
  | .str 2 v => { d with Description := v }
  | .strs 3 v => { d with SelectedContacts := v }
  | .bool 4 v => { d with Confirmed := v }
  | _ => d

/-- The statements of `Update` after the type switch, shared by its branches. -/
def CreateView.finish {L : Lib} (v : CreateView L) (msg : Msg) :
    Option (CreateView L × List Cmd) :=
  match v.form with
  | none => none
  | some f =>
    if L.formGetState f = FormState.StateCompleted ∧ v.formData.Confirmed = true then
      some (v, [Cmd.formsCreate])
    else
      some
        ({ v with
            form := some (L.formUpdate f msg).1
            formData := (L.formUpdate f msg).2.1.foldl FormData.writeCreate v.formData },
          libCmds (L.formUpdate f msg).2.2)

/-- Method `Update` of the form create view. -/
def CreateView.Update {L : Lib} (v : CreateView L) (msg : Msg) :
    Option (CreateView L × List Cmd) :=
  match msg with
  | .windowSize w h => CreateView.finish { v with width := w, height := h } msg
  | .key s =>
    if s = "esc" then some (v, [Cmd.msg .formsGoBackToList]) else v.finish msg
  | .formCreated _ error =>
    match error with
    | some e => some ({ v with err := some e }, [])
    | none => some ({ v with done := true }, [Cmd.msg .formsGoBackToList])
  | _ => v.finish msg

structure EditView (L : Lib) where
  config : config.Config
  db : Option database.Client
  form : Option L.Form
  formData : FormData
  originalForm : Option database.Form
  contacts : List database.Contact
  err : Err
  width : Int
  height : Int
  done : Bool
  loading : Bool
  /-- The local variable `fieldsText` of `buildForm`, which the fields input is bound to. -/
  fieldsText : String

/-- One line of the fields text, as the validator of the fields input reads it;
`none` is the line with fewer than three parts. -/
def parseFieldLine (line : String) : Option FieldData :=
  match strings.Split line '|' with
  | p0 :: p1 :: p2 :: more =>
    let typ := strings.trimSpaceChars p2.data
    if 0 < more.length ∨ strings.hasStarSuffix typ = true then
      some
        { ElementorID := strings.TrimSpace p0
          Label := strings.TrimSpace p1
          Typ := String.mk (strings.trimSpaceChars (strings.trimStarSuffix typ))
          Required := true }
    else
      some
        { ElementorID := strings.TrimSpace p0
          Label := strings.TrimSpace p1
          Typ := String.mk typ
          Required := false }
  | _ => none

/-- The loop of the validator of the fields input over the lines: the fields appended so
far and the error it returns. -/
def parseFieldLines : List String → List FieldData → List FieldData × Err
  | [], acc => (acc, none)
  | line :: rest, acc =>
    if strings.TrimSpace line = "" then parseFieldLines rest acc
    else
      match parseFieldLine line with
      | some field => parseFieldLines rest (acc ++ [field])
      | none => (acc, some ("invalid field format: " ++ line))

/-- The validator of the fields input of `EditView.buildForm`: the value it leaves in
`v.formData.Fields` and the error it returns. -/
def validateFields (fields : List FieldData) (s : String) : List FieldData × Err :=
  if (strings.Split (strings.TrimSpace s) '\n').length = 0 then
    (fields, some "at least one field is required")
  else parseFieldLines (strings.Split (strings.TrimSpace s) '\n') []

/-- The text `buildForm` puts into the fields input. -/
def fieldStrings (fields : List FieldData) : String :=
  "\n".intercalate
    (fields.map fun field =>
      field.ElementorID ++ "|" ++ field.Label ++ "|" ++ field.Typ
        ++ (if field.Required then " *" else ""))

/-- Method `buildForm` of the form edit view. -/
def EditView.buildForm {L : Lib} (v : EditView L) : EditView L :=
  { v with
    fieldsText := fieldStrings v.formData.Fields
    form := some (L.formNew "forms.edit" (contactOptions v.contacts)) }

/-- Method `loadFormData` of the form edit view; `none` is the nil dereference of `v.db`. -/
def EditView.loadFormData {L : Lib} (R : database.Remote) (v : EditView L) (formID : String) :
    Option (EditView L) :=
  match v.db with
  | none => none
  | some _ =>
    match R.GetFormByID formID with
    | .error e => some { v with err := some ("failed to load form: " ++ e), loading := false }
    | .ok form =>
      let loaded : EditView L :=
        { v with
          originalForm := some form
          formData :=
            { v.formData with
              ID := form.ID
              Name := form.Name
              Description := form.Description
              Fields := form.Fields.map fun field =>
                { ElementorID := field.ElementorID, Label := field.Label, Typ := field.Typ,
                  Required := field.Required }
              SelectedContacts := form.Numbers.map fun number => fmtIntPtr number.ContactID }
          contacts :=
            match R.GetAllContacts with
            | .ok cs => cs
            | .error _ => v.contacts }
      some { loaded.buildForm with loading := false }

/-- The zero value of the form edit view, with the configuration set. -/
def EditView.zero (L : Lib) (cfg : config.Config) : EditView L :=
  { config := cfg, db := none, form := none, formData := FormData.zero, originalForm := none,
    contacts := [], err := none, width := 0, height := 0, done := false, loading := false,
    fieldsText := "" }

/-- Function `NewEditView` of forms/edit.go. -/
def NewEditView (L : Lib) (R : database.Remote) (cfg : config.Config) (formID : String) :
    Option (EditView L) :=
  match database.NewClient cfg with
  | .error e => some { EditView.zero L cfg with err := some e }
  | .ok db =>
    EditView.loadFormData R { EditView.zero L cfg with db := some db, loading := true } formID

/-- Method `Init` of the form edit view. -/
def EditView.Init {L : Lib} (v : EditView L) : List Cmd :=
  match v.form with
  | some f => libCmds (L.formInit f)
  | none => []

/-- A store of the edit form through what `buildForm` bound: Form Name, Description, the
fields text (whose validator rewrites `formData.Fields`), Select Recipients and the
confirmation, in this order. -/
def EditView.write {L : Lib} (v : EditView L) : Write → EditView L
  | .str 0 x => { v with formData := { v.formData with Name := x } }
  | .str 1 x => { v with formData := { v.formData with Description := x } }
  | .str 2 x => { v with fieldsText := x }
  | .validate 2 text =>
    { v with formData := { v.formData with Fields := (validateFields v.formData.Fields text).1 } }
  | .strs 3 x => { v with formData := { v.formData with SelectedContacts := x } }
  | .bool 4 x => { v with formData := { v.formData with Confirmed := x } }
  | _ => v

/-- The statements of `Update` after the type switch, shared by its branches. -/
def EditView.finish {L : Lib} (v : EditView L) (msg : Msg) : Option (EditView L × List Cmd) :=
  match v.form with
  | none => none
  | some f =>
    if L.formGetState f = FormState.StateCompleted ∧ v.formData.Confirmed = true then
      some (v, [Cmd.formsUpdate])
    else
      some
        ({ (L.formUpdate f msg).2.1.foldl EditView.write v with
            form := some (L.formUpdate f msg).1 },
          libCmds (L.formUpdate f msg).2.2)

/-- Method `Update` of the form edit view. -/
def EditView.Update {L : Lib} (v : EditView L) (msg : Msg) : Option (EditView L × List Cmd) :=
  if v.loading then some (v, [])
  else if v.err ≠ none then
    match msg with
    | .key s => if s = "esc" then some (v, [Cmd.msg .formsGoBackToList]) else some (v, [])
    | _ => some (v, [])
  else
    match msg with
    | .windowSize w h => EditView.finish { v with width := w, height := h } msg
    | .key s =>
      if s = "esc" then some (v, [Cmd.msg .formsGoBackToList]) else v.finish msg
    | .formUpdated _ error =>
      match error with
      | some e => some ({ v with err := some e }, [])
      | none => some ({ v with done := true }, [Cmd.msg .formsGoBackToList])
    | _ => v.finish msg

end forms

/-! ## internal/views/contacts: create and edit -/

namespace contacts

structure ContactData where
  Name : String
  PhoneNumber : String
  Company : String
  Role : String
  Notes : String
  Confirmed : Bool
  deriving DecidableEq

/-- The zero value of `ContactData`. -/
def ContactData.zero : ContactData :=
  { Name := "", PhoneNumber := "", Company := "", Role := "", Notes := "", Confirmed := false }

/-- A store of the contact form through the pointers `buildForm` bound: Contact Name,
WhatsApp Number, Company, Role, Notes and the confirmation, in this order.  Its validators
have no effect on the view. -/
def ContactData.write (d : ContactData) : Write → ContactData
  | .str 0 v => { d with Name := v }
  | .str 1 v => { d with PhoneNumber := v }
  | .str 2 v => { d with Company := v }
  | .str 3 v => { d with Role := v }
  | .str 4 v => { d with Notes := v }
  | .bool 5 v => { d with Confirmed := v }
  | _ => d

structure CreateView (L : Lib) where
  config : config.Config
  db : Option database.Client
  form : Option L.Form
  contactData : ContactData
  err : Err
  width : Int
  height : Int
  done : Bool

/-- Method `buildForm` of the contact create view. -/
def CreateView.buildForm {L : Lib} (v : CreateView L) : CreateView L :=
  { v with form := some (L.formNew "contacts.create" []) }

/-- Function `NewCreateView` of contacts/create.go. -/
def NewCreateView (L : Lib) (cfg : config.Config) : CreateView L :=
  CreateView.buildForm
    { config := cfg
      db := (database.clientOf cfg).1
      form := none
      contactData := ContactData.zero
      err := (database.clientOf cfg).2
      width := 0
      height := 0
      done := false }

/-- Method `Init` of the contact create view. -/
def CreateView.Init {L : Lib} (v : CreateView L) : List Cmd :=
  match v.form with
  | some f => libCmds (L.formInit f)
  | none => []

/-- The statements of `Update` after the type switch, shared by its branches. -/
def CreateView.finish {L : Lib} (v : CreateView L) (msg : Msg) :
    Option (CreateView L × List Cmd) :=
  match v.form with
  | none => none
  | some f =>
    if L.formGetState f = FormState.StateCompleted ∧ v.contactData.Confirmed = true then
      some (v, [Cmd.contactsCreate])
    else
      some
        ({ v with
            form := some (L.formUpdate f msg).1
            contactData := (L.formUpdate f msg).2.1.foldl ContactData.write v.contactData },
          libCmds (L.formUpdate f msg).2.2)

/-- Method `Update` of the contact create view. -/
def CreateView.Update {L : Lib} (v : CreateView L) (msg : Msg) :
    Option (CreateView L × List Cmd) :=
  match msg with
  | .windowSize w h => CreateView.finish { v with width := w, height := h } msg
  | .key s =>
    if s = "esc" then some (v, [Cmd.msg .contactsGoBackToList]) else v.finish msg
  | .contactCreated _ error =>
    match error with
    | some e => some ({ v with err := some e }, [])
    | none => some ({ v with done := true }, [Cmd.msg .contactsGoBackToList])
  | _ => v.finish msg

structure EditView (L : Lib) where
  config : config.Config
  db : Option database.Client
  form : Option L.Form
  contactData : ContactData
  originalContact : Option database.Contact
  err : Err
  width : Int
  height : Int
  done : Bool
  loading : Bool

/-- Method `buildForm` of the contact edit view. -/
def EditView.buildForm {L : Lib} (v : EditView L) : EditView L :=
  { v with form := some (L.formNew "contacts.edit" []) }

/-- Method `loadContactData`; `none` is the nil dereference of `v.db`. -/
def EditView.loadContactData {L : Lib} (R : database.Remote) (v : EditView L)
    (contactID : Int) : Option (EditView L) :=
  match v.db with
  | none => none
  | some _ =>
    match R.GetContactByID contactID with
    | .error e =>
      some { v with err := some ("failed to load contact: " ++ e), loading := false }
    | .ok contact =>
      let loaded : EditView L :=
        { v with
          originalContact := some contact
          contactData :=
            { v.contactData with
              Name := contact.Name
              PhoneNumber := contact.PhoneNumber
              Company := contact.Company
              Role := contact.Role
              Notes := contact.Notes } }
      some { loaded.buildForm with loading := false }

/-- The zero value of the contact edit view, with the configuration set. -/
def EditView.zero (L : Lib) (cfg : config.Config) : EditView L :=
  { config := cfg, db := none, form := none, contactData := ContactData.zero,
    originalContact := none, err := none, width := 0, height := 0, done := false,
    loading := false }

/-- Function `NewEditView` of contacts/edit.go. -/
def NewEditView (L : Lib) (R : database.Remote) (cfg : config.Config) (contactID : Int) :
    Option (EditView L) :=
  match database.NewClient cfg with
  | .error e => some { EditView.zero L cfg with err := some e }
  | .ok db =>
    EditView.loadContactData R { EditView.zero L cfg with db := some db, loading := true }
      contactID

/-- Method `Init` of the contact edit view. -/
def EditView.Init {L : Lib} (v : EditView L) : List Cmd :=
  match v.form with
  | some f => libCmds (L.formInit f)
  | none => []

/-- The statements of `Update` after the type switch, shared by its branches. -/
def EditView.finish {L : Lib} (v : EditView L) (msg : Msg) : Option (EditView L × List Cmd) :=
  match v.form with
  | none => none
  | some f =>
    if L.formGetState f = FormState.StateCompleted ∧ v.contactData.Confirmed = true then
      some (v, [Cmd.contactsUpdate])
    else
      some
        ({ v with
            form := some (L.formUpdate f msg).1
            contactData := (L.formUpdate f msg).2.1.foldl ContactData.write v.contactData },
          libCmds (L.formUpdate f msg).2.2)

/-- Method `Update` of the contact edit view. -/
def EditView.Update {L : Lib} (v : EditView L) (msg : Msg) : Option (EditView L × List Cmd) :=
  if v.loading then some (v, [])
  else if v.err ≠ none then
    match msg with
    | .key s => if s = "esc" then some (v, [Cmd.msg .contactsGoBackToList]) else some (v, [])
    | _ => some (v, [])
  else
    match msg with
    | .windowSize w h => EditView.finish { v with width := w, height := h } msg
    | .key s =>
      if s = "esc" then some (v, [Cmd.msg .contactsGoBackToList]) else v.finish msg
    | .contactUpdated _ error =>
      match error with
      | some e => some ({ v with err := some e }, [])
      | none => some ({ v with done := true }, [Cmd.msg .contactsGoBackToList])
    | _ => v.finish msg

end contacts

/-! ## internal/views/dashboard -/

namespace dashboard

structure MenuItem where
  Title : String
  Description : String
  Icon : String
  Key : String
  ViewID : Int
  deriving DecidableEq

structure Model (L : Lib) where
  config : config.Config
  spinner : L.Spinner
  loading : Bool
  stats : Option database.Stats
  db : Option database.Client
  menuItems : List MenuItem
  selected : Int
  width : Int
  height : Int
  err : Err

/-- The menu built by `New` in dashboard/model.go. -/
def menuItems : List MenuItem :=
  [ { Title := "Forms", Description := "Manage webhook forms and configurations",
      Icon := "📝", Key := "2", ViewID := 1 },
    { Title := "Contacts", Description := "Organize contacts and recipients",
      Icon := "📞", Key := "3", ViewID := 2 },
    { Title := "Test Webhook", Description := "Test webhook endpoints with sample data",
      Icon := "🧪", Key := "4", ViewID := 3 },
    { Title := "Settings", Description := "Configure application settings",
      Icon := "⚙️", Key := "5", ViewID := 4 } ]

/-- Function `New` of dashboard/model.go. -/
def New (L : Lib) (cfg : config.Config) : Model L :=
  { config := cfg
    spinner := L.spinnerNew
    loading := true
    stats := none
    db := (database.clientOf cfg).1
    menuItems := menuItems
    selected := 0
    width := 0
    height := 0
    err := (database.clientOf cfg).2 }

/-- Method `Init` of the dashboard. -/
def Model.Init {L : Lib} (_m : Model L) : List Cmd := [Cmd.spinnerTick, Cmd.statsLoad]

/-- Method `switchView` of the dashboard: a closure returning its local `SwitchViewMsg`. -/
def Model.switchView (viewID : Int) (title : String) : List Cmd :=
  [Cmd.msg (.dashboardSwitchView viewID title)]

/-- Indexing `m.menuItems[i]` with a Go `int`; `none` is the index-out-of-range panic. -/
def itemAt (items : List MenuItem) (i : Int) : Option MenuItem :=
  if i < 0 then none else items[i.toNat]?

/-- Method `Update` of the dashboard. -/
def Model.Update {L : Lib} (m : Model L) (msg : Msg) : Option (Model L × List Cmd) :=
  match msg with
  | .windowSize w h => some ({ m with width := w, height := h }, [])
  | .key s =>
    if m.loading then some (m, [])
    else if s = "up" ∨ s = "k" then
      some (if m.selected > 0 then { m with selected := m.selected - 1 } else m, [])
    else if s = "down" ∨ s = "j" then
      some (if m.selected < (m.menuItems.length : Int) - 1 then
        { m with selected := m.selected + 1 } else m, [])
    else if s = "enter" then
      match itemAt m.menuItems m.selected with
      | some item => some (m, Model.switchView item.ViewID item.Title)
      | none => none
    else if s = "2" ∨ s = "3" ∨ s = "4" ∨ s = "5" then
      match m.menuItems.find? (fun item => item.Key == s) with
      | some item => some (m, Model.switchView item.ViewID item.Title)
      | none => some (m, [])
    else some (m, [])
  | .statsLoaded stats error =>
    some ({ m with loading := false, stats := stats, err := error }, [])
  | .spinnerTick _ =>
    if m.loading then
      some ({ m with spinner := (L.spinnerUpdate m.spinner msg).1 },
        libCmds (L.spinnerUpdate m.spinner msg).2)
    else some (m, [])
  | _ => some (m, [])

end dashboard

/-! ## internal/views/webhook -/

namespace webhook

structure Model (L : Lib) where
  config : config.Config
  inputs : List L.Input
  focused : Int
  width : Int
  height : Int

/-- Function `New` of webhook/test.go; the first input is focused. -/
def New (L : Lib) (cfg : config.Config) : Model L :=
  { config := cfg
    inputs :=
      [ L.inputFocus (L.inputNew "Select or enter form ID" "Form ID: " 50),
        L.inputNew "John Doe" "Name: " 100,
        L.inputNew "john@example.com" "Email: " 100,
        L.inputNew "+1 234 567 8900" "Phone: " 20,
        L.inputNew "Test message..." "Message: " 500 ]
    focused := 0
    width := 0
    height := 0 }

/-- Method `Init` of the webhook view: the `textinput.Blink` command of the library. -/
def Model.Init {L : Lib} (_m : Model L) : List Cmd := [Cmd.lib 0]

/-- Method `nextInput`; the remainder by zero panics. -/
def Model.nextInput {L : Lib} (m : Model L) : Option (Model L) :=
  if m.inputs.length = 0 then none
  else some { m with focused := Int.tmod (m.focused + 1) m.inputs.length }

/-- Method `prevInput`. -/
def Model.prevInput {L : Lib} (m : Model L) : Model L :=
  if m.focused - 1 < 0 then { m with focused := (m.inputs.length : Int) - 1 }
  else { m with focused := m.focused - 1 }

/-- The loop over the inputs at the end of `Update`, from index `i` on. -/
def updateInputs (L : Lib) (focused : Int) (msg : Msg) :
    Nat → List L.Input → List L.Input × List Cmd
  | _, [] => ([], [])
  | i, input :: rest =>
    let focusedInput := if (i : Int) = focused then L.inputFocus input else L.inputBlur input
    ((L.inputUpdate focusedInput msg).1 :: (updateInputs L focused msg (i + 1) rest).1,
      libCmds (L.inputUpdate focusedInput msg).2 ++ (updateInputs L focused msg (i + 1) rest).2)

/-- The last statements of `Update` of the webhook view. -/
def Model.finish {L : Lib} (m : Model L) (msg : Msg) : Model L × List Cmd :=
  ({ m with inputs := (updateInputs L m.focused msg 0 m.inputs).1 },
    (updateInputs L m.focused msg 0 m.inputs).2)

/-- Method `Update` of the webhook view. -/
def Model.Update {L : Lib} (m : Model L) (msg : Msg) : Option (Model L × List Cmd) :=
  match msg with
  | .windowSize w h => some (Model.finish { m with width := w, height := h } msg)
  | .key s =>
    if s = "tab" ∨ s = "down" then m.nextInput.map fun n => n.finish msg
    else if s = "shift+tab" ∨ s = "up" then some (m.prevInput.finish msg)
    else if s = "enter" then
      if m.focused = (m.inputs.length : Int) - 1 then some (m.finish msg)
      else m.nextInput.map fun n => n.finish msg
    else some (m.finish msg)
  | _ => some (m.finish msg)

end webhook

/-! ## internal/views/settings -/

namespace settings

/-- A Go string as its bytes, where the program slices it. -/
abbrev Bytes := List UInt8

/-- The bytes of a string. -/
def bytesOf (s : String) : Bytes := s.toUTF8.toList

structure ConfigItem where
  Label : String
  Value : Bytes
  Key : String
  Sensitive : Bool

structure Section where
  Title : String
  Items : List ConfigItem

structure Model where
  config : config.Config
  sections : List Section
  selected : Int
  width : Int
  height : Int

/-- Function `maskToken` of settings/config.go, on the bytes of the token. -/
def maskToken (token : Bytes) : Bytes :=
  if token = [] then []
  else if token.length ≤ 8 then bytesOf "****"
  else token.take 4 ++ bytesOf "****" ++ token.drop (token.length - 4)

/-- Function `boolToString` of settings/config.go. -/
def boolToString (b : Bool) : String := if b then "enabled" else "disabled"

/-- Function `New` of settings/config.go. -/
def New (L : Lib) (cfg : config.Config) : Model :=
  { config := cfg
    sections :=
      [ { Title := "Cloudflare Configuration"
          Items :=
            [ { Label := "Account ID", Value := bytesOf cfg.Cloudflare.AccountID,
                Key := "cloudflare.account_id", Sensitive := false },
              { Label := "API Token", Value := maskToken (bytesOf cfg.Cloudflare.APIToken),
                Key := "cloudflare.api_token", Sensitive := true },
              { Label := "Database ID", Value := bytesOf cfg.Cloudflare.DatabaseID,
                Key := "cloudflare.database_id", Sensitive := false },
              { Label := "Worker URL", Value := bytesOf cfg.Cloudflare.WorkerURL,
                Key := "cloudflare.worker_url", Sensitive := false } ] },
        { Title := "Z-API Configuration"
          Items :=
            [ { Label := "Instance ID", Value := bytesOf cfg.ZAPI.InstanceID,
                Key := "zapi.instance_id", Sensitive := false },
              { Label := "Instance Token", Value := maskToken (bytesOf cfg.ZAPI.InstanceToken),
                Key := "zapi.instance_token", Sensitive := true },
              { Label := "Client Token", Value := maskToken (bytesOf cfg.ZAPI.ClientToken),
                Key := "zapi.client_token", Sensitive := true } ] },
        { Title := "UI Preferences"
          Items :=
            [ { Label := "Theme", Value := bytesOf cfg.UI.Theme, Key := "ui.theme",
                Sensitive := false },
              { Label := "Mouse Support", Value := bytesOf (boolToString cfg.UI.Mouse),
                Key := "ui.mouse", Sensitive := false },
              { Label := "Animations", Value := bytesOf (boolToString cfg.UI.Animations),
                Key := "ui.animations", Sensitive := false },
              { Label := "Vim Bindings", Value := bytesOf (boolToString cfg.UI.VimBindings),
                Key := "ui.vim_bindings", Sensitive := false },
              { Label := "Auto Refresh", Value := bytesOf (L.durationString cfg.UI.AutoRefresh),
                Key := "ui.auto_refresh", Sensitive := false } ] } ]
    selected := 0
    width := 0
    height := 0 }

/-- Method `Init` of the settings view. -/
def Model.Init (_m : Model) : List Cmd := []

/-- Method `getTotalItems`. -/
def Model.getTotalItems (m : Model) : Int :=
  m.sections.foldl (fun total sec => total + (sec.Items.length : Int)) 0

/-- Method `Update` of the settings view. -/
def Model.Update (m : Model) (msg : Msg) : Model × List Cmd :=
  match msg with
  | .windowSize w h => ({ m with width := w, height := h }, [])
  | .key s =>
    if s = "up" ∨ s = "k" then
      (if m.selected > 0 then { m with selected := m.selected - 1 } else m, [])
    else if s = "down" ∨ s = "j" then
      (if m.selected < m.getTotalItems - 1 then { m with selected := m.selected + 1 } else m, [])
    else if s = "enter" then (m, [])
    else if s = "s" then (m, [])
    else if s = "esc" ∨ s = "q" then (m, [Cmd.msg (.settingsSwitchView 0 "Dashboard")])
    else (m, [])
  | _ => (m, [])

end settings

/-! ## internal/tui: the root controller -/

namespace tui

def ViewDashboard : View := 0
def ViewForms : View := 1
def ViewFormCreate : View := 2
def ViewFormEdit : View := 3
def ViewContacts : View := 4
def ViewContactCreate : View := 5
def ViewContactEdit : View := 6
def ViewWebhook : View := 7
def ViewSettings : View := 8

/-- A `tea.Model` held in the registry, by its dynamic type. -/
inductive AnyView (L : Lib) where
  | dashboard (m : dashboard.Model L)
  | formsList (m : forms.ListView L)
  | formsCreate (v : forms.CreateView L)
  | formsEdit (v : forms.EditView L)
  | contactsList (m : contacts.ListView L)
  | contactsCreate (v : contacts.CreateView L)
  | contactsEdit (v : contacts.EditView L)
  | webhook (m : webhook.Model L)
  | settings (m : settings.Model)

/-- Dynamic dispatch of `Update` on a registered view; `none` is a panic. -/
def AnyView.Update {L : Lib} (view : AnyView L) (msg : Msg) : Option (AnyView L × List Cmd) :=
  match view with
  | .dashboard m => (m.Update msg).map fun r => (.dashboard r.1, r.2)
  | .formsList m => (m.Update msg).map fun r => (.formsList r.1, r.2)
  | .formsCreate v => (v.Update msg).map fun r => (.formsCreate r.1, r.2)
  | .formsEdit v => (v.Update msg).map fun r => (.formsEdit r.1, r.2)
  | .contactsList m => (m.Update msg).map fun r => (.contactsList r.1, r.2)
  | .contactsCreate v => (v.Update msg).map fun r => (.contactsCreate r.1, r.2)
  | .contactsEdit v => (v.Update msg).map fun r => (.contactsEdit r.1, r.2)
  | .webhook m => (m.Update msg).map fun r => (.webhook r.1, r.2)
  | .settings m => some (.settings (m.Update msg).1, (m.Update msg).2)

/-- Dynamic dispatch of `Init` on a registered view; `none` is a panic. -/
def AnyView.Init {L : Lib} (view : AnyView L) : Option (List Cmd) :=
  match view with
  | .dashboard m => some m.Init
  | .formsList m => some m.Init
  | .formsCreate v => v.Init
  | .formsEdit v => some v.Init
  | .contactsList m => some m.Init
  | .contactsCreate v => some v.Init
  | .contactsEdit v => some v.Init
  | .webhook m => some m.Init
  | .settings m => some m.Init

/-- The map `views` of the controller, as the list of its entries. -/
abbrev Registry (L : Lib) := List (View × AnyView L)

/-- Reading `m.views[key]`; `none` is the nil interface of a missing key. -/
def Registry.get {L : Lib} : Registry L → View → Option (AnyView L)
  | [], _ => none
  | (k, v) :: rest, key => if k = key then some v else Registry.get rest key

/-- The assignment `m.views[key] = v`. -/
def Registry.set {L : Lib} : Registry L → View → AnyView L → Registry L
  | [], key, v => [(key, v)]
  | (k, x) :: rest, key, v =>
    if k = key then (key, v) :: rest else (k, x) :: Registry.set rest key v

structure Model (L : Lib) where
  config : config.Config
  currentView : View
  views : Registry L
  width : Int
  height : Int
  breadcrumbs : List String
  err : Err

/-- Function `NewModel` of app.go. -/
def NewModel (L : Lib) (R : database.Remote) (cfg : config.Config) : Model L :=
  { config := cfg
    currentView := ViewDashboard
    breadcrumbs := ["Dashboard"]
    views :=
      [ (ViewDashboard, .dashboard (dashboard.New L cfg)),
        (ViewForms, .formsList (forms.NewListView L cfg)),
        (ViewFormCreate, .formsCreate (forms.NewCreateView L R cfg)),
        (ViewContacts, .contactsList (contacts.NewListView L cfg)),
        (ViewContactCreate, .contactsCreate (contacts.NewCreateView L cfg)),
        (ViewWebhook, .webhook (webhook.New L cfg)),
        (ViewSettings, .settings (settings.New L cfg)) ]
    width := 0
    height := 0
    err := none }

/-- The loop of `Init` over the registry; the order of a Go map is not fixed, the batch
is the same. -/
def initAll {L : Lib} : Registry L → Option (List Cmd)
  | [] => some []
  | (_, v) :: rest =>
    match v.Init, initAll rest with
    | some c, some cs => some (c ++ cs)
    | _, _ => none

/-- Method `Init` of the controller. -/
def Model.Init {L : Lib} (m : Model L) : Option (List Cmd) := initAll m.views

/-- Method `switchView` of the controller. -/
def Model.switchView {L : Lib} (m : Model L) (view : View) (title : String) :
    Model L × List Cmd :=
  let crumbs := if m.breadcrumbs.length > 1 then m.breadcrumbs.take 1 else m.breadcrumbs
  let crumbs := if view ≠ ViewDashboard then crumbs ++ [title] else crumbs
  let m : Model L := { m with currentView := view, breadcrumbs := crumbs }
  if view = ViewForms then
    match m.views.get ViewForms with
    | some (.formsList formsView) =>
      ({ m with views := m.views.set ViewForms (.formsList formsView.StartLoading.1) },
        formsView.StartLoading.2)
    | _ => (m, [])
  else if view = ViewContacts then
    match m.views.get ViewContacts with
    | some (.contactsList contactsView) =>
      ({ m with views := m.views.set ViewContacts (.contactsList contactsView.StartLoading.1) },
        contactsView.StartLoading.2)
    | _ => (m, [])
  else (m, [])

/-- The block `if currentView, ok := m.views[m.currentView].(tea.Model); ok` of `Update`:
the active view, if there is one, handles the message and is stored back. -/
def Model.forward {L : Lib} (m : Model L) (msg : Msg) : Option (Model L × List Cmd) :=
  match m.views.get m.currentView with
  | none => some (m, [])
  | some v =>
    match v.Update msg with
    | none => none
    | some (updated, cmd) => some ({ m with views := m.views.set m.currentView updated }, cmd)

/-- The loop of the `tea.WindowSizeMsg` case over the registry: every view handles the
message and is stored back under its key. -/
def updateAll {L : Lib} (msg : Msg) : Registry L → Option (Registry L × List Cmd)
  | [] => some ([], [])
  | (k, v) :: rest =>
    match v.Update msg, updateAll msg rest with
    | some (updated, cmd), some (views, cmds) => some ((k, updated) :: views, cmd ++ cmds)
    | _, _ => none

/-- Method `Update` of the controller; `none` is a panic of a view. -/
def Model.Update {L : Lib} (R : database.Remote) (m : Model L) (msg : Msg) :
    Option (Model L × List Cmd) :=
  match msg with
  | .windowSize w h =>
    (updateAll msg m.views).map fun r => ({ m with width := w, height := h, views := r.1 }, r.2)
  | .key s =>
    if s = "ctrl+c" then some (m, [Cmd.quit])
    else if m.currentView = ViewDashboard then
      if s = "q" then some (m, [Cmd.quit])
      else if s = "1" then some (m.switchView ViewDashboard "Dashboard")
      else if s = "2" then some (m.switchView ViewForms "Forms")
      else if s = "3" then some (m.switchView ViewContacts "Contacts")
      else if s = "4" then some (m.switchView ViewWebhook "Test Webhook")
      else if s = "5" then some (m.switchView ViewSettings "Settings")
      else m.forward msg
    else if s = "esc" then
      match m.views.get m.currentView with
      | none => some (m, [])
      | some v =>
        match v.Update msg with
        | none => none
        | some (updated, cmd) =>
          some
            ({ m with
                views := m.views.set m.currentView updated
                currentView := ViewDashboard
                breadcrumbs := ["Dashboard"] },
              cmd)
    else m.forward msg
  | .switchView view title data =>
    match data with
    | none => some (m.switchView view title)
    | some d =>
      ((m.switchView view title).1.forward d).map fun r =>
        (r.1, (m.switchView view title).2 ++ r.2)
  | .formsSwitchToCreate => some (m.switchView ViewFormCreate "Create Form")
  | .formsSwitchToEdit formID =>
    match forms.NewEditView L R m.config formID with
    | none => none
    | some editView =>
      let r := Model.switchView { m with views := m.views.set ViewFormEdit (.formsEdit editView) }
        ViewFormEdit "Edit Form"
      some (r.1, r.2 ++ editView.Init)
  | .formsGoBackToList =>
    let r := m.switchView ViewForms "Forms"
    match r.1.views.get ViewForms with
    | some (.formsList formsView) =>
      some ({ r.1 with views := r.1.views.set ViewForms (.formsList formsView.ForceReload.1) },
        r.2 ++ formsView.ForceReload.2)
    | _ => some r
  | .contactsSwitchToCreate => some (m.switchView ViewContactCreate "Create Contact")
  | .contactsSwitchToEdit contactID =>
    match contacts.NewEditView L R m.config contactID with
    | none => none
    | some editView =>
      let r := Model.switchView
        { m with views := m.views.set ViewContactEdit (.contactsEdit editView) }
        ViewContactEdit "Edit Contact"
      some (r.1, r.2 ++ editView.Init)
  | .contactsGoBackToList =>
    let r := m.switchView ViewContacts "Contacts"
    match r.1.views.get ViewContacts with
    | some (.contactsList contactsView) =>
      some
        ({ r.1 with
            views := r.1.views.set ViewContacts (.contactsList contactsView.ForceReload.1) },
          r.2 ++ contactsView.ForceReload.2)
    | _ => some r
  | .error e => some ({ m with err := some e }, [])
  | _ => m.forward msg

end tui

/-! ## Runs of the controller and concrete instances -/

namespace tui

/-- The controller after handling the messages of a list one after the other, each with
the answers the remote store gives at that time; `none` if a view panicked on the way. -/
def Model.run {L : Lib} (m : Model L) : List (database.Remote × Msg) → Option (Model L)
  | [] => some m
  | (R, msg) :: rest =>
    match m.Update R msg with
    | none => none
    | some (n, _) => n.run rest

/-- The navigation state is well formed: only the dashboard crumb on the dashboard,
the dashboard crumb and one title elsewhere. -/
def Model.NavOk {L : Lib} (m : Model L) : Prop :=
  (m.currentView = ViewDashboard ∧ m.breadcrumbs = ["Dashboard"]) ∨
    (m.currentView ≠ ViewDashboard ∧ ∃ title, m.breadcrumbs = ["Dashboard", title])

/-- A registered view whose `Update` cannot panic on a missing form, menu item or input:
the dashboard selection is inside the menu, a create view has its form, an edit view is
loading, failed or has its form, and the webhook view has inputs.  Nothing is asked of a
list view: its cursor belongs to the table widget, and with a negative cursor the key `d`
panics on a list that holds rows. -/
def AnyView.Safe {L : Lib} : AnyView L → Prop
  | .dashboard m => 0 ≤ m.selected ∧ m.selected < (m.menuItems.length : Int)
  | .formsList _ => True
  | .formsCreate v => v.form.isSome = true
  | .formsEdit v => v.loading = true ∨ v.err ≠ none ∨ v.form.isSome = true
  | .contactsList _ => True
  | .contactsCreate v => v.form.isSome = true
  | .contactsEdit v => v.loading = true ∨ v.err ≠ none ∨ v.form.isSome = true
  | .webhook m => m.inputs.length ≠ 0
  | .settings _ => True

/-- Every view of the registry is safe. -/
def Registry.AllSafe {L : Lib} (views : Registry L) : Prop := ∀ p ∈ views, AnyView.Safe p.2

end tui

namespace fixtures

/-- Widgets that ignore every message. -/
def lib : Lib :=
  { Table := Unit
    Spinner := Unit
    Input := Unit
    Form := Unit
    tableNew := fun _ => ()
    tableSetHeight := fun t _ => t
    tableSetRows := fun t _ => t
    tableCursor := fun _ => 0
    tableUpdate := fun t _ => (t, [])
    spinnerNew := ()
    spinnerUpdate := fun sp _ => (sp, [])
    inputNew := fun _ _ _ => ()
    inputFocus := fun i => i
    inputBlur := fun i => i
    inputUpdate := fun i _ => (i, [])
    formNew := fun _ _ => ()
    formInit := fun _ => []
    formGetState := fun _ => FormState.StateNormal
    formUpdate := fun f _ => (f, [], [])
    formatTime := fun _ => ""
    durationString := fun _ => "" }

/-- A remote store without forms and contacts. -/
def remote : database.Remote :=
  { GetAllContacts := .ok []
    GetFormByID := fun _ => .error "form not found"
    GetContactByID := fun _ => .error "contact not found" }

/-- A valid configuration. -/
def cfg : config.Config :=
  { Cloudflare :=
      { AccountID := "acc", APIToken := "token", DatabaseID := "db",
        WorkerURL := "https://example.workers.dev" }
    ZAPI := { InstanceID := "", InstanceToken := "", ClientToken := "" }
    UI :=
      { Theme := "charm", Mouse := true, Animations := true, VimBindings := false,
        AutoRefresh := 30, ConfirmDestructive := true } }

/-- The controller at start-up. -/
def start : tui.Model lib := tui.NewModel lib remote cfg

/-- The controller after the key `5` at start-up: the settings view is active. -/
def onSettings : tui.Model lib := (start.switchView tui.ViewSettings "Settings").1

/-- The controller after `SwitchToCreateMsg` at start-up: the form create view is active. -/
def onFormCreate : tui.Model lib := (start.switchView tui.ViewFormCreate "Create Form").1

/-- A form as the remote store lists it. -/
def sampleForm : database.FormWithStats :=
  { toForm :=
      { ID := "contact", Name := "Contact", Description := "", Fields := [], Numbers := [],
        CreatedAt := 0, UpdatedAt := 0 }
    FieldCount := 4
    NumberCount := 1 }

/-- The controller on the dashboard with the forms list Ready: one form loaded. -/
def formsReady : tui.Model lib :=
  { start with
    views := start.views.set tui.ViewForms
      (.formsList { forms.NewListView lib cfg with forms := [sampleForm] }) }

/-- The state after `NewModel` has handled a `SwitchViewMsg` for the form edit view, for
which no view is registered. -/
def unregisteredEdit : tui.Model lib := (start.switchView tui.ViewFormEdit "Edit Form").1

end fixtures

/-! ## Rendering

`View` returns a string that the styling library lays out.  The embedding keeps which
render function produced it: a `Panel` for a sub-view, a `Screen` for the controller. -/

/-- What `View` of a sub-view returns, by the render function that built it. -/
inductive Panel where
  /-- The result of `renderError`, for the error `err`. -/
  | renderError (err : String)
  /-- The result of `renderLoading`. -/
  | renderLoading
  /-- The result of `renderSuccess`. -/
  | renderSuccess
  /-- The normal content of the view. -/
  | content
  deriving DecidableEq

/-- Predicate selecting the create command of the form create view. -/
def Cmd.isFormsCreate : Cmd → Bool
  | .formsCreate => true
  | _ => false

/-- Predicate selecting the create command of the contact create view. -/
def Cmd.isContactsCreate : Cmd → Bool
  | .contactsCreate => true
  | _ => false

namespace forms

/-- Method `View` of the forms list. -/
def ListView.View {L : Lib} (m : ListView L) : Panel :=
  match m.err with
  | some e => .renderError e
  | none => if m.loading then .renderLoading else .content

/-- Method `View` of the form create view; `none` is the nil dereference of `v.form`. -/
def CreateView.View {L : Lib} (v : CreateView L) : Option Panel :=
  match v.err with
  | some e => some (.renderError e)
  | none =>
    if v.done then some .renderSuccess
    else
      match v.form with
      | some _ => some .content
      | none => none

/-- Method `View` of the form edit view; `none` is the nil dereference of `v.form`. -/
def EditView.View {L : Lib} (v : EditView L) : Option Panel :=
  if v.loading then some .renderLoading
  else
    match v.err with
    | some e => some (.renderError e)
    | none =>
      if v.done then some .renderSuccess
      else
        match v.form with
        | some _ => some .content
        | none => none

end forms

namespace contacts

/-- Method `View` of the contacts list. -/
def ListView.View {L : Lib} (m : ListView L) : Panel :=
  match m.err with
  | some e => .renderError e
  | none => if m.loading then .renderLoading else .content

/-- Method `View` of the contact create view; `none` is the nil dereference of `v.form`. -/
def CreateView.View {L : Lib} (v : CreateView L) : Option Panel :=
  match v.err with
  | some e => some (.renderError e)
  | none =>
    if v.done then some .renderSuccess
    else
      match v.form with
      | some _ => some .content
      | none => none

/-- Method `View` of the contact edit view; `none` is the nil dereference of `v.form`. -/
def EditView.View {L : Lib} (v : EditView L) : Option Panel :=
  if v.loading then some .renderLoading
  else
    match v.err with
    | some e => some (.renderError e)
    | none =>
      if v.done then some .renderSuccess
      else
        match v.form with
        | some _ => some .content
        | none => none

end contacts

namespace dashboard

/-- Method `View` of the dashboard. -/
def Model.View {L : Lib} (m : Model L) : Panel :=
  match m.err with
  | some e => .renderError e
  | none => if m.loading then .renderLoading else .content

end dashboard

namespace webhook

/-- Method `View` of the webhook view: always its content. -/
def Model.View {L : Lib} (_m : Model L) : Panel := .content

end webhook

namespace settings

/-- Method `View` of the settings view: always its content. -/
def Model.View (_m : Model) : Panel := .content

end settings

namespace tui

/-- Dynamic dispatch of `View` on a registered view; `none` is a panic. -/
def AnyView.View {L : Lib} (view : AnyView L) : Option Panel :=
  match view with
  | .dashboard m => some m.View
  | .formsList m => some m.View
  | .formsCreate v => v.View
  | .formsEdit v => v.View
  | .contactsList m => some m.View
  | .contactsCreate v => v.View
  | .contactsEdit v => v.View
  | .webhook m => some m.View
  | .settings m => some m.View

/-- What `View` of the controller returns. -/
inductive Screen where
  /-- The result of `renderError` of the controller, with its hint to press any key. -/
  | renderError (err : String)
  /-- The header with the crumbs, the content of the active view (`none` is the empty
  string of a missing view) and the footer with its help text. -/
  | page (breadcrumbs : List String) (content : Option Panel) (help : String)
  deriving DecidableEq

/-- The help text chosen by `renderFooter`. -/
def Model.renderFooter {L : Lib} (m : Model L) : String :=
  if m.currentView = ViewDashboard then "1-5: Navigate • ?: Help • q: Quit"
  else if m.currentView = ViewForms then
    "↑↓/jk: Navigate • n: New • e: Edit • d: Delete • Enter: Select • Esc: Back"
  else if m.currentView = ViewFormCreate ∨ m.currentView = ViewFormEdit then
    "Tab: Next Field • Enter: Submit • Esc: Cancel"
  else if m.currentView = ViewContacts then
    "↑↓/jk: Navigate • a: Add • e: Edit • d: Delete • Enter: View • Esc: Back"
  else if m.currentView = ViewContactCreate ∨ m.currentView = ViewContactEdit then
    "Tab: Next Field • Enter: Submit • Esc: Cancel"
  else if m.currentView = ViewWebhook then "Tab: Next Field • Enter: Send • Esc: Back"
  else if m.currentView = ViewSettings then "↑↓: Navigate • Enter: Edit • s: Save • Esc: Back"
  else "?: Help • Esc: Back • q: Quit"

/-- Method `View` of the controller; `none` is a panic of the active view. -/
def Model.View {L : Lib} (m : Model L) : Option Screen :=
  match m.err with
  | some e => some (.renderError e)
  | none =>
    match m.views.get m.currentView with
    | none => some (.page m.breadcrumbs none m.renderFooter)
    | some v => v.View.map fun panel => .page m.breadcrumbs (some panel) m.renderFooter

end tui

namespace fixtures

/-- Widgets with a form that records its state: the key `enter` completes it and stores
`true` through the pointer of the confirmation. -/
def libSubmit : Lib :=
  { lib with
    Form := FormState
    formNew := fun _ _ => FormState.StateNormal
    formInit := fun _ => []
    formGetState := fun f => f
    formUpdate := fun f msg =>
      match msg with
      | .key "enter" => (FormState.StateCompleted, [Write.bool 4 true, Write.bool 5 true], [])
      | _ => (f, [], []) }

/-- A remote store that holds one form and one contact. -/
def remoteData : database.Remote :=
  { GetAllContacts := .ok []
    GetFormByID := fun _ => .ok sampleForm.toForm
    GetContactByID := fun id =>
      .ok
        { ID := id, PhoneNumber := "5511999999999", Name := "Ana", Company := "", Role := "",
          Notes := "", CreatedAt := 0, UpdatedAt := 0 } }

/-- The form create view after the user has confirmed and submitted the form and the
creation has succeeded. -/
def submittedForm : forms.CreateView libSubmit :=
  { forms.NewCreateView libSubmit remote cfg with
    form := some FormState.StateCompleted
    formData := { (forms.NewCreateView libSubmit remote cfg).formData with Confirmed := true }
    done := true }

/-- The contact create view after the user has confirmed and submitted the form and the
creation has succeeded. -/
def submittedContact : contacts.CreateView libSubmit :=
  { contacts.NewCreateView libSubmit cfg with
    form := some FormState.StateCompleted
    contactData := { (contacts.NewCreateView libSubmit cfg).contactData with Confirmed := true }
    done := true }

end fixtures

namespace fixtures

/-- A contact as the remote store lists it. -/
def sampleContact : database.ContactWithStats :=
  { toContact :=
      { ID := 7, PhoneNumber := "5511999999999", Name := "Ana", Company := "", Role := "",
        Notes := "", CreatedAt := 0, UpdatedAt := 0 }
    FormCount := 1
    FormIDs := ["contact"] }

/-- A forms list whose load has completed: not loading, one form held. -/
def formsListReady : forms.ListView lib :=
  { forms.NewListView lib cfg with forms := [sampleForm] }

/-- A contacts list whose load has completed: not loading, one contact held. -/
def contactsListReady : contacts.ListView lib :=
  { contacts.NewListView lib cfg with contacts := [sampleContact] }

end fixtures

namespace fixtures

/-- The form create view after the user has confirmed and submitted the form. -/
def confirmedForm : forms.CreateView libSubmit :=
  { forms.NewCreateView libSubmit remote cfg with
    form := some FormState.StateCompleted
    formData := { (forms.NewCreateView libSubmit remote cfg).formData with Confirmed := true } }

/-- The contact create view after the user has confirmed and submitted the form. -/
def confirmedContact : contacts.CreateView libSubmit :=
  { contacts.NewCreateView libSubmit cfg with
    form := some FormState.StateCompleted
    contactData := { (contacts.NewCreateView libSubmit cfg).contactData with Confirmed := true } }

/-- The controller with the submitting form widget at start-up. -/
def startSubmit : tui.Model libSubmit := tui.NewModel libSubmit remote cfg

/-- A form edit view whose load has failed. -/
def failedFormEdit : forms.EditView lib :=
  { forms.EditView.zero lib cfg with err := some "failed to load form: form not found" }

/-- A contact edit view whose load has failed. -/
def failedContactEdit : contacts.EditView lib :=
  { contacts.EditView.zero lib cfg with
    err := some "failed to load contact: contact not found" }

end fixtures

namespace fixtures

/-- The controller back on the dashboard while the forms list is still loading: the
state after the keys `2` and `esc` at start-up. -/
def awayWhileLoading : tui.Model lib :=
  { start with
    views := start.views.set tui.ViewForms
      (.formsList { forms.NewListView lib cfg with loading := true }) }

end fixtures

/-! ## Secrets, form ids and the commands of the create views -/

namespace config

/-- Function `maskString` of config.go, on the bytes of the string. -/
def maskString (s : settings.Bytes) : settings.Bytes :=
  if s.length ≤ 8 then settings.bytesOf "****"
  else s.take 4 ++ settings.bytesOf "****" ++ s.drop (s.length - 4)

end config

namespace strings

/-- Function `unicode.ToLower`: the letters `A` to `Z` are shifted, the other ASCII
characters are kept, and `table` is the case table above ASCII. -/
def toLowerRune (table : Char → Char) (c : Char) : Char :=
  if c.toNat ≤ 127 then
    if 65 ≤ c.toNat ∧ c.toNat ≤ 90 then Char.ofNat (c.toNat + 32) else c
  else table c

/-- Function `strings.ToLower`. -/
def ToLower (table : Char → Char) (s : String) : String :=
  String.mk (s.data.map (toLowerRune table))

/-- Function `strings.ReplaceAll` for texts of one character, on the characters. -/
def replaceChar (old new : Char) (cs : List Char) : List Char :=
  cs.map fun c => if c = old then new else c

end strings

namespace database

/-- The writes of the remote store as the create commands issue them, and the addresses
the runtime gives to the cells the commands allocate. -/
structure Writes where
  CreateForm : Form → Err
  CreateContact : Contact → Except String Int
  /-- The address of the cell `cID` allocated for the recipient at a position. -/
  cellAddr : Nat → Nat

end database

namespace forms

/-- The test of the loop of `generateFormID`: `a` to `z`, `0` to `9` and `-`. -/
def keepsIDChar (r : Char) : Bool :=
  (97 ≤ r.toNat && r.toNat ≤ 122) || (48 ≤ r.toNat && r.toNat ≤ 57) || r.toNat == 45

/-- Function `generateFormID` of forms/create.go. -/
def generateFormID (table : Char → Char) (name : String) : String :=
  String.mk
    ((strings.replaceChar '_' '-'
      (strings.replaceChar ' ' '-' (strings.ToLower table name).data)).filter keepsIDChar)

/-- The validator of the Form ID input of `CreateView.buildForm`. -/
def validateFormID (s : String) : Err :=
  if s ≠ "" ∧ ' ' ∈ s.data then some "ID cannot contain spaces" else none

/-- The loop of `createForm` over the selected contacts, from position `i` on: the first
contact whose id prints as the selected value becomes a number of the form. -/
def selectedNumbers (W : database.Writes) (formID : String) (contacts : List database.Contact) :
    List String → Nat → List database.Number
  | [], _ => []
  | contactID :: rest, i =>
    match contacts.find? (fun contact => fmtInt contact.ID == contactID) with
    | some contact =>
      { ID := 0, FormID := formID, PhoneNumber := contact.PhoneNumber, Label := contact.Name,
        ContactID := some { addr := W.cellAddr i, val := contact.ID } } ::
        selectedNumbers W formID contacts rest (i + 1)
    | none => selectedNumbers W formID contacts rest (i + 1)

/-- Method `createForm` of the form create view, as the runtime runs it: the view as the
command leaves it and the message it returns. -/
def CreateView.createForm {L : Lib} (table : Char → Char) (W : database.Writes)
    (v : CreateView L) : CreateView L × Msg :=
  match v.db with
  | none =>
    ({ v with err := some "database client not initialized" },
      .formCreated "" (some "database client not initialized"))
  | some _ =>
    let id := if v.formData.ID = "" then generateFormID table v.formData.Name else v.formData.ID
    let named : CreateView L := { v with formData := { v.formData with ID := id } }
    let form : database.Form :=
      { ID := id
        Name := v.formData.Name
        Description := v.formData.Description
        Fields := v.formData.Fields.enum.map fun p =>
          { ID := "", FormID := id, ElementorID := p.2.ElementorID, Label := p.2.Label,
            Typ := p.2.Typ, Required := p.2.Required, Position := p.1 }
        Numbers := selectedNumbers W id v.contacts v.formData.SelectedContacts 0
        CreatedAt := 0
        UpdatedAt := 0 }
    match W.CreateForm form with
    | some e => ({ named with err := some e }, .formCreated "" (some e))
    | none => (named, .formCreated form.ID none)

/-- The state every form edit view is in: not loading, and failed or with its form. -/
def EditView.FormSafe {L : Lib} (v : EditView L) : Prop :=
  v.loading = false ∧ (v.err ≠ none ∨ v.form.isSome = true)

/-- A text without `|`, without a newline and without white space at its ends. -/
def cleanText (cs : List Char) : Bool :=
  !cs.contains '|' && !cs.contains '\n' && !cs.head?.any strings.isSpace &&
    !cs.getLast?.any strings.isSpace

/-- A field whose three texts are clean and whose type does not end in `*`. -/
def FieldData.Clean (f : FieldData) : Bool :=
  cleanText f.ElementorID.data && cleanText f.Label.data && cleanText f.Typ.data &&
    !strings.hasStarSuffix f.Typ.data

end forms

namespace contacts

/-- Method `createContact` of the contact create view, as the runtime runs it: the view
as the command leaves it and the message it returns. -/
def CreateView.createContact {L : Lib} (W : database.Writes) (v : CreateView L) :
    CreateView L × Msg :=
  match v.db with
  | none =>
    ({ v with err := some "database client not initialized" },
      .contactCreated 0 (some "database client not initialized"))
  | some _ =>
    match W.CreateContact
        { ID := 0, PhoneNumber := v.contactData.PhoneNumber, Name := v.contactData.Name,
          Company := v.contactData.Company, Role := v.contactData.Role,
          Notes := v.contactData.Notes, CreatedAt := 0, UpdatedAt := 0 } with
    | .error e => ({ v with err := some e }, .contactCreated 0 (some e))
    | .ok id => (v, .contactCreated id none)

/-- The state every contact edit view is in: not loading, and failed or with its form. -/
def EditView.FormSafe {L : Lib} (v : EditView L) : Prop :=
  v.loading = false ∧ (v.err ≠ none ∨ v.form.isSome = true)

end contacts

namespace fixtures

/-- The statistics of the dashboard. -/
def sampleStats : database.Stats :=
  { TotalForms := 1, ActiveForms := 1, TotalContacts := 1, WebhooksToday := 0,
    WebhooksThisWeek := 0, LastWebhook := 0, ConnectionStatus := "Connected" }

/-- The dashboard after its statistics have arrived. -/
def dashboardLoaded : dashboard.Model lib :=
  { dashboard.New lib cfg with loading := false, stats := some sampleStats }

/-- The controller on the dashboard after the statistics have arrived. -/
def loaded : tui.Model lib :=
  { start with views := start.views.set tui.ViewDashboard (.dashboard dashboardLoaded) }

/-- A form with one recipient: contact 7, whose id is stored in a cell at an address. -/
def formWithRecipient : database.Form :=
  { sampleForm.toForm with
    Numbers :=
      [ { ID := 1, FormID := "contact", PhoneNumber := "5511999999999", Label := "Ana",
          ContactID := some { addr := 824633802904, val := 7 } } ] }

/-- A remote store that holds the form with its recipient and the contact 7. -/
def remoteRecipient : database.Remote :=
  { GetAllContacts := .ok [sampleContact.toContact]
    GetFormByID := fun _ => .ok formWithRecipient
    GetContactByID := fun _ => .ok sampleContact.toContact }

/-- A remote store that refuses every write. -/
def writesFail : database.Writes :=
  { CreateForm := fun _ => some "UNIQUE constraint failed"
    CreateContact := fun _ => .error "UNIQUE constraint failed"
    cellAddr := fun i => 824633802904 + 8 * i }

/-- A remote store that accepts every write. -/
def writesOk : database.Writes :=
  { CreateForm := fun _ => none
    CreateContact := fun _ => .ok 8
    cellAddr := fun i => 824633802904 + 8 * i }

end fixtures

namespace forms

/-- The characters of the line `buildForm` writes for a field: the id, the label and the
type, separated by `|`, and ` *` at the end of a required field. -/
def fieldLineChars (f : FieldData) : List Char :=
  f.ElementorID.data ++ '|' ::
    (f.Label.data ++ '|' :: (f.Typ.data ++ if f.Required then [' ', '*'] else []))

end forms

/-! ## States the program reaches -/

/-- Predicate selecting the `tui.SwitchViewMsg`.  `Update` has a case for it, and no
function of the repository constructs one: the dashboard and the settings view send
function-local types of the same name. -/
def Msg.isSwitchViewMsg : Msg → Bool
  | .switchView _ _ _ => true
  | _ => false

namespace tui

/-- The keys under which `NewModel` registers a view. -/
def startViews : List View :=
  [ViewDashboard, ViewForms, ViewFormCreate, ViewContacts, ViewContactCreate, ViewWebhook,
    ViewSettings]

/-- The registry holds a view for the active view and for every key of `NewModel`. -/
def Model.Registered {L : Lib} (m : Model L) : Prop :=
  (m.views.get m.currentView).isSome = true ∧
    ∀ k ∈ startViews, (m.views.get k).isSome = true

end tui

namespace fixtures

/-- The state after the keys `2` and `esc` at start-up and then the key `5`. -/
def awayOnSettings : tui.Model lib :=
  { awayWhileLoading with
    currentView := tui.ViewSettings
    breadcrumbs := ["Dashboard", "Settings"] }

/-- Widgets whose table is its cursor alone: setting the rows moves a cursor that is past
the last row onto the last row, which is -1 for a table without rows. -/
def libCursor : Lib :=
  { lib with
    Table := Int
    tableNew := fun _ => 0
    tableSetHeight := fun t _ => t
    tableSetRows := fun t rows =>
      if t > (rows.length : Int) - 1 then (rows.length : Int) - 1 else t
    tableCursor := fun t => t
    tableUpdate := fun t _ => (t, []) }

/-- The controller with the cursor table on the forms list, after a load without forms
and then a load of one form: the cursor of the table is -1. -/
def cursorBeforeRows : tui.Model libCursor :=
  { tui.NewModel libCursor remote cfg with
    currentView := tui.ViewForms
    breadcrumbs := ["Dashboard", "Forms"]
    views := (tui.NewModel libCursor remote cfg).views.set tui.ViewForms
      (.formsList
        { forms.NewListView libCursor cfg with forms := [sampleForm], table := (-1 : Int) }) }

end fixtures

/-! ## Theorems -/

namespace tui

theorem switchView_currentView {L : Lib} (m : Model L) (view : View) (title : String) :
    (m.switchView view title).1.currentView = view := by
  unfold Model.switchView
  simp only
  split_ifs <;> (try split) <;> rfl

theorem switchView_breadcrumbs {L : Lib} (m : Model L) (view : View) (title : String) :
    (m.switchView view title).1.breadcrumbs =
      (if view ≠ ViewDashboard then
        (if m.breadcrumbs.length > 1 then m.breadcrumbs.take 1 else m.breadcrumbs) ++ [title]
      else (if m.breadcrumbs.length > 1 then m.breadcrumbs.take 1 else m.breadcrumbs)) := by
  unfold Model.switchView
  simp only
  split_ifs <;> (try split) <;> rfl

theorem navOk_head {L : Lib} (m : Model L) (h : m.NavOk) :
    m.breadcrumbs.head? = some "Dashboard" := by
  rcases h with ⟨_, hb⟩ | ⟨_, t, hb⟩ <;> simp [hb]

theorem switchView_crumbs_of_head {L : Lib} (m : Model L) (view : View) (title : String)
    (h : m.breadcrumbs.head? = some "Dashboard") :
    (m.switchView view title).1.breadcrumbs =
      if view = ViewDashboard then ["Dashboard"] else ["Dashboard", title] := by
  rw [switchView_breadcrumbs]
  cases hb : m.breadcrumbs with
  | nil => simp [hb] at h
  | cons c rest =>
    have hc : c = "Dashboard" := by simpa [hb] using h
    subst hc
    cases rest with
    | nil => by_cases hv : view = ViewDashboard <;> simp [hv]
    | cons d rest2 => by_cases hv : view = ViewDashboard <;> simp [hv]

theorem switchView_navOk {L : Lib} (m : Model L) (view : View) (title : String)
    (h : m.breadcrumbs.head? = some "Dashboard") : (m.switchView view title).1.NavOk := by
  unfold Model.NavOk
  rw [switchView_crumbs_of_head m view title h, switchView_currentView]
  by_cases hv : view = ViewDashboard
  · left; simp [hv]
  · right; exact ⟨hv, title, by simp [hv]⟩

theorem forward_nav {L : Lib} (m : Model L) (msg : Msg) (r : Model L × List Cmd)
    (h : m.forward msg = some r) :
    r.1.currentView = m.currentView ∧ r.1.breadcrumbs = m.breadcrumbs := by
  unfold Model.forward at h
  split at h
  · cases h; exact ⟨rfl, rfl⟩
  · split at h
    · cases h
    · cases h; exact ⟨rfl, rfl⟩

theorem navOk_congr {L : Lib} (m n : Model L) (hc : n.currentView = m.currentView)
    (hb : n.breadcrumbs = m.breadcrumbs) (h : m.NavOk) : n.NavOk := by
  unfold Model.NavOk at *
  rw [hc, hb]; exact h

theorem Update_navOk {L : Lib} (R : database.Remote) (m : Model L) (msg : Msg)
    (r : Model L × List Cmd) (h : m.NavOk) (hu : m.Update R msg = some r) : r.1.NavOk := by
  have hh := navOk_head m h
  have fwd : ∀ x : Msg, m.forward x = some r → r.1.NavOk := fun x hx =>
    navOk_congr m r.1 (forward_nav m x r hx).1 (forward_nav m x r hx).2 h
  cases msg <;> simp only [Model.Update] at hu
  case windowSize w hgt =>
    cases hall : updateAll (Msg.windowSize w hgt) m.views with
    | none => simp [hall] at hu
    | some p =>
      simp only [hall, Option.map_some', Option.some.injEq] at hu
      subst hu
      exact navOk_congr m _ rfl rfl h
  case key s =>
    split_ifs at hu with h1 h2 h3 h4 h5 h6 h7 h8 h9
    · cases hu; exact h
    · cases hu; exact h
    · cases hu; exact switchView_navOk m _ _ hh
    · cases hu; exact switchView_navOk m _ _ hh
    · cases hu; exact switchView_navOk m _ _ hh
    · cases hu; exact switchView_navOk m _ _ hh
    · cases hu; exact switchView_navOk m _ _ hh
    · exact fwd _ hu
    · split at hu
      · cases hu; exact h
      · split at hu
        · cases hu
        · cases hu; left; exact ⟨rfl, rfl⟩
    · exact fwd _ hu
  case switchView view title data =>
    cases data with
    | none => simp only [Option.some.injEq] at hu; subst hu; exact switchView_navOk m _ _ hh
    | some d =>
      simp only at hu
      cases hf : (m.switchView view title).1.forward d with
      | none => simp [hf] at hu
      | some q =>
        simp only [hf, Option.map_some', Option.some.injEq] at hu
        subst hu
        exact navOk_congr _ _ (forward_nav _ d q hf).1 (forward_nav _ d q hf).2
          (switchView_navOk m _ _ hh)
  case formsSwitchToCreate => cases hu; exact switchView_navOk m _ _ hh
  case contactsSwitchToCreate => cases hu; exact switchView_navOk m _ _ hh
  case formsSwitchToEdit formID =>
    split at hu
    · cases hu
    · cases hu; exact switchView_navOk _ _ _ hh
  case contactsSwitchToEdit contactID =>
    split at hu
    · cases hu
    · cases hu; exact switchView_navOk _ _ _ hh
  case formsGoBackToList =>
    split at hu
    · cases hu
      exact navOk_congr (m.switchView ViewForms "Forms").1 _ rfl rfl (switchView_navOk m _ _ hh)
    · cases hu; exact switchView_navOk m _ _ hh
  case contactsGoBackToList =>
    split at hu
    · cases hu
      exact navOk_congr (m.switchView ViewContacts "Contacts").1 _ rfl rfl
        (switchView_navOk m _ _ hh)
    · cases hu; exact switchView_navOk m _ _ hh
  case error e => cases hu; exact navOk_congr m _ rfl rfl h
  all_goals exact fwd _ hu

theorem dashboard_Update_safe {L : Lib} (m : dashboard.Model L) (msg : Msg)
    (h : 0 ≤ m.selected ∧ m.selected < (m.menuItems.length : Int)) :
    ∃ r, m.Update msg = some r ∧
      (0 ≤ r.1.selected ∧ r.1.selected < (r.1.menuItems.length : Int)) := by
  cases msg <;> simp only [dashboard.Model.Update]
  case key s =>
    split_ifs with h1 h2 h3 h4 h5 h6 h7
    · exact ⟨_, rfl, h⟩
    · exact ⟨_, rfl, by constructor <;> simp only <;> omega⟩
    · exact ⟨_, rfl, h⟩
    · exact ⟨_, rfl, by constructor <;> simp only <;> omega⟩
    · exact ⟨_, rfl, h⟩
    · have hlt : m.selected.toNat < m.menuItems.length := by omega
      have hi : dashboard.itemAt m.menuItems m.selected = some (m.menuItems[m.selected.toNat]) := by
        unfold dashboard.itemAt
        rw [if_neg (by omega)]
        exact List.getElem?_eq_getElem hlt
      rw [hi]
      exact ⟨_, rfl, h⟩
    · split
      · exact ⟨_, rfl, h⟩
      · exact ⟨_, rfl, h⟩
    · exact ⟨_, rfl, h⟩
  case spinnerTick t =>
    split_ifs
    · exact ⟨_, rfl, h⟩
    · exact ⟨_, rfl, h⟩
  all_goals exact ⟨_, rfl, h⟩

theorem formsCreate_finish_safe {L : Lib} (v : forms.CreateView L) (msg : Msg)
    (h : v.form.isSome = true) : ∃ r, v.finish msg = some r ∧ r.1.form.isSome = true := by
  unfold forms.CreateView.finish
  cases hf : v.form with
  | none => simp [hf] at h
  | some f =>
    simp only
    split_ifs
    · exact ⟨_, rfl, by simp [hf]⟩
    · exact ⟨_, rfl, rfl⟩

theorem formsCreate_Update_safe {L : Lib} (v : forms.CreateView L) (msg : Msg)
    (h : v.form.isSome = true) : ∃ r, v.Update msg = some r ∧ r.1.form.isSome = true := by
  cases msg <;> simp only [forms.CreateView.Update]
  case windowSize w hgt => exact formsCreate_finish_safe _ _ h
  case key s =>
    split_ifs
    · exact ⟨_, rfl, h⟩
    · exact formsCreate_finish_safe _ _ h
  case formCreated id error =>
    cases error with
    | none => exact ⟨_, rfl, h⟩
    | some e => exact ⟨_, rfl, h⟩
  all_goals exact formsCreate_finish_safe _ _ h

theorem contactsCreate_finish_safe {L : Lib} (v : contacts.CreateView L) (msg : Msg)
    (h : v.form.isSome = true) : ∃ r, v.finish msg = some r ∧ r.1.form.isSome = true := by
  unfold contacts.CreateView.finish
  cases hf : v.form with
  | none => simp [hf] at h
  | some f =>
    simp only
    split_ifs
    · exact ⟨_, rfl, by simp [hf]⟩
    · exact ⟨_, rfl, rfl⟩

theorem contactsCreate_Update_safe {L : Lib} (v : contacts.CreateView L) (msg : Msg)
    (h : v.form.isSome = true) : ∃ r, v.Update msg = some r ∧ r.1.form.isSome = true := by
  cases msg <;> simp only [contacts.CreateView.Update]
  case windowSize w hgt => exact contactsCreate_finish_safe _ _ h
  case key s =>
    split_ifs
    · exact ⟨_, rfl, h⟩
    · exact contactsCreate_finish_safe _ _ h
  case contactCreated id error =>
    cases error with
    | none => exact ⟨_, rfl, h⟩
    | some e => exact ⟨_, rfl, h⟩
  all_goals exact contactsCreate_finish_safe _ _ h

theorem formsEdit_finish_safe {L : Lib} (v : forms.EditView L) (msg : Msg)
    (h : v.form.isSome = true) : ∃ r, v.finish msg = some r ∧ r.1.form.isSome = true := by
  unfold forms.EditView.finish
  cases hf : v.form with
  | none => simp [hf] at h
  | some f =>
    simp only
    split_ifs
    · exact ⟨_, rfl, by simp [hf]⟩
    · exact ⟨_, rfl, rfl⟩

theorem formsEdit_Update_safe {L : Lib} (v : forms.EditView L) (msg : Msg)
    (h : v.loading = true ∨ v.err ≠ none ∨ v.form.isSome = true) :
    ∃ r, v.Update msg = some r ∧
      (r.1.loading = true ∨ r.1.err ≠ none ∨ r.1.form.isSome = true) := by
  unfold forms.EditView.Update
  split_ifs with h1 h2
  · exact ⟨_, rfl, h⟩
  · cases msg with
    | key s =>
      simp only
      split_ifs
      · exact ⟨_, rfl, h⟩
      · exact ⟨_, rfl, h⟩
    | _ => exact ⟨_, rfl, h⟩
  · have hform : v.form.isSome = true := by
      rcases h with h | h | h
      · exact absurd h h1
      · exact absurd h h2
      · exact h
    have fin : ∀ (w : forms.EditView L) (x : Msg), w.form.isSome = true →
        ∃ r, w.finish x = some r ∧
          (r.1.loading = true ∨ r.1.err ≠ none ∨ r.1.form.isSome = true) := fun w x hw => by
      obtain ⟨r, hr, hs⟩ := formsEdit_finish_safe w x hw
      exact ⟨r, hr, Or.inr (Or.inr hs)⟩
    cases msg with
    | windowSize w hgt => exact fin _ _ hform
    | key s =>
      simp only
      split_ifs
      · exact ⟨_, rfl, h⟩
      · exact fin _ _ hform
    | formUpdated id error =>
      cases error with
      | none => exact ⟨_, rfl, Or.inr (Or.inr hform)⟩
      | some e => exact ⟨_, rfl, Or.inr (Or.inl (by simp))⟩
    | _ => exact fin _ _ hform

theorem contactsEdit_finish_safe {L : Lib} (v : contacts.EditView L) (msg : Msg)
    (h : v.form.isSome = true) : ∃ r, v.finish msg = some r ∧ r.1.form.isSome = true := by
  unfold contacts.EditView.finish
  cases hf : v.form with
  | none => simp [hf] at h
  | some f =>
    simp only
    split_ifs
    · exact ⟨_, rfl, by simp [hf]⟩
    · exact ⟨_, rfl, rfl⟩

theorem contactsEdit_Update_safe {L : Lib} (v : contacts.EditView L) (msg : Msg)
    (h : v.loading = true ∨ v.err ≠ none ∨ v.form.isSome = true) :
    ∃ r, v.Update msg = some r ∧
      (r.1.loading = true ∨ r.1.err ≠ none ∨ r.1.form.isSome = true) := by
  unfold contacts.EditView.Update
  split_ifs with h1 h2
  · exact ⟨_, rfl, h⟩
  · cases msg with
    | key s =>
      simp only
      split_ifs
      · exact ⟨_, rfl, h⟩
      · exact ⟨_, rfl, h⟩
    | _ => exact ⟨_, rfl, h⟩
  · have hform : v.form.isSome = true := by
      rcases h with h | h | h
      · exact absurd h h1
      · exact absurd h h2
      · exact h
    have fin : ∀ (w : contacts.EditView L) (x : Msg), w.form.isSome = true →
        ∃ r, w.finish x = some r ∧
          (r.1.loading = true ∨ r.1.err ≠ none ∨ r.1.form.isSome = true) := fun w x hw => by
      obtain ⟨r, hr, hs⟩ := contactsEdit_finish_safe w x hw
      exact ⟨r, hr, Or.inr (Or.inr hs)⟩
    cases msg with
    | windowSize w hgt => exact fin _ _ hform
    | key s =>
      simp only
      split_ifs
      · exact ⟨_, rfl, h⟩
      · exact fin _ _ hform
    | contactUpdated id error =>
      cases error with
      | none => exact ⟨_, rfl, Or.inr (Or.inr hform)⟩
      | some e => exact ⟨_, rfl, Or.inr (Or.inl (by simp))⟩
    | _ => exact fin _ _ hform

theorem updateInputs_length (L : Lib) (focused : Int) (msg : Msg) (i : Nat)
    (inputs : List L.Input) :
    (webhook.updateInputs L focused msg i inputs).1.length = inputs.length := by
  induction inputs generalizing i with
  | nil => rfl
  | cons input rest ih => simp [webhook.updateInputs, ih]

theorem webhook_Update_safe {L : Lib} (m : webhook.Model L) (msg : Msg)
    (h : m.inputs.length ≠ 0) : ∃ r, m.Update msg = some r ∧ r.1.inputs.length ≠ 0 := by
  have fin : ∀ (w : webhook.Model L), w.inputs.length ≠ 0 →
      (w.finish msg).1.inputs.length ≠ 0 := fun w hw => by
    simp only [webhook.Model.finish, updateInputs_length]; exact hw
  have nxt : ∃ n, m.nextInput = some n ∧ n.inputs.length ≠ 0 := by
    unfold webhook.Model.nextInput
    rw [if_neg h]
    exact ⟨_, rfl, h⟩
  have prv : m.prevInput.inputs.length ≠ 0 := by
    unfold webhook.Model.prevInput
    split_ifs <;> exact h
  obtain ⟨n, hn, hnl⟩ := nxt
  cases msg <;> simp only [webhook.Model.Update]
  case key s =>
    split_ifs
    · rw [hn]; exact ⟨_, rfl, fin _ hnl⟩
    · exact ⟨_, rfl, fin _ prv⟩
    · exact ⟨_, rfl, fin _ h⟩
    · rw [hn]; exact ⟨_, rfl, fin _ hnl⟩
    · exact ⟨_, rfl, fin _ h⟩
  all_goals exact ⟨_, rfl, fin _ h⟩

theorem formsList_Update_total {L : Lib} (m : forms.ListView L) (msg : Msg)
    (hd : msg ≠ .key "d") : ∃ r, m.Update msg = some r := by
  cases msg with
  | key s =>
    have hs : s ≠ "d" := fun h => hd (by rw [h])
    simp only [forms.ListView.Update]
    split_ifs <;> exact ⟨_, rfl⟩
  | spinnerTick t =>
    simp only [forms.ListView.Update]
    split_ifs <;> exact ⟨_, rfl⟩
  | _ => exact ⟨_, rfl⟩

theorem contactsList_Update_total {L : Lib} (m : contacts.ListView L) (msg : Msg)
    (hd : msg ≠ .key "d") : ∃ r, m.Update msg = some r := by
  cases msg with
  | key s =>
    have hs : s ≠ "d" := fun h => hd (by rw [h])
    simp only [contacts.ListView.Update]
    split_ifs <;> exact ⟨_, rfl⟩
  | spinnerTick t =>
    simp only [contacts.ListView.Update]
    split_ifs <;> exact ⟨_, rfl⟩
  | _ => exact ⟨_, rfl⟩

theorem anyView_Update_safe {L : Lib} (v : AnyView L) (msg : Msg) (h : v.Safe)
    (hd : msg ≠ .key "d") : ∃ r, v.Update msg = some r ∧ r.1.Safe := by
  cases v with
  | dashboard m =>
    obtain ⟨r, hr, hs⟩ := dashboard_Update_safe m msg h
    exact ⟨(.dashboard r.1, r.2), by simp only [AnyView.Update, hr, Option.map_some'], hs⟩
  | formsList m =>
    obtain ⟨r, hr⟩ := formsList_Update_total m msg hd
    exact ⟨(.formsList r.1, r.2), by simp only [AnyView.Update, hr, Option.map_some'], trivial⟩
  | formsCreate v =>
    obtain ⟨r, hr, hs⟩ := formsCreate_Update_safe v msg h
    exact ⟨(.formsCreate r.1, r.2), by simp only [AnyView.Update, hr, Option.map_some'], hs⟩
  | formsEdit v =>
    obtain ⟨r, hr, hs⟩ := formsEdit_Update_safe v msg h
    exact ⟨(.formsEdit r.1, r.2), by simp only [AnyView.Update, hr, Option.map_some'], hs⟩
  | contactsList m =>
    obtain ⟨r, hr⟩ := contactsList_Update_total m msg hd
    exact ⟨(.contactsList r.1, r.2), by simp only [AnyView.Update, hr, Option.map_some'],
      trivial⟩
  | contactsCreate v =>
    obtain ⟨r, hr, hs⟩ := contactsCreate_Update_safe v msg h
    exact ⟨(.contactsCreate r.1, r.2), by simp only [AnyView.Update, hr, Option.map_some'], hs⟩
  | contactsEdit v =>
    obtain ⟨r, hr, hs⟩ := contactsEdit_Update_safe v msg h
    exact ⟨(.contactsEdit r.1, r.2), by simp only [AnyView.Update, hr, Option.map_some'], hs⟩
  | webhook m =>
    obtain ⟨r, hr, hs⟩ := webhook_Update_safe m msg h
    exact ⟨(.webhook r.1, r.2), by simp only [AnyView.Update, hr, Option.map_some'], hs⟩
  | settings m => exact ⟨_, rfl, trivial⟩

theorem anyView_Update_preserves {L : Lib} (v : AnyView L) (msg : Msg)
    (r : AnyView L × List Cmd) (h : v.Safe) (hu : v.Update msg = some r) : r.1.Safe := by
  cases v with
  | formsList m =>
    cases hm : m.Update msg with
    | none => simp [AnyView.Update, hm] at hu
    | some x =>
      simp only [AnyView.Update, hm, Option.map_some', Option.some.injEq] at hu
      rw [← hu]; trivial
  | contactsList m =>
    cases hm : m.Update msg with
    | none => simp [AnyView.Update, hm] at hu
    | some x =>
      simp only [AnyView.Update, hm, Option.map_some', Option.some.injEq] at hu
      rw [← hu]; trivial
  | dashboard m =>
    obtain ⟨x, hx, hs⟩ := dashboard_Update_safe m msg h
    simp only [AnyView.Update, hx, Option.map_some', Option.some.injEq] at hu
    rw [← hu]; exact hs
  | formsCreate v =>
    obtain ⟨x, hx, hs⟩ := formsCreate_Update_safe v msg h
    simp only [AnyView.Update, hx, Option.map_some', Option.some.injEq] at hu
    rw [← hu]; exact hs
  | formsEdit v =>
    obtain ⟨x, hx, hs⟩ := formsEdit_Update_safe v msg h
    simp only [AnyView.Update, hx, Option.map_some', Option.some.injEq] at hu
    rw [← hu]; exact hs
  | contactsCreate v =>
    obtain ⟨x, hx, hs⟩ := contactsCreate_Update_safe v msg h
    simp only [AnyView.Update, hx, Option.map_some', Option.some.injEq] at hu
    rw [← hu]; exact hs
  | contactsEdit v =>
    obtain ⟨x, hx, hs⟩ := contactsEdit_Update_safe v msg h
    simp only [AnyView.Update, hx, Option.map_some', Option.some.injEq] at hu
    rw [← hu]; exact hs
  | webhook m =>
    obtain ⟨x, hx, hs⟩ := webhook_Update_safe m msg h
    simp only [AnyView.Update, hx, Option.map_some', Option.some.injEq] at hu
    rw [← hu]; exact hs
  | settings m =>
    simp only [AnyView.Update, Option.some.injEq] at hu
    rw [← hu]; trivial

theorem Registry.get_mem {L : Lib} (views : Registry L) (key : View) (v : AnyView L)
    (h : views.get key = some v) : (key, v) ∈ views := by
  induction views with
  | nil => simp [Registry.get] at h
  | cons p rest ih =>
    obtain ⟨k, x⟩ := p
    simp only [Registry.get] at h
    split_ifs at h with hk
    · cases h; subst hk; exact List.mem_cons_self _ _
    · exact List.mem_cons_of_mem _ (ih h)

theorem Registry.set_allSafe {L : Lib} (views : Registry L) (key : View) (v : AnyView L)
    (h : views.AllSafe) (hv : v.Safe) : (views.set key v).AllSafe := by
  induction views with
  | nil =>
    intro p hp
    simp only [Registry.set, List.mem_singleton] at hp
    subst hp; exact hv
  | cons q rest ih =>
    obtain ⟨k, x⟩ := q
    have hrest : Registry.AllSafe rest := fun p hp => h p (List.mem_cons_of_mem _ hp)
    intro p hp
    simp only [Registry.set] at hp
    split_ifs at hp with hk
    · rcases List.mem_cons.1 hp with hp | hp
      · subst hp; exact hv
      · exact hrest p hp
    · rcases List.mem_cons.1 hp with hp | hp
      · subst hp; exact h (k, x) (List.mem_cons_self _ _)
      · exact ih hrest p hp

theorem Registry.get_safe {L : Lib} (views : Registry L) (key : View) (v : AnyView L)
    (h : views.AllSafe) (hg : views.get key = some v) : v.Safe :=
  h (key, v) (Registry.get_mem views key v hg)

theorem Registry.get_set_ne {L : Lib} (views : Registry L) (key k : View) (v : AnyView L)
    (h : k ≠ key) : (views.set key v).get k = views.get k := by
  induction views with
  | nil => simp [Registry.set, Registry.get, Ne.symm h]
  | cons q rest ih =>
    obtain ⟨a, x⟩ := q
    simp only [Registry.set]
    split_ifs with ha
    · subst ha
      simp [Registry.get, Ne.symm h]
    · simp only [Registry.get]
      split_ifs
      · rfl
      · exact ih

theorem Registry.get_set_self {L : Lib} (views : Registry L) (key : View) (v : AnyView L) :
    (views.set key v).get key = some v := by
  induction views with
  | nil => simp [Registry.set, Registry.get]
  | cons q rest ih =>
    obtain ⟨a, x⟩ := q
    simp only [Registry.set]
    split_ifs with ha
    · simp [Registry.get]
    · simp [Registry.get, ha, ih]

theorem updateAll_safe {L : Lib} (msg : Msg) (views : Registry L) (h : views.AllSafe)
    (hd : msg ≠ .key "d") : ∃ r, updateAll msg views = some r ∧ Registry.AllSafe r.1 := by
  induction views with
  | nil => exact ⟨([], []), rfl, fun p hp => by simp at hp⟩
  | cons q rest ih =>
    obtain ⟨k, x⟩ := q
    have hrest : Registry.AllSafe rest := fun p hp => h p (List.mem_cons_of_mem _ hp)
    obtain ⟨r, hr, hs⟩ := ih hrest
    obtain ⟨u, hu, hus⟩ := anyView_Update_safe x msg (h (k, x) (List.mem_cons_self _ _)) hd
    obtain ⟨u1, u2⟩ := u
    obtain ⟨r1, r2⟩ := r
    refine ⟨((k, u1) :: r1, u2 ++ r2), by simp only [updateAll, hu, hr], ?_⟩
    intro p hp
    rcases List.mem_cons.1 hp with hp | hp
    · subst hp; exact hus
    · exact hs p hp

theorem updateAll_allSafe {L : Lib} (msg : Msg) (views : Registry L)
    (r : Registry L × List Cmd) (h : views.AllSafe) (hu : updateAll msg views = some r) :
    Registry.AllSafe r.1 := by
  induction views generalizing r with
  | nil =>
    simp only [updateAll, Option.some.injEq] at hu
    rw [← hu]
    exact fun p hp => by simp at hp
  | cons q rest ih =>
    obtain ⟨k, x⟩ := q
    have hrest : Registry.AllSafe rest := fun p hp => h p (List.mem_cons_of_mem _ hp)
    simp only [updateAll] at hu
    split at hu
    · rename_i u c us cs hx hrs
      simp only [Option.some.injEq] at hu
      rw [← hu]
      intro p hp
      rcases List.mem_cons.1 hp with hp | hp
      · subst hp
        exact anyView_Update_preserves x msg (u, c) (h (k, x) (List.mem_cons_self _ _)) hx
      · exact ih (us, cs) hrest hrs p hp
    · cases hu

theorem switchView_allSafe {L : Lib} (m : Model L) (view : View) (title : String)
    (h : m.views.AllSafe) : (m.switchView view title).1.views.AllSafe := by
  unfold Model.switchView
  simp only
  split_ifs <;> (try split) <;>
    first
      | exact h
      | exact Registry.set_allSafe _ _ _ h trivial

theorem forward_safe {L : Lib} (m : Model L) (msg : Msg) (h : m.views.AllSafe)
    (hd : msg ≠ .key "d") : ∃ r, m.forward msg = some r ∧ r.1.views.AllSafe := by
  unfold Model.forward
  cases hg : m.views.get m.currentView with
  | none => exact ⟨_, rfl, h⟩
  | some v =>
    obtain ⟨u, hu, hus⟩ := anyView_Update_safe v msg (Registry.get_safe _ _ _ h hg) hd
    obtain ⟨u1, u2⟩ := u
    simp only [hu]
    exact ⟨_, rfl, Registry.set_allSafe _ _ _ h hus⟩

theorem forward_allSafe {L : Lib} (m : Model L) (msg : Msg) (r : Model L × List Cmd)
    (h : m.views.AllSafe) (hu : m.forward msg = some r) : r.1.views.AllSafe := by
  unfold Model.forward at hu
  cases hg : m.views.get m.currentView with
  | none =>
    simp only [hg, Option.some.injEq] at hu
    rw [← hu]; exact h
  | some v =>
    simp only [hg] at hu
    cases hv : v.Update msg with
    | none => simp [hv] at hu
    | some x =>
      obtain ⟨x1, x2⟩ := x
      simp only [hv, Option.some.injEq] at hu
      rw [← hu]
      exact Registry.set_allSafe _ _ _ h
        (anyView_Update_preserves v msg (x1, x2) (Registry.get_safe _ _ _ h hg) hv)

theorem forms_NewEditView_safe (L : Lib) (R : database.Remote) (cfg : config.Config)
    (formID : String) :
    ∃ v, forms.NewEditView L R cfg formID = some v ∧
      (v.loading = false ∧ (v.err ≠ none ∨ v.form.isSome = true)) := by
  unfold forms.NewEditView
  cases database.NewClient cfg with
  | error e => exact ⟨_, rfl, rfl, Or.inl (by simp)⟩
  | ok db =>
    simp only [forms.EditView.loadFormData]
    cases R.GetFormByID formID with
    | error e => exact ⟨_, rfl, rfl, Or.inl (by simp)⟩
    | ok form => exact ⟨_, rfl, rfl, Or.inr rfl⟩

theorem contacts_NewEditView_safe (L : Lib) (R : database.Remote) (cfg : config.Config)
    (contactID : Int) :
    ∃ v, contacts.NewEditView L R cfg contactID = some v ∧
      (v.loading = false ∧ (v.err ≠ none ∨ v.form.isSome = true)) := by
  unfold contacts.NewEditView
  cases database.NewClient cfg with
  | error e => exact ⟨_, rfl, rfl, Or.inl (by simp)⟩
  | ok db =>
    simp only [contacts.EditView.loadContactData]
    cases R.GetContactByID contactID with
    | error e => exact ⟨_, rfl, rfl, Or.inl (by simp)⟩
    | ok contact => exact ⟨_, rfl, rfl, Or.inr rfl⟩

theorem controller_Update_allSafe {L : Lib} (R : database.Remote) (m : Model L) (msg : Msg)
    (r : Model L × List Cmd) (h : m.views.AllSafe) (hu : m.Update R msg = some r) :
    r.1.views.AllSafe := by
  cases msg with
  | windowSize w hgt =>
    simp only [Model.Update] at hu
    cases hx : updateAll (Msg.windowSize w hgt) m.views with
    | none => simp [hx] at hu
    | some x =>
      simp only [hx, Option.map_some', Option.some.injEq] at hu
      rw [← hu]
      exact updateAll_allSafe _ _ x h hx
  | key s =>
    simp only [Model.Update] at hu
    split_ifs at hu
    · cases hu; exact h
    · cases hu; exact h
    · cases hu; exact switchView_allSafe _ _ _ h
    · cases hu; exact switchView_allSafe _ _ _ h
    · cases hu; exact switchView_allSafe _ _ _ h
    · cases hu; exact switchView_allSafe _ _ _ h
    · cases hu; exact switchView_allSafe _ _ _ h
    · exact forward_allSafe _ _ r h hu
    · cases hg : m.views.get m.currentView with
      | none =>
        simp only [hg, Option.some.injEq] at hu
        rw [← hu]; exact h
      | some v =>
        simp only [hg] at hu
        cases hv : v.Update (Msg.key s) with
        | none => simp [hv] at hu
        | some x =>
          obtain ⟨x1, x2⟩ := x
          simp only [hv, Option.some.injEq] at hu
          rw [← hu]
          exact Registry.set_allSafe _ _ _ h
            (anyView_Update_preserves v _ (x1, x2) (Registry.get_safe _ _ _ h hg) hv)
    · exact forward_allSafe _ _ r h hu
  | switchView view title data =>
    cases data with
    | none =>
      simp only [Model.Update, Option.some.injEq] at hu
      rw [← hu]; exact switchView_allSafe _ _ _ h
    | some d =>
      simp only [Model.Update] at hu
      cases hx : (m.switchView view title).1.forward d with
      | none => simp [hx] at hu
      | some x =>
        simp only [hx, Option.map_some', Option.some.injEq] at hu
        rw [← hu]
        exact forward_allSafe _ _ x (switchView_allSafe _ _ _ h) hx
  | formsSwitchToCreate =>
    simp only [Model.Update, Option.some.injEq] at hu
    rw [← hu]; exact switchView_allSafe _ _ _ h
  | contactsSwitchToCreate =>
    simp only [Model.Update, Option.some.injEq] at hu
    rw [← hu]; exact switchView_allSafe _ _ _ h
  | formsSwitchToEdit formID =>
    obtain ⟨v, hv, hvs⟩ := forms_NewEditView_safe L R m.config formID
    simp only [Model.Update, hv, Option.some.injEq] at hu
    rw [← hu]
    exact switchView_allSafe _ _ _ (Registry.set_allSafe _ _ _ h (Or.inr hvs.2))
  | contactsSwitchToEdit contactID =>
    obtain ⟨v, hv, hvs⟩ := contacts_NewEditView_safe L R m.config contactID
    simp only [Model.Update, hv, Option.some.injEq] at hu
    rw [← hu]
    exact switchView_allSafe _ _ _ (Registry.set_allSafe _ _ _ h (Or.inr hvs.2))
  | formsGoBackToList =>
    simp only [Model.Update] at hu
    split at hu
    · simp only [Option.some.injEq] at hu
      rw [← hu]
      exact Registry.set_allSafe _ _ _ (switchView_allSafe _ _ _ h) trivial
    · simp only [Option.some.injEq] at hu
      rw [← hu]; exact switchView_allSafe _ _ _ h
  | contactsGoBackToList =>
    simp only [Model.Update] at hu
    split at hu
    · simp only [Option.some.injEq] at hu
      rw [← hu]
      exact Registry.set_allSafe _ _ _ (switchView_allSafe _ _ _ h) trivial
    · simp only [Option.some.injEq] at hu
      rw [← hu]; exact switchView_allSafe _ _ _ h
  | error e =>
    simp only [Model.Update, Option.some.injEq] at hu
    rw [← hu]; exact h
  | _ => exact forward_allSafe _ _ r h hu

theorem NewModel_allSafe (L : Lib) (R : database.Remote) (cfg : config.Config) :
    (NewModel L R cfg).views.AllSafe := by
  intro p hp
  simp only [NewModel, List.mem_cons, List.mem_singleton, List.not_mem_nil, or_false] at hp
  rcases hp with hp | hp | hp | hp | hp | hp | hp <;> subst hp
  · exact ⟨le_refl _, by simp [dashboard.New, dashboard.menuItems]⟩
  · trivial
  · rfl
  · trivial
  · rfl
  · simp [AnyView.Safe, webhook.New]
  · trivial

theorem NewModel_navOk (L : Lib) (R : database.Remote) (cfg : config.Config) :
    (NewModel L R cfg).NavOk := Or.inl ⟨rfl, rfl⟩

theorem run_invariant {L : Lib} (msgs : List (database.Remote × Msg)) (m n : Model L)
    (hs : m.views.AllSafe) (hn : m.NavOk) (hrun : m.run msgs = some n) :
    n.views.AllSafe ∧ n.NavOk := by
  induction msgs generalizing m with
  | nil =>
    simp only [Model.run, Option.some.injEq] at hrun
    rw [← hrun]; exact ⟨hs, hn⟩
  | cons p rest ih =>
    obtain ⟨R, msg⟩ := p
    simp only [Model.run] at hrun
    cases hu : m.Update R msg with
    | none => simp [hu] at hrun
    | some r =>
      obtain ⟨r1, r2⟩ := r
      simp only [hu] at hrun
      exact ih r1 (controller_Update_allSafe R m msg (r1, r2) hs hu)
        (Update_navOk R m msg (r1, r2) hn hu) hrun

/-- C1. Breadcrumb invariant: every state that the controller built by `NewModel` reaches
by handling messages one after the other (any messages, with any answers of the remote
store) has exactly one crumb, `Dashboard`, if and only if the active view is the
dashboard, and otherwise exactly two crumbs of which the first is `Dashboard`. -/
theorem C1_breadcrumb_invariant (L : Lib) (R : database.Remote) (cfg : config.Config)
    (msgs : List (database.Remote × Msg)) (m : Model L)
    (hrun : (NewModel L R cfg).run msgs = some m) :
    (m.breadcrumbs.length = 1 ↔ m.currentView = ViewDashboard) ∧
      (m.currentView = ViewDashboard → m.breadcrumbs = ["Dashboard"]) ∧
      (m.currentView ≠ ViewDashboard →
        m.breadcrumbs.length = 2 ∧ m.breadcrumbs.head? = some "Dashboard") := by
  obtain ⟨_, hnav⟩ :=
    run_invariant msgs (NewModel L R cfg) m (NewModel_allSafe L R cfg)
      (NewModel_navOk L R cfg) hrun
  refine ⟨?_, ?_, ?_⟩
  · rcases hnav with ⟨hc, hb⟩ | ⟨hc, t, hb⟩
    · simp [hc, hb]
    · simp [hc, hb]
  · intro hc
    rcases hnav with ⟨_, hb⟩ | ⟨hn, _⟩
    · exact hb
    · exact absurd hc hn
  · intro hc
    rcases hnav with ⟨hd, _⟩ | ⟨_, t, hb⟩
    · exact absurd hd hc
    · simp [hb]

/-- Witness of C1: after the keys `2` and `esc` and then the key `5`, the controller is on
the settings view with the two crumbs `Dashboard` and `Settings`. -/
theorem C1_breadcrumb_invariant_witness :
    fixtures.start.run
        [(fixtures.remote, .key "2"), (fixtures.remote, .key "esc"),
          (fixtures.remote, .key "5")] =
        some fixtures.awayOnSettings ∧
      fixtures.awayOnSettings.currentView = ViewSettings ∧
      fixtures.awayOnSettings.breadcrumbs.length = 2 ∧
      fixtures.awayOnSettings.breadcrumbs.head? = some "Dashboard" :=
  ⟨rfl, rfl,
    (C1_breadcrumb_invariant fixtures.lib fixtures.remote fixtures.cfg
      [(fixtures.remote, .key "2"), (fixtures.remote, .key "esc"),
        (fixtures.remote, .key "5")]
      fixtures.awayOnSettings rfl).2.2 (by decide)⟩

/-- The panic of the list views is part of the embedding: with a table whose cursor is -1
after a load without forms, and stays there when a later load brings one form, the key
`d` on the forms list panics at `m.forms[selectedIdx]`. -/
theorem forms_list_delete_panics :
    (NewModel fixtures.libCursor fixtures.remote fixtures.cfg).run
        [(fixtures.remote, .key "2"), (fixtures.remote, .formsLoaded [] none),
          (fixtures.remote, .formsLoaded [fixtures.sampleForm] none)] =
        some fixtures.cursorBeforeRows ∧
      (NewModel fixtures.libCursor fixtures.remote fixtures.cfg).run
        [(fixtures.remote, .key "2"), (fixtures.remote, .formsLoaded [] none),
          (fixtures.remote, .formsLoaded [fixtures.sampleForm] none),
          (fixtures.remote, .key "d")] = none := by
  exact ⟨rfl, rfl⟩

/-- C2. Navigate-to postcondition: in a state whose first crumb is `Dashboard`,
`switchView view title` makes `view` the active view and leaves the crumbs `Dashboard`
alone for the dashboard, `Dashboard` and `title` for any other view; a `SwitchViewMsg`
without data is handled by exactly this call. -/
theorem C2_switchView_postcondition {L : Lib} (R : database.Remote) (m : Model L)
    (view : View) (title : String) (h : m.breadcrumbs.head? = some "Dashboard") :
    (m.switchView view title).1.currentView = view ∧
      (view = ViewDashboard → (m.switchView view title).1.breadcrumbs = ["Dashboard"]) ∧
      (view ≠ ViewDashboard →
        (m.switchView view title).1.breadcrumbs = ["Dashboard", title]) ∧
      m.Update R (.switchView view title none) = some (m.switchView view title) := by
  refine ⟨switchView_currentView m view title, ?_, ?_, rfl⟩
  · intro hv
    rw [switchView_crumbs_of_head m view title h, if_pos hv]
  · intro hv
    rw [switchView_crumbs_of_head m view title h, if_neg hv]

/-- Witness of C2: from the crumbs `Dashboard`, `Old`, navigating to the forms list
leaves the crumbs `Dashboard`, `Forms`. -/
theorem C2_switchView_postcondition_witness :
    (({ fixtures.start with breadcrumbs := ["Dashboard", "Old"] } : Model fixtures.lib).switchView
        ViewForms "Forms").1.breadcrumbs = ["Dashboard", "Forms"] :=
  (C2_switchView_postcondition fixtures.remote
    ({ fixtures.start with breadcrumbs := ["Dashboard", "Old"] } : Model fixtures.lib)
    ViewForms "Forms" rfl).2.2.1 (by decide)

/-- C3. Scenario A: in the state built by `NewModel` the forms list is not loading, and
handling the key `2` makes the forms list the active view with the crumbs `Dashboard`,
`Forms`, sets the loading flag of the registered forms list and returns a batch that
consists of one forms-load command. -/
theorem C3_scenario_a (L : Lib) (R : database.Remote) (cfg : config.Config) :
    (NewModel L R cfg).views.get ViewForms = some (.formsList (forms.NewListView L cfg)) ∧
      (forms.NewListView L cfg).loading = false ∧
      ∃ n cmds, (NewModel L R cfg).Update R (.key "2") = some (n, cmds) ∧
        n.currentView = ViewForms ∧
        n.breadcrumbs = ["Dashboard", "Forms"] ∧
        n.views.get ViewForms =
          some (.formsList { forms.NewListView L cfg with loading := true }) ∧
        cmds = [Cmd.formsLoad] ∧
        cmds.countP Cmd.isFormsLoad = 1 := by
  refine ⟨rfl, rfl, _, _, rfl, rfl, rfl, rfl, rfl, rfl⟩

/-- C4. Quit key always wins: in every state of the controller, the key `ctrl+c` returns
the quit command alone and the state, with its active view, crumbs, error slot and all
registered views, is returned as it was (no view handles the key). -/
theorem C4_quit_key_wins {L : Lib} (R : database.Remote) (m : Model L) :
    m.Update R (.key "ctrl+c") = some (m, [Cmd.quit]) := by
  simp [Model.Update]

theorem AnyView.Update_esc_total {L : Lib} (v : AnyView L) :
    ∃ r, v.Update (.key "esc") = some r := by
  cases v with
  | dashboard m =>
    simp only [AnyView.Update, dashboard.Model.Update]
    split_ifs <;> simp at *
  | formsList m =>
    obtain ⟨r, hr⟩ := formsList_Update_total m (.key "esc") (by simp)
    exact ⟨(.formsList r.1, r.2), by simp only [AnyView.Update, hr, Option.map_some']⟩
  | formsCreate v =>
    exact ⟨(.formsCreate v, [Cmd.msg .formsGoBackToList]),
      by simp [AnyView.Update, forms.CreateView.Update]⟩
  | formsEdit v =>
    simp only [AnyView.Update, forms.EditView.Update]
    split_ifs <;> simp
  | contactsList m =>
    obtain ⟨r, hr⟩ := contactsList_Update_total m (.key "esc") (by simp)
    exact ⟨(.contactsList r.1, r.2), by simp only [AnyView.Update, hr, Option.map_some']⟩
  | contactsCreate v =>
    exact ⟨(.contactsCreate v, [Cmd.msg .contactsGoBackToList]),
      by simp [AnyView.Update, contacts.CreateView.Update]⟩
  | contactsEdit v =>
    simp only [AnyView.Update, contacts.EditView.Update]
    split_ifs <;> simp
  | webhook m =>
    exact ⟨(.webhook (m.finish (.key "esc")).1, (m.finish (.key "esc")).2),
      by simp [AnyView.Update, webhook.Model.Update]⟩
  | settings m => exact ⟨_, rfl⟩

theorem Registry.get_set_isSome {L : Lib} (views : Registry L) (key k : View) (v : AnyView L)
    (h : (views.get k).isSome = true) : ((views.set key v).get k).isSome = true := by
  by_cases hk : k = key
  · subst hk
    rw [Registry.get_set_self]; rfl
  · rw [Registry.get_set_ne _ _ _ _ hk]; exact h

theorem updateAll_get_isSome {L : Lib} (msg : Msg) (views : Registry L)
    (r : Registry L × List Cmd) (hu : updateAll msg views = some r) (k : View) :
    (r.1.get k).isSome = (views.get k).isSome := by
  induction views generalizing r with
  | nil =>
    simp only [updateAll, Option.some.injEq] at hu
    rw [← hu]
  | cons q rest ih =>
    obtain ⟨a, x⟩ := q
    simp only [updateAll] at hu
    split at hu
    · rename_i u c us cs hx hrs
      simp only [Option.some.injEq] at hu
      rw [← hu]
      simp only [Registry.get]
      split_ifs
      · rfl
      · exact ih (us, cs) hrs
    · cases hu

theorem switchView_get_isSome {L : Lib} (m : Model L) (view : View) (title : String)
    (k : View) (h : (m.views.get k).isSome = true) :
    ((m.switchView view title).1.views.get k).isSome = true := by
  unfold Model.switchView
  simp only
  split_ifs <;> (try split) <;>
    first
      | exact h
      | exact Registry.get_set_isSome _ _ _ _ h

theorem switchView_registered {L : Lib} (m : Model L) (view : View) (title : String)
    (h : ∀ k ∈ startViews, (m.views.get k).isSome = true)
    (hv : (m.views.get view).isSome = true) : (m.switchView view title).1.Registered := by
  refine ⟨?_, fun k hk => switchView_get_isSome m view title k (h k hk)⟩
  rw [switchView_currentView]
  exact switchView_get_isSome m view title view hv

theorem forward_registered {L : Lib} (m : Model L) (msg : Msg) (r : Model L × List Cmd)
    (h : m.Registered) (hu : m.forward msg = some r) : r.1.Registered := by
  unfold Model.forward at hu
  split at hu
  · cases hu; exact h
  · split at hu
    · cases hu
    · cases hu
      exact ⟨Registry.get_set_isSome _ _ _ _ h.1,
        fun k hk => Registry.get_set_isSome _ _ _ _ (h.2 k hk)⟩

theorem controller_Update_registered {L : Lib} (R : database.Remote) (m : Model L)
    (msg : Msg) (r : Model L × List Cmd) (h : m.Registered)
    (hmsg : msg.isSwitchViewMsg = false) (hu : m.Update R msg = some r) :
    r.1.Registered := by
  have hstart : ∀ k ∈ startViews, (m.views.get k).isSome = true := h.2
  cases msg with
  | switchView view title data => simp [Msg.isSwitchViewMsg] at hmsg
  | windowSize w hgt =>
    simp only [Model.Update] at hu
    cases hx : updateAll (Msg.windowSize w hgt) m.views with
    | none => simp [hx] at hu
    | some x =>
      simp only [hx, Option.map_some', Option.some.injEq] at hu
      rw [← hu]
      refine ⟨?_, fun k hk => ?_⟩
      · show (x.1.get m.currentView).isSome = true
        rw [updateAll_get_isSome _ _ x hx]; exact h.1
      · show (x.1.get k).isSome = true
        rw [updateAll_get_isSome _ _ x hx]; exact h.2 k hk
  | key s =>
    simp only [Model.Update] at hu
    split_ifs at hu
    · cases hu; exact h
    · cases hu; exact h
    · cases hu; exact switchView_registered _ _ _ hstart (hstart _ (by decide))
    · cases hu; exact switchView_registered _ _ _ hstart (hstart _ (by decide))
    · cases hu; exact switchView_registered _ _ _ hstart (hstart _ (by decide))
    · cases hu; exact switchView_registered _ _ _ hstart (hstart _ (by decide))
    · cases hu; exact switchView_registered _ _ _ hstart (hstart _ (by decide))
    · exact forward_registered _ _ r h hu
    · split at hu
      · cases hu; exact h
      · split at hu
        · cases hu
        · cases hu
          exact ⟨Registry.get_set_isSome _ _ ViewDashboard _ (hstart ViewDashboard (by decide)),
            fun k hk => Registry.get_set_isSome _ _ _ _ (hstart k hk)⟩
    · exact forward_registered _ _ r h hu
  | formsSwitchToCreate =>
    simp only [Model.Update, Option.some.injEq] at hu
    rw [← hu]; exact switchView_registered _ _ _ hstart (hstart _ (by decide))
  | contactsSwitchToCreate =>
    simp only [Model.Update, Option.some.injEq] at hu
    rw [← hu]; exact switchView_registered _ _ _ hstart (hstart _ (by decide))
  | formsSwitchToEdit formID =>
    simp only [Model.Update] at hu
    split at hu
    · cases hu
    · simp only [Option.some.injEq] at hu
      rw [← hu]
      exact switchView_registered _ _ _
        (fun k hk => Registry.get_set_isSome _ _ _ _ (hstart k hk))
        (by rw [Registry.get_set_self]; rfl)
  | contactsSwitchToEdit contactID =>
    simp only [Model.Update] at hu
    split at hu
    · cases hu
    · simp only [Option.some.injEq] at hu
      rw [← hu]
      exact switchView_registered _ _ _
        (fun k hk => Registry.get_set_isSome _ _ _ _ (hstart k hk))
        (by rw [Registry.get_set_self]; rfl)
  | formsGoBackToList =>
    have hr := switchView_registered m ViewForms "Forms" hstart (hstart _ (by decide))
    simp only [Model.Update] at hu
    split at hu
    · simp only [Option.some.injEq] at hu
      rw [← hu]
      exact ⟨Registry.get_set_isSome _ _ _ _ hr.1,
        fun k hk => Registry.get_set_isSome _ _ _ _ (hr.2 k hk)⟩
    · simp only [Option.some.injEq] at hu
      rw [← hu]; exact hr
  | contactsGoBackToList =>
    have hr := switchView_registered m ViewContacts "Contacts" hstart (hstart _ (by decide))
    simp only [Model.Update] at hu
    split at hu
    · simp only [Option.some.injEq] at hu
      rw [← hu]
      exact ⟨Registry.get_set_isSome _ _ _ _ hr.1,
        fun k hk => Registry.get_set_isSome _ _ _ _ (hr.2 k hk)⟩
    · simp only [Option.some.injEq] at hu
      rw [← hu]; exact hr
  | error e =>
    simp only [Model.Update, Option.some.injEq] at hu
    rw [← hu]; exact h
  | _ => exact forward_registered _ _ r h hu

theorem NewModel_registered (L : Lib) (R : database.Remote) (cfg : config.Config) :
    (NewModel L R cfg).Registered := by
  refine ⟨rfl, ?_⟩
  intro k hk
  simp only [startViews, List.mem_cons, List.mem_singleton, List.not_mem_nil, or_false] at hk
  rcases hk with hk | hk | hk | hk | hk | hk | hk <;> subst hk <;> rfl

theorem run_registered {L : Lib} (msgs : List (database.Remote × Msg)) (m n : Model L)
    (h : m.Registered) (hmsgs : ∀ p ∈ msgs, p.2.isSwitchViewMsg = false)
    (hrun : m.run msgs = some n) : n.Registered := by
  induction msgs generalizing m with
  | nil =>
    simp only [Model.run, Option.some.injEq] at hrun
    rw [← hrun]; exact h
  | cons p rest ih =>
    obtain ⟨R, msg⟩ := p
    simp only [Model.run] at hrun
    cases hu : m.Update R msg with
    | none => simp [hu] at hrun
    | some r =>
      obtain ⟨r1, r2⟩ := r
      simp only [hu] at hrun
      exact ih r1
        (controller_Update_registered R m msg (r1, r2) h
          (hmsgs (R, msg) (List.mem_cons_self _ _)) hu)
        (fun p hp => hmsgs p (List.mem_cons_of_mem _ hp)) hrun

/-- C5. Escape handling: in every state that the controller built by `NewModel` reaches
by handling messages that the program sends (any messages other than the
`tui.SwitchViewMsg`, which no function constructs) and whose active view is not the
dashboard, the active view is held in the registry; the key `esc` is first handled by
it, which never panics on it; the view is stored back, the dashboard becomes the active
view with the crumb `Dashboard` alone, and the command of the view is returned. -/
theorem C5_escape_handling (L : Lib) (R0 R : database.Remote) (cfg : config.Config)
    (msgs : List (database.Remote × Msg)) (m : Model L)
    (hmsgs : ∀ p ∈ msgs, p.2.isSwitchViewMsg = false)
    (hrun : (NewModel L R0 cfg).run msgs = some m)
    (hcur : m.currentView ≠ ViewDashboard) :
    ∃ v updated cmd, m.views.get m.currentView = some v ∧
      v.Update (.key "esc") = some (updated, cmd) ∧
      m.Update R (.key "esc") =
        some
          ({ m with
              views := m.views.set m.currentView updated
              currentView := ViewDashboard
              breadcrumbs := ["Dashboard"] },
            cmd) := by
  have hreg := (run_registered msgs (NewModel L R0 cfg) m (NewModel_registered L R0 cfg)
    hmsgs hrun).1
  cases hv : m.views.get m.currentView with
  | none => simp [hv] at hreg
  | some v =>
    obtain ⟨⟨updated, cmd⟩, hr⟩ := AnyView.Update_esc_total v
    refine ⟨v, updated, cmd, rfl, hr, ?_⟩
    simp [Model.Update, hcur, hv, hr]

/-- Witness of C5: after the key `5` at start-up the settings view is active, and `esc`
leads back to the dashboard with the command of the settings view. -/
theorem C5_escape_handling_witness :
    fixtures.start.run [(fixtures.remote, .key "5")] = some fixtures.onSettings ∧
      fixtures.onSettings.currentView = ViewSettings ∧
      ∃ v updated cmd, fixtures.onSettings.views.get fixtures.onSettings.currentView = some v ∧
        v.Update (.key "esc") = some (updated, cmd) ∧
        Model.Update fixtures.remote fixtures.onSettings (.key "esc") =
          some
            ({ fixtures.onSettings with
                views := fixtures.onSettings.views.set fixtures.onSettings.currentView updated
                currentView := ViewDashboard
                breadcrumbs := ["Dashboard"] },
              cmd) :=
  ⟨rfl, rfl,
    C5_escape_handling fixtures.lib fixtures.remote fixtures.remote fixtures.cfg
      [(fixtures.remote, .key "5")] fixtures.onSettings (by simp [Msg.isSwitchViewMsg]) rfl
      (by decide)⟩

/-- The `tui.SwitchViewMsg`, if one were sent for the form edit view, for which `NewModel`
registers no view, would make a view without registry entry the active one; the key `esc`
then returns the state as it is, still on the form edit view with two crumbs. -/
theorem esc_without_registered_view :
    fixtures.start.Update fixtures.remote (.switchView ViewFormEdit "Edit Form" none) =
        some (fixtures.unregisteredEdit, []) ∧
      fixtures.unregisteredEdit.currentView ≠ ViewDashboard ∧
      fixtures.unregisteredEdit.Update fixtures.remote (.key "esc") =
        some (fixtures.unregisteredEdit, []) ∧
      fixtures.unregisteredEdit.currentView = ViewFormEdit ∧
      fixtures.unregisteredEdit.breadcrumbs = ["Dashboard", "Edit Form"] := by
  refine ⟨rfl, by decide, ?_, rfl, rfl⟩
  simp [Model.Update, fixtures.unregisteredEdit, fixtures.start, Model.switchView, NewModel,
    Registry.get, ViewFormEdit, ViewDashboard, ViewForms, ViewContacts, ViewFormCreate,
    ViewContactCreate, ViewWebhook, ViewSettings]

theorem libCmds_mem (tags : List Nat) (c : Cmd) (h : c ∈ libCmds tags) : ∃ t, c = Cmd.lib t := by
  unfold libCmds at h
  obtain ⟨t, _, ht⟩ := List.mem_map.1 h
  exact ⟨t, ht.symm⟩

theorem updateInputs_cmds (L : Lib) (focused : Int) (msg : Msg) (i : Nat)
    (inputs : List L.Input) (c : Cmd) (h : c ∈ (webhook.updateInputs L focused msg i inputs).2) :
    ∃ t, c = Cmd.lib t := by
  induction inputs generalizing i with
  | nil => simp [webhook.updateInputs] at h
  | cons input rest ih =>
    simp only [webhook.updateInputs, List.mem_append] at h
    rcases h with h | h
    · exact libCmds_mem _ c h
    · exact ih (i + 1) h

/-- The shape of what a view returns for the key `esc`. -/
theorem AnyView.Update_esc_cmds {L : Lib} (v updated : AnyView L) (cmd : List Cmd)
    (h : v.Update (.key "esc") = some (updated, cmd)) :
    (∀ x, v = .formsCreate x → cmd = [Cmd.msg .formsGoBackToList]) ∧
      (∀ x, v = .contactsCreate x → cmd = [Cmd.msg .contactsGoBackToList]) ∧
      (∀ x, v = .formsEdit x → x.loading = false → cmd = [Cmd.msg .formsGoBackToList]) ∧
      (∀ x, v = .contactsEdit x → x.loading = false →
        cmd = [Cmd.msg .contactsGoBackToList]) ∧
      (∀ x, v = .settings x → cmd = [Cmd.msg (.settingsSwitchView 0 "Dashboard")]) ∧
      (∀ x, v = .formsList x → ∀ c ∈ cmd, ∃ t, c = Cmd.lib t) ∧
      (∀ x, v = .contactsList x → ∀ c ∈ cmd, ∃ t, c = Cmd.lib t) ∧
      (∀ x, v = .webhook x → ∀ c ∈ cmd, ∃ t, c = Cmd.lib t) ∧
      (∀ c ∈ cmd,
        c = Cmd.msg .formsGoBackToList ∨ c = Cmd.msg .contactsGoBackToList ∨
          c = Cmd.msg (.settingsSwitchView 0 "Dashboard") ∨ ∃ t, c = Cmd.lib t) := by
  cases v with
  | dashboard m =>
    have hc : cmd = [] := by
      simp only [AnyView.Update, dashboard.Model.Update] at h
      split_ifs at h <;> simp at * <;> exact h.2
    subst hc
    simp
  | formsList m =>
    have hc : ∀ c ∈ cmd, ∃ t, c = Cmd.lib t := by
      simp [AnyView.Update, forms.ListView.Update, forms.ListView.finish] at h
      obtain ⟨w, h2, _⟩ := h
      intro c hcm
      split_ifs at h2
      · simp only [Option.some.injEq, Prod.mk.injEq] at h2
        rw [← h2.2] at hcm
        simp at hcm
      · simp only [Option.some.injEq, Prod.mk.injEq] at h2
        rw [← h2.2] at hcm
        exact libCmds_mem _ c hcm
    refine ⟨by simp, by simp, by simp, by simp, by simp, fun _ _ => hc, by simp, by simp, ?_⟩
    exact fun c hcm => Or.inr (Or.inr (Or.inr (hc c hcm)))
  | formsCreate v =>
    have hc : cmd = [Cmd.msg .formsGoBackToList] := by
      simp [AnyView.Update, forms.CreateView.Update] at h
      exact h.2.symm
    subst hc
    simp
  | formsEdit v =>
    have hc : cmd = [] ∧ v.loading = true ∨ cmd = [Cmd.msg .formsGoBackToList] := by
      simp only [AnyView.Update, forms.EditView.Update] at h
      split_ifs at h with h1 h2 <;> simp at h
      · exact Or.inl ⟨h.2, h1⟩
      · exact Or.inr h.2.symm
      · exact Or.inr h.2.symm
    rcases hc with ⟨hc, hl⟩ | hc
    · subst hc
      refine ⟨by simp, by simp, ?_, by simp, by simp, by simp, by simp, by simp, by simp⟩
      intro x hx hxl
      cases hx
      simp [hl] at hxl
    · subst hc
      simp
  | contactsList m =>
    have hc : ∀ c ∈ cmd, ∃ t, c = Cmd.lib t := by
      simp [AnyView.Update, contacts.ListView.Update, contacts.ListView.finish] at h
      obtain ⟨w, h2, _⟩ := h
      intro c hcm
      split_ifs at h2
      · simp only [Option.some.injEq, Prod.mk.injEq] at h2
        rw [← h2.2] at hcm
        simp at hcm
      · simp only [Option.some.injEq, Prod.mk.injEq] at h2
        rw [← h2.2] at hcm
        exact libCmds_mem _ c hcm
    refine ⟨by simp, by simp, by simp, by simp, by simp, by simp, fun _ _ => hc, by simp, ?_⟩
    exact fun c hcm => Or.inr (Or.inr (Or.inr (hc c hcm)))
  | contactsCreate v =>
    have hc : cmd = [Cmd.msg .contactsGoBackToList] := by
      simp [AnyView.Update, contacts.CreateView.Update] at h
      exact h.2.symm
    subst hc
    simp
  | contactsEdit v =>
    have hc : cmd = [] ∧ v.loading = true ∨ cmd = [Cmd.msg .contactsGoBackToList] := by
      simp only [AnyView.Update, contacts.EditView.Update] at h
      split_ifs at h with h1 h2 <;> simp at h
      · exact Or.inl ⟨h.2, h1⟩
      · exact Or.inr h.2.symm
      · exact Or.inr h.2.symm
    rcases hc with ⟨hc, hl⟩ | hc
    · subst hc
      refine ⟨by simp, by simp, by simp, ?_, by simp, by simp, by simp, by simp, by simp⟩
      intro x hx hxl
      cases hx
      simp [hl] at hxl
    · subst hc
      simp
  | webhook m =>
    have hc : ∀ c ∈ cmd, ∃ t, c = Cmd.lib t := by
      simp [AnyView.Update, webhook.Model.Update, webhook.Model.finish] at h
      obtain ⟨_, h2⟩ := h
      subst h2
      exact fun c hcm => updateInputs_cmds _ _ _ _ _ c hcm
    refine ⟨by simp, by simp, by simp, by simp, by simp, by simp, by simp, fun _ _ => hc, ?_⟩
    exact fun c hcm => Or.inr (Or.inr (Or.inr (hc c hcm)))
  | settings m =>
    have hc : cmd = [Cmd.msg (.settingsSwitchView 0 "Dashboard")] := by
      simp [AnyView.Update, settings.Model.Update] at h
      exact h.2.symm
    subst hc
    simp

theorem Update_formsGoBack_currentView {L : Lib} (R : database.Remote) (n : Model L) :
    ∃ p, n.Update R .formsGoBackToList = some p ∧ p.1.currentView = ViewForms := by
  simp only [Model.Update]
  split
  · exact ⟨_, rfl, switchView_currentView n ViewForms "Forms"⟩
  · exact ⟨_, rfl, switchView_currentView n ViewForms "Forms"⟩

theorem Update_contactsGoBack_currentView {L : Lib} (R : database.Remote) (n : Model L) :
    ∃ p, n.Update R .contactsGoBackToList = some p ∧ p.1.currentView = ViewContacts := by
  simp only [Model.Update]
  split
  · exact ⟨_, rfl, switchView_currentView n ViewContacts "Contacts"⟩
  · exact ⟨_, rfl, switchView_currentView n ViewContacts "Contacts"⟩

theorem forward_stays {L : Lib} (n : Model L) (msg : Msg) (hs : n.views.AllSafe)
    (hd : msg ≠ .key "d") :
    ∃ p, n.forward msg = some p ∧ p.1.currentView = n.currentView := by
  obtain ⟨p, hp, _⟩ := forward_safe n msg hs hd
  exact ⟨p, hp, (forward_nav n msg p hp).1⟩

/-- C6, as the code has it. In every state whose registered views are safe and whose
active view is registered and is not the dashboard, the key `esc` makes the dashboard
the active view, and each command it returns is one of four kinds.  A create view, and
an edit view that is not loading, return the one command that delivers their
`GoBackToListMsg`, and handling that message makes the forms list (for the contact views
the contacts list) the active view.  The settings view returns its own `SwitchViewMsg`
and the lists and the webhook view return commands of the library only; handling what
these deliver leaves the dashboard the active view. -/
theorem C6_escape_then_followup {L : Lib} (R R2 : database.Remote) (m : Model L)
    (v : AnyView L) (hcur : m.currentView ≠ ViewDashboard)
    (hreg : m.views.get m.currentView = some v) (hsafe : m.views.AllSafe) :
    ∃ n cmds, m.Update R (.key "esc") = some (n, cmds) ∧ n.currentView = ViewDashboard ∧
      (∀ c ∈ cmds,
        (c = Cmd.msg .formsGoBackToList ∧
            ∃ p, n.Update R2 .formsGoBackToList = some p ∧ p.1.currentView = ViewForms) ∨
          (c = Cmd.msg .contactsGoBackToList ∧
            ∃ p, n.Update R2 .contactsGoBackToList = some p ∧
              p.1.currentView = ViewContacts) ∨
          (c = Cmd.msg (.settingsSwitchView 0 "Dashboard") ∧
            ∃ p, n.Update R2 (.settingsSwitchView 0 "Dashboard") = some p ∧
              p.1.currentView = ViewDashboard) ∨
          ((∃ t, c = Cmd.lib t) ∧
            ∀ k, ∃ p, n.Update R2 (.other k) = some p ∧ p.1.currentView = ViewDashboard)) ∧
      (∀ x, v = .formsCreate x → cmds = [Cmd.msg .formsGoBackToList]) ∧
      (∀ x, v = .contactsCreate x → cmds = [Cmd.msg .contactsGoBackToList]) ∧
      (∀ x, v = .formsEdit x → x.loading = false → cmds = [Cmd.msg .formsGoBackToList]) ∧
      (∀ x, v = .contactsEdit x → x.loading = false →
        cmds = [Cmd.msg .contactsGoBackToList]) ∧
      (∀ x, v = .settings x → cmds = [Cmd.msg (.settingsSwitchView 0 "Dashboard")]) ∧
      (∀ x, v = .formsList x → ∀ c ∈ cmds, ∃ t, c = Cmd.lib t) ∧
      (∀ x, v = .contactsList x → ∀ c ∈ cmds, ∃ t, c = Cmd.lib t) ∧
      (∀ x, v = .webhook x → ∀ c ∈ cmds, ∃ t, c = Cmd.lib t) := by
  obtain ⟨⟨updated, cmd⟩, hr⟩ := AnyView.Update_esc_total v
  have hesc : m.Update R (.key "esc") =
      some
        ({ m with
            views := m.views.set m.currentView updated
            currentView := ViewDashboard
            breadcrumbs := ["Dashboard"] },
          cmd) := by
    simp [Model.Update, hcur, hreg, hr]
  have hqs := controller_Update_allSafe R m (.key "esc") _ hsafe hesc
  obtain ⟨h1, h2, h3, h4, h5, h6, h7, h8, h9⟩ := AnyView.Update_esc_cmds v updated cmd hr
  refine ⟨_, cmd, hesc, rfl, ?_, h1, h2, h3, h4, h5, h6, h7, h8⟩
  intro c hc
  rcases h9 c hc with h | h | h | h
  · exact Or.inl ⟨h, Update_formsGoBack_currentView R2 _⟩
  · exact Or.inr (Or.inl ⟨h, Update_contactsGoBack_currentView R2 _⟩)
  · exact Or.inr (Or.inr (Or.inl ⟨h, forward_stays _ _ hqs (by simp)⟩))
  · exact Or.inr (Or.inr (Or.inr ⟨h, fun k => forward_stays _ _ hqs (by simp)⟩))

/-- Witness of C6: on the form create view, reached from start-up, `esc` returns the
command of `GoBackToListMsg`. -/
theorem C6_escape_then_followup_witness :
    ∃ n cmds, fixtures.onFormCreate.Update fixtures.remote (.key "esc") = some (n, cmds) ∧
      cmds = [Cmd.msg .formsGoBackToList] := by
  obtain ⟨n, cmds, h, _, _, hc, _⟩ :=
    C6_escape_then_followup fixtures.remote fixtures.remote fixtures.onFormCreate
      (.formsCreate (forms.NewCreateView fixtures.lib fixtures.remote fixtures.cfg))
      (by decide) rfl
      (switchView_allSafe _ _ _ (NewModel_allSafe fixtures.lib fixtures.remote fixtures.cfg))
  exact ⟨n, cmds, h, hc _ rfl⟩

/-- C6 as stated fails: from start-up, after `SwitchToCreateMsg` the form create view is
active; the key `esc` then returns the command that delivers `GoBackToListMsg`, and after
that message has been handled the active view is the forms list, not the dashboard. -/
theorem C6_counterexample :
    fixtures.start.Update fixtures.remote .formsSwitchToCreate =
        some (fixtures.onFormCreate, []) ∧
      fixtures.onFormCreate.currentView = ViewFormCreate ∧
      (∃ n, fixtures.onFormCreate.Update fixtures.remote (.key "esc") =
          some (n, [Cmd.msg .formsGoBackToList]) ∧
        n.currentView = ViewDashboard ∧
        ∃ p, n.Update fixtures.remote .formsGoBackToList = some p ∧
          p.1.currentView = ViewForms ∧ p.1.currentView ≠ ViewDashboard) := by
  exact ⟨rfl, rfl, _, rfl, rfl, _, rfl, rfl, by decide⟩

theorem updateAll_forall2 {L : Lib} (msg : Msg) (views updated : Registry L) (cmds : List Cmd)
    (h : updateAll msg views = some (updated, cmds)) :
    List.Forall₂ (fun old new => new.1 = old.1 ∧ ∃ c, old.2.Update msg = some (new.2, c))
      views updated := by
  induction views generalizing updated cmds with
  | nil =>
    simp only [updateAll, Option.some.injEq, Prod.mk.injEq] at h
    rw [← h.1]
    exact List.Forall₂.nil
  | cons q rest ih =>
    obtain ⟨k, x⟩ := q
    simp only [updateAll] at h
    split at h
    · rename_i u c us cs hu hrest
      simp only [Option.some.injEq, Prod.mk.injEq] at h
      rw [← h.1]
      exact List.Forall₂.cons ⟨rfl, c, hu⟩ (ih us cs hrest)
    · cases h

/-- C7. Resize fan-out: in every state whose registered views are safe, a window-size
message stores the width and the height in the controller, every entry of the registry,
active or not, is replaced under its key by what its view returns for this one message,
and the active view and the crumbs stay as they were. -/
theorem C7_resize_fan_out {L : Lib} (R : database.Remote) (m : Model L) (w h : Int)
    (hsafe : m.views.AllSafe) :
    ∃ views cmds,
      m.Update R (.windowSize w h) =
        some ({ m with width := w, height := h, views := views }, cmds) ∧
      List.Forall₂
        (fun old new => new.1 = old.1 ∧ ∃ c, old.2.Update (.windowSize w h) = some (new.2, c))
        m.views views ∧
      ({ m with width := w, height := h, views := views } : Model L).width = w ∧
      ({ m with width := w, height := h, views := views } : Model L).height = h ∧
      ({ m with width := w, height := h, views := views } : Model L).currentView =
        m.currentView ∧
      ({ m with width := w, height := h, views := views } : Model L).breadcrumbs =
        m.breadcrumbs := by
  obtain ⟨⟨views, cmds⟩, hr, _⟩ :=
    updateAll_safe (Msg.windowSize w h) m.views hsafe (by simp)
  refine ⟨views, cmds, ?_, updateAll_forall2 _ _ _ _ hr, rfl, rfl, rfl, rfl⟩
  simp only [Model.Update, hr, Option.map_some']

/-- Witness of C7: the controller at start-up handles a resize to 80 by 24. -/
theorem C7_resize_fan_out_witness :
    ∃ views cmds,
      fixtures.start.Update fixtures.remote (.windowSize 80 24) =
        some ({ fixtures.start with width := 80, height := 24, views := views }, cmds) ∧
      views.length = 7 := by
  obtain ⟨views, cmds, h, hall, _⟩ :=
    C7_resize_fan_out fixtures.remote fixtures.start 80 24
      (NewModel_allSafe fixtures.lib fixtures.remote fixtures.cfg)
  exact ⟨views, cmds, h, by rw [← hall.length_eq]; rfl⟩

theorem libCmds_any_formsLoad (tags : List Nat) :
    (libCmds tags).any Cmd.isFormsLoad = false := by
  induction tags with
  | nil => rfl
  | cons t rest ih => simp [libCmds, Cmd.isFormsLoad]

theorem libCmds_any_contactsLoad (tags : List Nat) :
    (libCmds tags).any Cmd.isContactsLoad = false := by
  induction tags with
  | nil => rfl
  | cons t rest ih => simp [libCmds, Cmd.isContactsLoad]

theorem libCmds_forall_formsLoad (tags : List Nat) :
    ∀ x ∈ libCmds tags, x.isFormsLoad = false := by
  intro x hx
  obtain ⟨t, ht⟩ := libCmds_mem tags x hx
  rw [ht]; rfl

theorem forms_Update_load_iff {L : Lib} (m : forms.ListView L) (msg : Msg) :
    (∃ r, m.Update msg = some r ∧ r.2.any Cmd.isFormsLoad = true) ↔
      m.loading = false ∧ (msg = .formsViewActivated ∨ msg = .key "r") := by
  have e1 : Cmd.isFormsLoad .formsLoad = true := rfl
  cases msg with
  | formsViewActivated =>
    cases hl : m.loading
    all_goals
      simp [forms.ListView.Update, forms.ListView.StartLoading, forms.ListView.finish, hl,
        e1]
    all_goals exact libCmds_forall_formsLoad _
  | key s =>
    cases hl : m.loading
    · simp only [forms.ListView.Update, hl]
      split_ifs with h1 h2 h3 h4 h5 h6 h7 h8 h9 <;> (try split)
      all_goals simp_all [forms.ListView.finish]
      all_goals first | rfl | exact libCmds_forall_formsLoad _
    · simp [forms.ListView.Update, hl]
  | spinnerTick t =>
    cases hl : m.loading <;>
      simp [forms.ListView.Update, forms.ListView.finish, hl] <;>
      first
        | exact libCmds_forall_formsLoad _
        | exact fun x hx =>
            hx.elim (libCmds_forall_formsLoad _ x) (libCmds_forall_formsLoad _ x)
  | _ =>
    simp [forms.ListView.Update, forms.ListView.finish]
    exact libCmds_forall_formsLoad _

theorem libCmds_forall_contactsLoad (tags : List Nat) :
    ∀ x ∈ libCmds tags, x.isContactsLoad = false := by
  intro x hx
  obtain ⟨t, ht⟩ := libCmds_mem tags x hx
  rw [ht]; rfl

theorem contacts_Update_load_iff {L : Lib} (m : contacts.ListView L) (msg : Msg) :
    (∃ r, m.Update msg = some r ∧ r.2.any Cmd.isContactsLoad = true) ↔
      m.loading = false ∧
        ((msg = .contactsViewActivated ∧ m.contacts = []) ∨ msg = .key "r") := by
  have e1 : Cmd.isContactsLoad .contactsLoad = true := rfl
  cases msg with
  | contactsViewActivated =>
    cases hl : m.loading <;> cases hc : m.contacts
    all_goals
      simp [contacts.ListView.Update, contacts.ListView.StartLoading, contacts.ListView.finish, hl,
        hc, e1]
    all_goals exact libCmds_forall_contactsLoad _
  | key s =>
    cases hl : m.loading
    · simp only [contacts.ListView.Update, hl]
      split_ifs with h1 h2 h3 h4 h5 h6 h7 h8 h9 <;> (try split)
      all_goals simp_all [contacts.ListView.finish]
      all_goals first | rfl | exact libCmds_forall_contactsLoad _
    · simp [contacts.ListView.Update, hl]
  | spinnerTick t =>
    cases hl : m.loading <;>
      simp [contacts.ListView.Update, contacts.ListView.finish, hl] <;>
      first
        | exact libCmds_forall_contactsLoad _
        | exact fun x hx =>
            hx.elim (libCmds_forall_contactsLoad _ x) (libCmds_forall_contactsLoad _ x)
  | _ =>
    simp [contacts.ListView.Update, contacts.ListView.finish]
    exact libCmds_forall_contactsLoad _

/-- C8. Lazy load: the list views built by `NewListView` are not loading and hold no
data, `Init` returns the spinner tick alone, and `Update` returns a batch with a load
command exactly for an activation message (of a list that is not loading; for the contacts
list also without data) and for the key `r` of a list that is not loading; `Update`
returns for every message other than the key `d`; the other two sources are `StartLoading`
and `ForceReload` themselves. -/
theorem C8_lazy_load (L : Lib) (cfg : config.Config) :
    ((forms.NewListView L cfg).loading = false ∧ (forms.NewListView L cfg).forms = [] ∧
        (forms.NewListView L cfg).Init = [Cmd.spinnerTick] ∧
        (forms.NewListView L cfg).Init.any Cmd.isFormsLoad = false) ∧
      ((contacts.NewListView L cfg).loading = false ∧
        (contacts.NewListView L cfg).contacts = [] ∧
        (contacts.NewListView L cfg).Init = [Cmd.spinnerTick] ∧
        (contacts.NewListView L cfg).Init.any Cmd.isContactsLoad = false) ∧
      (∀ (m : forms.ListView L) (msg : Msg),
        ((∃ r, m.Update msg = some r ∧ r.2.any Cmd.isFormsLoad = true) ↔
          m.loading = false ∧ (msg = .formsViewActivated ∨ msg = .key "r")) ∧
        (msg ≠ .key "d" → ∃ r, m.Update msg = some r) ∧
        m.Init = [Cmd.spinnerTick] ∧
        m.StartLoading.2 = (if m.loading = false then [Cmd.formsLoad] else []) ∧
        m.ForceReload.2 = [Cmd.formsLoad]) ∧
      (∀ (m : contacts.ListView L) (msg : Msg),
        ((∃ r, m.Update msg = some r ∧ r.2.any Cmd.isContactsLoad = true) ↔
          m.loading = false ∧
            ((msg = .contactsViewActivated ∧ m.contacts = []) ∨ msg = .key "r")) ∧
        (msg ≠ .key "d" → ∃ r, m.Update msg = some r) ∧
        m.Init = [Cmd.spinnerTick] ∧
        m.StartLoading.2 =
          (if m.loading = false ∧ m.contacts = [] then [Cmd.contactsLoad] else []) ∧
        m.ForceReload.2 = [Cmd.contactsLoad]) := by
  refine ⟨⟨rfl, rfl, rfl, rfl⟩, ⟨rfl, rfl, rfl, rfl⟩, ?_, ?_⟩
  · intro m msg
    refine ⟨forms_Update_load_iff m msg, formsList_Update_total m msg, rfl, ?_, rfl⟩
    cases hl : m.loading <;> simp [forms.ListView.StartLoading, hl]
  · intro m msg
    refine ⟨contacts_Update_load_iff m msg, contactsList_Update_total m msg, rfl, ?_, rfl⟩
    cases hl : m.loading <;> cases hc : m.contacts <;>
      simp [contacts.ListView.StartLoading, hl, hc]

/-- C9. At most one load in flight: a list view that is loading is returned unchanged and
without a command by `StartLoading` and by the key `r`, and an activation message changes
at most its table, returns no load command, and leaves the loading flag, the data and the
error as they were. -/
theorem C9_single_load_in_flight {L : Lib} (mf : forms.ListView L)
    (mc : contacts.ListView L) (hf : mf.loading = true) (hc : mc.loading = true) :
    (mf.StartLoading = (mf, []) ∧
        mf.Update (.key "r") = some (mf, []) ∧
        ∃ r, mf.Update .formsViewActivated = some r ∧
          r.2.any Cmd.isFormsLoad = false ∧
          r.1.loading = true ∧
          r.1.forms = mf.forms ∧
          r.1.err = mf.err) ∧
      (mc.StartLoading = (mc, []) ∧
        mc.Update (.key "r") = some (mc, []) ∧
        ∃ r, mc.Update .contactsViewActivated = some r ∧
          r.2.any Cmd.isContactsLoad = false ∧
          r.1.loading = true ∧
          r.1.contacts = mc.contacts ∧
          r.1.err = mc.err) := by
  refine ⟨⟨?_, ?_, _, rfl, ?_, ?_, ?_, ?_⟩, ⟨?_, ?_, _, rfl, ?_, ?_, ?_, ?_⟩⟩
  · simp [forms.ListView.StartLoading, hf]
  · simp [forms.ListView.Update, hf]
  · simp [forms.ListView.StartLoading, forms.ListView.finish, hf, libCmds_any_formsLoad]
  · simp [forms.ListView.StartLoading, forms.ListView.finish, hf]
  · simp [forms.ListView.StartLoading, forms.ListView.finish, hf]
  · simp [forms.ListView.StartLoading, forms.ListView.finish, hf]
  · simp [contacts.ListView.StartLoading, hc]
  · simp [contacts.ListView.Update, hc]
  · simp [contacts.ListView.StartLoading, contacts.ListView.finish, hc,
      libCmds_any_contactsLoad]
  · simp [contacts.ListView.StartLoading, contacts.ListView.finish, hc]
  · simp [contacts.ListView.StartLoading, contacts.ListView.finish, hc]
  · simp [contacts.ListView.StartLoading, contacts.ListView.finish, hc]

/-- Witness of C9: the two lists right after their first activation. -/
theorem C9_single_load_in_flight_witness :
    (forms.NewListView fixtures.lib fixtures.cfg).StartLoading.1.loading = true ∧
      (contacts.NewListView fixtures.lib fixtures.cfg).StartLoading.1.loading = true ∧
      (forms.NewListView fixtures.lib fixtures.cfg).StartLoading.1.StartLoading =
        ((forms.NewListView fixtures.lib fixtures.cfg).StartLoading.1, []) ∧
      (contacts.NewListView fixtures.lib fixtures.cfg).StartLoading.1.Update (.key "r") =
        some ((contacts.NewListView fixtures.lib fixtures.cfg).StartLoading.1, []) :=
  ⟨rfl, rfl,
    (C9_single_load_in_flight (forms.NewListView fixtures.lib fixtures.cfg).StartLoading.1
      (contacts.NewListView fixtures.lib fixtures.cfg).StartLoading.1 rfl rfl).1.1,
    (C9_single_load_in_flight (forms.NewListView fixtures.lib fixtures.cfg).StartLoading.1
      (contacts.NewListView fixtures.lib fixtures.cfg).StartLoading.1 rfl rfl).2.2.1⟩

/-- C10, the defect. With the forms list Ready (one form loaded, not loading) and the
dashboard active, `forms.GoBackToListMsg` makes the forms list the active view but the
batch holds two load commands: one from `StartLoading`, called by `switchView`, and one
from `ForceReload`.  The same happens for a forms list that holds an error, and for the
contacts list without data. -/
theorem C10_forced_reload_fires_twice :
    fixtures.start.run
        [(fixtures.remote, .key "2"),
          (fixtures.remote, .formsLoaded [fixtures.sampleForm] none),
          (fixtures.remote, .key "esc")] = some fixtures.formsReady ∧
      fixtures.formsReady.views.get ViewForms =
        some (.formsList
          { forms.NewListView fixtures.lib fixtures.cfg with forms := [fixtures.sampleForm] }) ∧
      (∃ n, fixtures.formsReady.Update fixtures.remote .formsGoBackToList =
          some (n, [Cmd.formsLoad, Cmd.formsLoad]) ∧
        n.currentView = ViewForms) ∧
      [Cmd.formsLoad, Cmd.formsLoad].countP Cmd.isFormsLoad = 2 ∧
      (∃ n, Model.Update fixtures.remote
          ({ fixtures.start with
              views := fixtures.start.views.set ViewForms
                (.formsList
                  { forms.NewListView fixtures.lib fixtures.cfg with err := some "timeout" }) } :
            Model fixtures.lib) .formsGoBackToList =
          some (n, [Cmd.formsLoad, Cmd.formsLoad])) ∧
      (∃ n, fixtures.start.Update fixtures.remote .contactsGoBackToList =
          some (n, [Cmd.contactsLoad, Cmd.contactsLoad])) := by
  exact ⟨rfl, rfl, ⟨_, rfl, rfl⟩, rfl, ⟨_, rfl⟩, ⟨_, rfl⟩⟩

end tui

namespace tui

/-- C11, the defect. A forms list whose load has completed (not loading, one form held)
loads again on every activation: `StartLoading` sets the loading flag and returns the load
command, and so do the activation message and the key `2` of the controller.  The contacts
list in the same situation returns no command and stays as it is. -/
theorem C11_forms_activation_reloads :
    fixtures.formsListReady.loading = false ∧
      fixtures.formsListReady.forms = [fixtures.sampleForm] ∧
      fixtures.formsListReady.StartLoading =
        ({ fixtures.formsListReady with loading := true }, [Cmd.formsLoad]) ∧
      (∃ r, fixtures.formsListReady.Update .formsViewActivated = some r ∧
        r.2 = [Cmd.formsLoad] ∧ r.1.loading = true) ∧
      (∃ n, fixtures.formsReady.Update fixtures.remote (.key "2") =
        some (n, [Cmd.formsLoad])) ∧
      fixtures.contactsListReady.StartLoading = (fixtures.contactsListReady, []) ∧
      (∃ r, fixtures.contactsListReady.Update .contactsViewActivated = some r ∧
        r.2 = [] ∧ r.1.loading = false) :=
  ⟨rfl, rfl, rfl, ⟨_, rfl, rfl, rfl⟩, ⟨_, rfl⟩, rfl, ⟨_, rfl, rfl, rfl⟩⟩

/-- C12. Render-mode priority: `View` of the forms list, the contacts list and the
dashboard renders the error panel whenever err is set, also while loading, else the
loading indicator when loading, else the content (they have no done mode).  The two
edit views are in every state not loading and failed or with their form built
(`NewEditView` returns them so and `Update` keeps them so), and there `View` renders the
error panel whenever err is set, else the loading indicator when loading, else the
success panel when done, else the form. -/
theorem C12_render_priority {L : Lib} (fl : forms.ListView L) (cl : contacts.ListView L)
    (d : dashboard.Model L) (fe : forms.EditView L) (ce : contacts.EditView L)
    (hfe : fe.FormSafe) (hce : ce.FormSafe) :
    ((∀ e, fl.err = some e → fl.View = .renderError e) ∧
        (fl.err = none → fl.loading = true → fl.View = .renderLoading) ∧
        (fl.err = none → fl.loading = false → fl.View = .content)) ∧
      ((∀ e, cl.err = some e → cl.View = .renderError e) ∧
        (cl.err = none → cl.loading = true → cl.View = .renderLoading) ∧
        (cl.err = none → cl.loading = false → cl.View = .content)) ∧
      ((∀ e, d.err = some e → d.View = .renderError e) ∧
        (d.err = none → d.loading = true → d.View = .renderLoading) ∧
        (d.err = none → d.loading = false → d.View = .content)) ∧
      ((∀ e, fe.err = some e → fe.View = some (.renderError e)) ∧
        (fe.err = none → fe.loading = true → fe.View = some .renderLoading) ∧
        (fe.err = none → fe.loading = false → fe.done = true →
          fe.View = some .renderSuccess) ∧
        (fe.err = none → fe.loading = false → fe.done = false →
          fe.View = some .content)) ∧
      ((∀ e, ce.err = some e → ce.View = some (.renderError e)) ∧
        (ce.err = none → ce.loading = true → ce.View = some .renderLoading) ∧
        (ce.err = none → ce.loading = false → ce.done = true →
          ce.View = some .renderSuccess) ∧
        (ce.err = none → ce.loading = false → ce.done = false →
          ce.View = some .content)) := by
  obtain ⟨hfl, hff⟩ := hfe
  obtain ⟨hcl, hcf⟩ := hce
  refine ⟨⟨?_, ?_, ?_⟩, ⟨?_, ?_, ?_⟩, ⟨?_, ?_, ?_⟩, ⟨?_, ?_, ?_, ?_⟩, ⟨?_, ?_, ?_, ?_⟩⟩
  · intro e h; simp [forms.ListView.View, h]
  · intro h1 h2; simp [forms.ListView.View, h1, h2]
  · intro h1 h2; simp [forms.ListView.View, h1, h2]
  · intro e h; simp [contacts.ListView.View, h]
  · intro h1 h2; simp [contacts.ListView.View, h1, h2]
  · intro h1 h2; simp [contacts.ListView.View, h1, h2]
  · intro e h; simp [dashboard.Model.View, h]
  · intro h1 h2; simp [dashboard.Model.View, h1, h2]
  · intro h1 h2; simp [dashboard.Model.View, h1, h2]
  · intro e h; simp [forms.EditView.View, hfl, h]
  · intro _ h; simp [forms.EditView.View, h]
  · intro h1 h2 h3; simp [forms.EditView.View, h1, h2, h3]
  · intro h1 h2 h3
    cases hf : fe.form with
    | none => simp [h1, hf] at hff
    | some f => simp [forms.EditView.View, h1, h2, h3, hf]
  · intro e h; simp [contacts.EditView.View, hcl, h]
  · intro _ h; simp [contacts.EditView.View, h]
  · intro h1 h2 h3; simp [contacts.EditView.View, h1, h2, h3]
  · intro h1 h2 h3
    cases hf : ce.form with
    | none => simp [h1, hf] at hcf
    | some f => simp [contacts.EditView.View, h1, h2, h3, hf]

/-- Witness of C12: a forms list with an error that is loading shows the error, and the
form edit view and the contact edit view whose load has failed show the error. -/
theorem C12_render_priority_witness :
    (({ fixtures.formsListReady with err := some "timeout", loading := true } :
        forms.ListView fixtures.lib).View = .renderError "timeout") ∧
      fixtures.failedFormEdit.View =
        some (.renderError "failed to load form: form not found") ∧
      fixtures.failedContactEdit.View =
        some (.renderError "failed to load contact: contact not found") :=
  ⟨(C12_render_priority
      ({ fixtures.formsListReady with err := some "timeout", loading := true } :
        forms.ListView fixtures.lib)
      fixtures.contactsListReady (dashboard.New fixtures.lib fixtures.cfg)
      fixtures.failedFormEdit fixtures.failedContactEdit
      ⟨rfl, Or.inl (by decide)⟩ ⟨rfl, Or.inl (by decide)⟩).1.1 "timeout" rfl,
    (C12_render_priority fixtures.formsListReady fixtures.contactsListReady
      (dashboard.New fixtures.lib fixtures.cfg)
      fixtures.failedFormEdit fixtures.failedContactEdit
      ⟨rfl, Or.inl (by decide)⟩ ⟨rfl, Or.inl (by decide)⟩).2.2.2.1.1 _ rfl,
    (C12_render_priority fixtures.formsListReady fixtures.contactsListReady
      (dashboard.New fixtures.lib fixtures.cfg)
      fixtures.failedFormEdit fixtures.failedContactEdit
      ⟨rfl, Or.inl (by decide)⟩ ⟨rfl, Or.inl (by decide)⟩).2.2.2.2.1 _ rfl⟩

/-- The edit views test the loading flag before err.  A value with both set, which is not
`FormSafe` and which neither `NewEditView` nor `Update` produces, would render the loading
indicator. -/
theorem editView_loading_tested_first :
    (({ forms.EditView.zero fixtures.lib fixtures.cfg with
          err := some "not found", loading := true } : forms.EditView fixtures.lib).View =
        some .renderLoading) ∧
      ¬ ({ forms.EditView.zero fixtures.lib fixtures.cfg with
          err := some "not found", loading := true } : forms.EditView fixtures.lib).FormSafe ∧
      (({ contacts.EditView.zero fixtures.lib fixtures.cfg with
          err := some "not found", loading := true } : contacts.EditView fixtures.lib).View =
        some .renderLoading) :=
  ⟨rfl, fun h => absurd h.1 (by decide), rfl⟩

end tui

namespace tui

theorem libCmds_any_formsCreate (tags : List Nat) :
    (libCmds tags).any Cmd.isFormsCreate = false := by
  induction tags with
  | nil => rfl
  | cons t rest ih => simp [libCmds, Cmd.isFormsCreate]

theorem libCmds_any_contactsCreate (tags : List Nat) :
    (libCmds tags).any Cmd.isContactsCreate = false := by
  induction tags with
  | nil => rfl
  | cons t rest ih => simp [libCmds, Cmd.isContactsCreate]

theorem formsCreate_finish_gate {L : Lib} (v : forms.CreateView L) (f : L.Form) (msg : Msg)
    (hf : v.form = some f) :
    ∃ r, v.finish msg = some r ∧
      (r.2.any Cmd.isFormsCreate = true ↔
        L.formGetState f = FormState.StateCompleted ∧ v.formData.Confirmed = true) ∧
      (L.formGetState f = FormState.StateCompleted ∧ v.formData.Confirmed = true →
        r = (v, [Cmd.formsCreate])) := by
  unfold forms.CreateView.finish
  simp only [hf]
  split_ifs with h
  · exact ⟨_, rfl, by simp [Cmd.isFormsCreate, h], fun _ => rfl⟩
  · exact ⟨_, rfl, by simp [libCmds_any_formsCreate, h], fun hc => absurd hc h⟩

theorem contactsCreate_finish_gate {L : Lib} (v : contacts.CreateView L) (f : L.Form)
    (msg : Msg) (hf : v.form = some f) :
    ∃ r, v.finish msg = some r ∧
      (r.2.any Cmd.isContactsCreate = true ↔
        L.formGetState f = FormState.StateCompleted ∧ v.contactData.Confirmed = true) ∧
      (L.formGetState f = FormState.StateCompleted ∧ v.contactData.Confirmed = true →
        r = (v, [Cmd.contactsCreate])) := by
  unfold contacts.CreateView.finish
  simp only [hf]
  split_ifs with h
  · exact ⟨_, rfl, by simp [Cmd.isContactsCreate, h], fun _ => rfl⟩
  · exact ⟨_, rfl, by simp [libCmds_any_contactsCreate, h], fun hc => absurd hc h⟩

/-- C13. Confirmation gate: a create view that has its form, handling any message other
than the key `esc` and its creation-result message, returns a create command if and only
if the form state is completed and the Confirmed flag of the draft is true; in that case
the command batch is the one create command and the draft is untouched (a window-size
message still stores the size). -/
theorem C13_confirmation_gate {L : Lib} (vf : forms.CreateView L)
    (vc : contacts.CreateView L) (ff fc : L.Form) (msgF msgC : Msg)
    (hff : vf.form = some ff) (hfc : vc.form = some fc)
    (hescF : msgF ≠ .key "esc") (hresF : ∀ id e, msgF ≠ .formCreated id e)
    (hescC : msgC ≠ .key "esc") (hresC : ∀ id e, msgC ≠ .contactCreated id e) :
    (∃ r, vf.Update msgF = some r ∧
        (r.2.any Cmd.isFormsCreate = true ↔
          L.formGetState ff = FormState.StateCompleted ∧ vf.formData.Confirmed = true) ∧
        (L.formGetState ff = FormState.StateCompleted ∧ vf.formData.Confirmed = true →
          r.2 = [Cmd.formsCreate] ∧ r.2.countP Cmd.isFormsCreate = 1 ∧
            r.1.formData = vf.formData)) ∧
      (∃ r, vc.Update msgC = some r ∧
        (r.2.any Cmd.isContactsCreate = true ↔
          L.formGetState fc = FormState.StateCompleted ∧ vc.contactData.Confirmed = true) ∧
        (L.formGetState fc = FormState.StateCompleted ∧ vc.contactData.Confirmed = true →
          r.2 = [Cmd.contactsCreate] ∧ r.2.countP Cmd.isContactsCreate = 1 ∧
            r.1.contactData = vc.contactData)) := by
  constructor
  · have key : ∀ (w : forms.CreateView L), w.form = some ff → w.formData = vf.formData →
        ∃ r, w.finish msgF = some r ∧
          (r.2.any Cmd.isFormsCreate = true ↔
            L.formGetState ff = FormState.StateCompleted ∧ vf.formData.Confirmed = true) ∧
          (L.formGetState ff = FormState.StateCompleted ∧ vf.formData.Confirmed = true →
            r.2 = [Cmd.formsCreate] ∧ r.2.countP Cmd.isFormsCreate = 1 ∧
              r.1.formData = vf.formData) := by
      intro w hw hd
      obtain ⟨r, hr, hiff, hex⟩ := formsCreate_finish_gate w ff msgF hw
      rw [hd] at hiff hex
      refine ⟨r, hr, hiff, fun hc => ?_⟩
      rw [hex hc]
      exact ⟨rfl, rfl, hd⟩
    cases msgF with
    | windowSize w h => exact key _ hff rfl
    | key s =>
      have hs : s ≠ "esc" := fun h => hescF (by rw [h])
      simp only [forms.CreateView.Update, if_neg hs]
      exact key _ hff rfl
    | formCreated id e => exact absurd rfl (hresF id e)
    | _ => exact key _ hff rfl
  · have key : ∀ (w : contacts.CreateView L), w.form = some fc →
        w.contactData = vc.contactData →
        ∃ r, w.finish msgC = some r ∧
          (r.2.any Cmd.isContactsCreate = true ↔
            L.formGetState fc = FormState.StateCompleted ∧ vc.contactData.Confirmed = true) ∧
          (L.formGetState fc = FormState.StateCompleted ∧ vc.contactData.Confirmed = true →
            r.2 = [Cmd.contactsCreate] ∧ r.2.countP Cmd.isContactsCreate = 1 ∧
              r.1.contactData = vc.contactData) := by
      intro w hw hd
      obtain ⟨r, hr, hiff, hex⟩ := contactsCreate_finish_gate w fc msgC hw
      rw [hd] at hiff hex
      refine ⟨r, hr, hiff, fun hc => ?_⟩
      rw [hex hc]
      exact ⟨rfl, rfl, hd⟩
    cases msgC with
    | windowSize w h => exact key _ hfc rfl
    | key s =>
      have hs : s ≠ "esc" := fun h => hescC (by rw [h])
      simp only [contacts.CreateView.Update, if_neg hs]
      exact key _ hfc rfl
    | contactCreated id e => exact absurd rfl (hresC id e)
    | _ => exact key _ hfc rfl

end tui

namespace tui

/-- Witness of C13: the confirmed and completed create views answer a spinner tick with
their one create command. -/
theorem C13_confirmation_gate_witness :
    (∃ r, fixtures.confirmedForm.Update (.spinnerTick 0) = some r ∧
        r.2 = [Cmd.formsCreate]) ∧
      (∃ r, fixtures.confirmedContact.Update (.windowSize 80 24) = some r ∧
        r.2 = [Cmd.contactsCreate]) := by
  obtain ⟨⟨rf, hrf, _, hf⟩, ⟨rc, hrc, _, hc⟩⟩ :=
    C13_confirmation_gate fixtures.confirmedForm fixtures.confirmedContact
      FormState.StateCompleted FormState.StateCompleted (.spinnerTick 0) (.windowSize 80 24)
      rfl rfl (by simp) (by simp) (by simp) (by simp)
  exact ⟨⟨rf, hrf, (hf ⟨rfl, rfl⟩).1⟩, ⟨rc, hrc, (hc ⟨rfl, rfl⟩).1⟩⟩

/-- C14. Submit success: a create view, in any state, and an edit view that is loaded
and has no error, handling its result message without an error, sets done, leaves every
other field (err and the draft among them) as it was, and returns the one command that
delivers its `GoBackToListMsg`. -/
theorem C14_submit_success {L : Lib} (vf : forms.CreateView L) (vc : contacts.CreateView L)
    (ef : forms.EditView L) (ec : contacts.EditView L) (formID : String) (contactID : Int)
    (hlf : ef.loading = false) (hef : ef.err = none)
    (hlc : ec.loading = false) (hec : ec.err = none) :
    vf.Update (.formCreated formID none) =
        some ({ vf with done := true }, [Cmd.msg .formsGoBackToList]) ∧
      vc.Update (.contactCreated contactID none) =
        some ({ vc with done := true }, [Cmd.msg .contactsGoBackToList]) ∧
      ef.Update (.formUpdated formID none) =
        some ({ ef with done := true }, [Cmd.msg .formsGoBackToList]) ∧
      ec.Update (.contactUpdated contactID none) =
        some ({ ec with done := true }, [Cmd.msg .contactsGoBackToList]) := by
  refine ⟨rfl, rfl, ?_, ?_⟩
  · simp [forms.EditView.Update, hlf, hef]
  · simp [contacts.EditView.Update, hlc, hec]

/-- Witness of C14: the confirmed create views and two loaded edit views. -/
theorem C14_submit_success_witness :
    fixtures.confirmedForm.Update (.formCreated "contact" none) =
        some (fixtures.submittedForm, [Cmd.msg .formsGoBackToList]) ∧
      (forms.EditView.zero fixtures.lib fixtures.cfg).Update (.formUpdated "contact" none) =
        some ({ forms.EditView.zero fixtures.lib fixtures.cfg with done := true },
          [Cmd.msg .formsGoBackToList]) :=
  ⟨(C14_submit_success fixtures.confirmedForm fixtures.confirmedContact
      (forms.EditView.zero fixtures.libSubmit fixtures.cfg)
      (contacts.EditView.zero fixtures.libSubmit fixtures.cfg) "contact" 7 rfl rfl rfl rfl).1,
    (C14_submit_success (forms.NewCreateView fixtures.lib fixtures.remote fixtures.cfg)
      (contacts.NewCreateView fixtures.lib fixtures.cfg)
      (forms.EditView.zero fixtures.lib fixtures.cfg)
      (contacts.EditView.zero fixtures.lib fixtures.cfg) "contact" 7 rfl rfl rfl rfl).2.2.1⟩

/-- C15, the defect. After a successful submission (done is true, the form is still
completed and confirmed) the form create view answers a window resize, a spinner tick, a
key and a stale load result with the create command again, and so does the contact
create view.  In the controller: after the form has been confirmed, created and the
forms list shown again, a window resize makes the create view, which the resize reaches
like every registered view, return its create command once more. -/
theorem C15_duplicate_submission :
    fixtures.submittedForm.done = true ∧
      (∃ v, fixtures.submittedForm.Update (.windowSize 100 30) = some (v, [Cmd.formsCreate])) ∧
      fixtures.submittedForm.Update (.spinnerTick 0) =
        some (fixtures.submittedForm, [Cmd.formsCreate]) ∧
      fixtures.submittedForm.Update (.key "x") =
        some (fixtures.submittedForm, [Cmd.formsCreate]) ∧
      fixtures.submittedForm.Update (.formsLoaded [] none) =
        some (fixtures.submittedForm, [Cmd.formsCreate]) ∧
      fixtures.submittedContact.done = true ∧
      (∃ v, fixtures.submittedContact.Update (.windowSize 100 30) =
        some (v, [Cmd.contactsCreate])) ∧
      fixtures.submittedContact.Update (.spinnerTick 0) =
        some (fixtures.submittedContact, [Cmd.contactsCreate]) ∧
      (∃ m, fixtures.startSubmit.run
            [(fixtures.remote, .formsSwitchToCreate), (fixtures.remote, .key "enter"),
              (fixtures.remote, .formCreated "contact" none),
              (fixtures.remote, .formsGoBackToList)] = some m ∧
          m.views.get ViewFormCreate = some (.formsCreate fixtures.submittedForm) ∧
          m.currentView = ViewForms ∧
          ∃ n cmds, m.Update fixtures.remote (.windowSize 100 30) = some (n, cmds) ∧
            cmds.countP Cmd.isFormsCreate = 1) :=
  ⟨rfl, ⟨_, rfl⟩, rfl, rfl, rfl, rfl, ⟨_, rfl⟩, rfl, ⟨_, rfl, rfl, rfl, _, _, rfl, rfl⟩⟩

/-- C16. Submit failure preserves the draft: a create view, in any state, handling its
creation-result message with an error, stores the error in err, returns no command, and
leaves every other field (the draft with its Confirmed flag, the form and done) as it
was. -/
theorem C16_submit_failure_keeps_draft {L : Lib} (vf : forms.CreateView L)
    (vc : contacts.CreateView L) (formID : String) (contactID : Int) (e : String) :
    vf.Update (.formCreated formID (some e)) = some ({ vf with err := some e }, []) ∧
      vc.Update (.contactCreated contactID (some e)) = some ({ vc with err := some e }, []) ∧
      ({ vf with err := some e } : forms.CreateView L).formData = vf.formData ∧
      ({ vf with err := some e } : forms.CreateView L).form = vf.form ∧
      ({ vf with err := some e } : forms.CreateView L).done = vf.done ∧
      ({ vc with err := some e } : contacts.CreateView L).contactData = vc.contactData ∧
      ({ vc with err := some e } : contacts.CreateView L).form = vc.form ∧
      ({ vc with err := some e } : contacts.CreateView L).done = vc.done :=
  ⟨rfl, rfl, rfl, rfl, rfl, rfl, rfl, rfl⟩

/-- C18. Failed edit view: an edit view that is not loading and has err set answers the
key `esc` with the one command that delivers its `GoBackToListMsg` and every other
message with no command; in both cases the view is returned as it was, so err stays
set. -/
theorem C18_failed_edit_view {L : Lib} (ef : forms.EditView L) (ec : contacts.EditView L)
    (e1 e2 : String) (msg : Msg)
    (hlf : ef.loading = false) (hef : ef.err = some e1)
    (hlc : ec.loading = false) (hec : ec.err = some e2) :
    ef.Update (.key "esc") = some (ef, [Cmd.msg .formsGoBackToList]) ∧
      ec.Update (.key "esc") = some (ec, [Cmd.msg .contactsGoBackToList]) ∧
      (msg ≠ .key "esc" → ef.Update msg = some (ef, []) ∧ ec.Update msg = some (ec, [])) := by
  refine ⟨?_, ?_, ?_⟩
  · simp [forms.EditView.Update, hlf, hef]
  · simp [contacts.EditView.Update, hlc, hec]
  · intro hm
    constructor
    · cases msg with
      | key s =>
        have hs : s ≠ "esc" := fun h => hm (by rw [h])
        simp [forms.EditView.Update, hlf, hef, hs]
      | _ => simp [forms.EditView.Update, hlf, hef]
    · cases msg with
      | key s =>
        have hs : s ≠ "esc" := fun h => hm (by rw [h])
        simp [contacts.EditView.Update, hlc, hec, hs]
      | _ => simp [contacts.EditView.Update, hlc, hec]

/-- Witness of C18: the edit views whose load has failed, for `esc` and for `enter`. -/
theorem C18_failed_edit_view_witness :
    fixtures.failedFormEdit.Update (.key "esc") =
        some (fixtures.failedFormEdit, [Cmd.msg .formsGoBackToList]) ∧
      fixtures.failedContactEdit.Update (.key "enter") =
        some (fixtures.failedContactEdit, []) :=
  ⟨(C18_failed_edit_view fixtures.failedFormEdit fixtures.failedContactEdit
      "failed to load form: form not found" "failed to load contact: contact not found"
      (.key "enter") rfl rfl rfl rfl).1,
    ((C18_failed_edit_view fixtures.failedFormEdit fixtures.failedContactEdit
      "failed to load form: form not found" "failed to load contact: contact not found"
      (.key "enter") rfl rfl rfl rfl).2.2 (by simp)).2⟩

end tui

namespace tui

/-- C17, as the code has it. The edit view returned by `NewEditView` has been loaded
inside the constructor: it is never loading; when the client and the lookup by id
succeed it has no error, the form is built from the fetched record and `Init` is the
init command of that form; otherwise err is set, there is no form and `Init` returns no
command.  `Init` never returns anything but commands of the form library. -/
theorem C17_edit_view_loaded_in_constructor (L : Lib) (R : database.Remote)
    (cfg : config.Config) (formID : String) (contactID : Int) :
    (∃ v, forms.NewEditView L R cfg formID = some v ∧ v.loading = false ∧
        (∀ c ∈ v.Init, ∃ t, c = Cmd.lib t) ∧
        (match database.NewClient cfg, R.GetFormByID formID with
        | .ok _, .ok form =>
          v.err = none ∧ (∃ f, v.form = some f ∧ v.Init = libCmds (L.formInit f)) ∧
            v.originalForm = some form ∧ v.formData.ID = form.ID ∧
            v.formData.Name = form.Name ∧ v.formData.Description = form.Description
        | _, _ => v.err ≠ none ∧ v.form = none ∧ v.Init = [])) ∧
      (∃ v, contacts.NewEditView L R cfg contactID = some v ∧ v.loading = false ∧
        (∀ c ∈ v.Init, ∃ t, c = Cmd.lib t) ∧
        (match database.NewClient cfg, R.GetContactByID contactID with
        | .ok _, .ok contact =>
          v.err = none ∧ (∃ f, v.form = some f ∧ v.Init = libCmds (L.formInit f)) ∧
            v.originalContact = some contact ∧ v.contactData.Name = contact.Name ∧
            v.contactData.PhoneNumber = contact.PhoneNumber
        | _, _ => v.err ≠ none ∧ v.form = none ∧ v.Init = [])) := by
  constructor
  · unfold forms.NewEditView
    cases hc : database.NewClient cfg with
    | error e => exact ⟨_, rfl, rfl, by simp [forms.EditView.Init, forms.EditView.zero],
        by simp [forms.EditView.Init, forms.EditView.zero]⟩
    | ok db =>
      simp only [forms.EditView.loadFormData]
      cases hg : R.GetFormByID formID with
      | error e =>
        exact ⟨_, rfl, rfl, by simp [forms.EditView.Init, forms.EditView.zero],
        by simp [forms.EditView.Init, forms.EditView.zero]⟩
      | ok form =>
        refine ⟨_, rfl, rfl, ?_, ?_⟩
        · intro c hcm
          exact libCmds_mem _ c hcm
        · exact ⟨rfl, ⟨_, rfl, rfl⟩, rfl, rfl, rfl, rfl⟩
  · unfold contacts.NewEditView
    cases hc : database.NewClient cfg with
    | error e =>
      exact ⟨_, rfl, rfl, by simp [contacts.EditView.Init, contacts.EditView.zero],
        by simp [contacts.EditView.Init, contacts.EditView.zero]⟩
    | ok db =>
      simp only [contacts.EditView.loadContactData]
      cases hg : R.GetContactByID contactID with
      | error e =>
        exact ⟨_, rfl, rfl, by simp [contacts.EditView.Init, contacts.EditView.zero],
        by simp [contacts.EditView.Init, contacts.EditView.zero]⟩
      | ok contact =>
        refine ⟨_, rfl, rfl, ?_, ?_⟩
        · intro c hcm
          exact libCmds_mem _ c hcm
        · exact ⟨rfl, ⟨_, rfl, rfl⟩, rfl, rfl, rfl⟩

/-- C17 as stated fails: with a valid configuration and a remote store that holds the
record, the edit view returned by `NewEditView` is not loading, already has its form, and
`Init` returns no load command (with these widgets, no command at all); when the record
is missing the view is not loading either and has its error set. -/
theorem C17_counterexample :
    (∃ v, forms.NewEditView fixtures.lib fixtures.remoteData fixtures.cfg "contact" = some v ∧
        v.loading = false ∧ v.form = some () ∧ v.Init = []) ∧
      (∃ v, contacts.NewEditView fixtures.lib fixtures.remoteData fixtures.cfg 7 = some v ∧
        v.loading = false ∧ v.form = some () ∧ v.Init = []) ∧
      (∃ v, contacts.NewEditView fixtures.lib fixtures.remote fixtures.cfg 7 = some v ∧
        v.loading = false ∧ v.form = none ∧
        v.err = some "failed to load contact: contact not found" ∧ v.Init = []) :=
  ⟨⟨_, rfl, rfl, rfl, rfl⟩, ⟨_, rfl, rfl, rfl, rfl⟩, ⟨_, rfl, rfl, rfl, rfl, rfl⟩⟩

/-- C19, the defect. After an error message the controller shows its error panel, whose
hint reads that any key continues; but after the keys `x`, `enter`, `2`, `esc` and `a`
the error slot still holds the error and `View` still returns the error panel: no key
clears it. -/
theorem C19_root_error_never_cleared :
    ∃ m n,
      fixtures.start.Update fixtures.remote (.error "boom") = some (m, []) ∧
        m.err = some "boom" ∧ m.View = some (.renderError "boom") ∧
        m.run
            [(fixtures.remote, .key "x"), (fixtures.remote, .key "enter"),
              (fixtures.remote, .key "2"), (fixtures.remote, .key "esc"),
              (fixtures.remote, .key "a")] = some n ∧
        n.err = some "boom" ∧ n.View = some (.renderError "boom") :=
  ⟨_, _, rfl, rfl, rfl, rfl, rfl, rfl⟩

theorem forward_routing {L : Lib} (m : Model L) (msg : Msg) (hsafe : m.views.AllSafe)
    (hd : msg ≠ .key "d") :
    ∃ r, m.forward msg = some r ∧ r.1.currentView = m.currentView ∧
      r.1.breadcrumbs = m.breadcrumbs ∧
      (∀ k, k ≠ m.currentView → r.1.views.get k = m.views.get k) ∧
      (∀ v, m.views.get m.currentView = some v →
        ∃ updated, v.Update msg = some (updated, r.2) ∧
          r.1.views.get m.currentView = some updated) ∧
      (m.views.get m.currentView = none → r = (m, [])) := by
  unfold Model.forward
  cases hg : m.views.get m.currentView with
  | none => exact ⟨_, rfl, rfl, rfl, fun _ _ => rfl, by simp, fun _ => rfl⟩
  | some v =>
    obtain ⟨⟨u, c⟩, hu, _⟩ := anyView_Update_safe v msg (Registry.get_safe _ _ _ hsafe hg) hd
    simp only [hu]
    refine ⟨_, rfl, rfl, rfl, fun k hk => Registry.get_set_ne _ _ _ _ hk, ?_, by simp⟩
    intro w hw
    cases hw
    exact ⟨u, hu, Registry.get_set_self _ _ _⟩

/-- C20. Stale result routing: in every state whose registered views are safe and
whose active view is not the forms list, a `FormsLoadedMsg` is handled by the active view
alone (by nobody when no view is registered for it): the active view and the crumbs stay,
every registry entry other than the active one, the forms list with its forms, err and
loading flag among them, is as it was, and the command is the one of the active view.
The same holds for `ContactsLoadedMsg` and the contacts list. -/
theorem C20_stale_result_routing {L : Lib} (R : database.Remote) (m : Model L)
    (fs : List database.FormWithStats) (cs : List database.ContactWithStats) (e : Err)
    (hsafe : m.views.AllSafe) :
    (m.currentView ≠ ViewForms →
        ∃ r, m.Update R (.formsLoaded fs e) = some r ∧ r.1.currentView = m.currentView ∧
          r.1.breadcrumbs = m.breadcrumbs ∧
          r.1.views.get ViewForms = m.views.get ViewForms ∧
          (∀ k, k ≠ m.currentView → r.1.views.get k = m.views.get k) ∧
          (∀ v, m.views.get m.currentView = some v →
            ∃ updated, v.Update (.formsLoaded fs e) = some (updated, r.2) ∧
              r.1.views.get m.currentView = some updated) ∧
          (m.views.get m.currentView = none → r = (m, []))) ∧
      (m.currentView ≠ ViewContacts →
        ∃ r, m.Update R (.contactsLoaded cs e) = some r ∧ r.1.currentView = m.currentView ∧
          r.1.breadcrumbs = m.breadcrumbs ∧
          r.1.views.get ViewContacts = m.views.get ViewContacts ∧
          (∀ k, k ≠ m.currentView → r.1.views.get k = m.views.get k) ∧
          (∀ v, m.views.get m.currentView = some v →
            ∃ updated, v.Update (.contactsLoaded cs e) = some (updated, r.2) ∧
              r.1.views.get m.currentView = some updated) ∧
          (m.views.get m.currentView = none → r = (m, []))) := by
  constructor
  · intro hne
    obtain ⟨r, hr, h1, h2, h3, h4, h5⟩ := forward_routing m (.formsLoaded fs e) hsafe (by simp)
    exact ⟨r, hr, h1, h2, h3 _ (Ne.symm hne), h3, h4, h5⟩
  · intro hne
    obtain ⟨r, hr, h1, h2, h3, h4, h5⟩ := forward_routing m (.contactsLoaded cs e) hsafe (by simp)
    exact ⟨r, hr, h1, h2, h3 _ (Ne.symm hne), h3, h4, h5⟩

/-- Witness of C20: back on the dashboard while the forms list is loading, the late
`FormsLoadedMsg` leaves the forms list loading and without forms. -/
theorem C20_stale_result_routing_witness :
    fixtures.start.run [(fixtures.remote, .key "2"), (fixtures.remote, .key "esc")] =
        some fixtures.awayWhileLoading ∧
      ∃ r, fixtures.awayWhileLoading.Update fixtures.remote
            (.formsLoaded [fixtures.sampleForm] none) = some r ∧
          r.1.views.get ViewForms =
            some (.formsList
              { forms.NewListView fixtures.lib fixtures.cfg with loading := true }) := by
  refine ⟨rfl, ?_⟩
  obtain ⟨r, hr, _, _, hf, _⟩ :=
    (C20_stale_result_routing fixtures.remote fixtures.awayWhileLoading
      [fixtures.sampleForm] [] none
      (Registry.set_allSafe _ _ _
        (NewModel_allSafe fixtures.lib fixtures.remote fixtures.cfg) trivial)).1 (by decide)
  exact ⟨r, hr, by rw [hf]; rfl⟩

end tui

namespace tui

/-- C21. `Validate` returns no error exactly when the four Cloudflare fields are all
non-empty; otherwise it returns the `is required` error of the first empty field in the
order account id, API token, database id, worker URL; and `NewClient` fails exactly when
`Validate` does, with the error of `Validate` wrapped. -/
theorem C21_validate (c : config.Config) :
    (c.Validate = none ↔
        c.Cloudflare.AccountID ≠ "" ∧ c.Cloudflare.APIToken ≠ "" ∧
          c.Cloudflare.DatabaseID ≠ "" ∧ c.Cloudflare.WorkerURL ≠ "") ∧
      (c.Cloudflare.AccountID = "" →
        c.Validate = some "cloudflare.account_id is required") ∧
      (c.Cloudflare.AccountID ≠ "" → c.Cloudflare.APIToken = "" →
        c.Validate = some "cloudflare.api_token is required") ∧
      (c.Cloudflare.AccountID ≠ "" → c.Cloudflare.APIToken ≠ "" →
        c.Cloudflare.DatabaseID = "" →
        c.Validate = some "cloudflare.database_id is required") ∧
      (c.Cloudflare.AccountID ≠ "" → c.Cloudflare.APIToken ≠ "" →
        c.Cloudflare.DatabaseID ≠ "" → c.Cloudflare.WorkerURL = "" →
        c.Validate = some "cloudflare.worker_url is required") ∧
      ((∃ e, database.NewClient c = .error e) ↔ c.Validate ≠ none) ∧
      (∀ e, c.Validate = some e → database.NewClient c = .error ("invalid config: " ++ e)) ∧
      (c.Validate = none → ∃ client, database.NewClient c = .ok client ∧ client.config = c) := by
  refine ⟨?_, ?_, ?_, ?_, ?_, ?_, ?_, ?_⟩
  · unfold config.Config.Validate
    split_ifs <;> simp [*]
  · intro h1; simp [config.Config.Validate, h1]
  · intro h1 h2; simp [config.Config.Validate, h1, h2]
  · intro h1 h2 h3; simp [config.Config.Validate, h1, h2, h3]
  · intro h1 h2 h3 h4; simp [config.Config.Validate, h1, h2, h3, h4]
  · unfold database.NewClient
    cases hv : c.Validate <;> simp
  · intro e he; simp [database.NewClient, he]
  · intro hn; simp [database.NewClient, hn]

/-- C22, the defect. The menu of the dashboard gives its items the view ids 1, 2, 3 and
4. Only `Forms` has the id of its view: the id of `Contacts` is `ViewFormCreate`, not
`ViewContacts`, the id of `Test Webhook` is `ViewFormEdit`, not `ViewWebhook`, and the id
of `Settings` is `ViewContacts`, not `ViewSettings`. -/
theorem C22_menu_targets_mismatch :
    dashboard.menuItems.map (fun item => (item.Title, item.ViewID)) =
        [("Forms", 1), ("Contacts", 2), ("Test Webhook", 3), ("Settings", 4)] ∧
      (dashboard.New fixtures.lib fixtures.cfg).menuItems = dashboard.menuItems ∧
      (ViewForms = 1 ∧ ViewContacts = 4 ∧ ViewWebhook = 7 ∧ ViewSettings = 8) ∧
      (ViewFormCreate = 2 ∧ ViewFormEdit = 3) ∧
      (dashboard.menuItems.map (fun item => item.ViewID) ≠
        [ViewForms, ViewContacts, ViewWebhook, ViewSettings]) := by
  refine ⟨rfl, rfl, ⟨rfl, rfl, rfl, rfl⟩, ⟨rfl, rfl⟩, by decide⟩

/-- C23, the defect. With the dashboard active, loaded and `Forms` selected, the key
`enter` returns the command that delivers the `SwitchViewMsg` local to the dashboard
package; the controller does not catch that message as a navigation but hands it to the
dashboard, which ignores it: the dashboard stays active with its one crumb.  The same
happens with `Contacts` selected. -/
theorem C23_enter_does_not_navigate :
    fixtures.start.Update fixtures.remote (.statsLoaded (some fixtures.sampleStats) none) =
        some (fixtures.loaded, []) ∧
      fixtures.loaded.currentView = ViewDashboard ∧
      fixtures.loaded.Update fixtures.remote (.key "enter") =
        some (fixtures.loaded, [Cmd.msg (.dashboardSwitchView 1 "Forms")]) ∧
      fixtures.loaded.Update fixtures.remote (.dashboardSwitchView 1 "Forms") =
        some (fixtures.loaded, []) ∧
      fixtures.loaded.breadcrumbs = ["Dashboard"] ∧
      (∃ m, fixtures.loaded.Update fixtures.remote (.key "down") = some (m, []) ∧
        m.Update fixtures.remote (.key "enter") =
          some (m, [Cmd.msg (.dashboardSwitchView 2 "Contacts")]) ∧
        m.Update fixtures.remote (.dashboardSwitchView 2 "Contacts") = some (m, []) ∧
        m.currentView = ViewDashboard ∧ m.breadcrumbs = ["Dashboard"]) :=
  ⟨rfl, rfl, rfl, rfl, rfl, _, rfl, rfl, rfl, rfl, rfl⟩

/-- C24, the defect. For the empty text and for texts of white space only, the validator
of the fields input returns no error and leaves `formData.Fields` empty: `strings.Split`
gives one empty line, so the test for no lines never holds and the line is skipped. -/
theorem C24_no_field_is_accepted :
    forms.validateFields [] "" = ([], none) ∧
      forms.validateFields [] "   " = ([], none) ∧
      forms.validateFields [] " \n\t\n " = ([], none) ∧
      forms.validateFields (forms.NewCreateView fixtures.lib fixtures.remote
          fixtures.cfg).formData.Fields "" = ([], none) := by
  refine ⟨?_, ?_, ?_, ?_⟩ <;> decide

/-- C25, the defect. The form edit view loads a form with one recipient, contact 7,
whose id sits in a cell at address 824633802904: `SelectedContacts` has one entry, and it
is the decimal of the address, while `buildForm` gives the option of contact 7 the
value `7`. -/
theorem C25_preselection_prints_pointer :
    ∃ v, forms.NewEditView fixtures.lib fixtures.remoteRecipient fixtures.cfg "contact" =
          some v ∧
        fixtures.formWithRecipient.Numbers.map (fun n => n.ContactID.map (fun p => p.val)) =
          [some 7] ∧
        v.formData.SelectedContacts = ["824633802904"] ∧
        (forms.contactOptions v.contacts).map (fun o => o.2) = ["7"] ∧
        v.formData.SelectedContacts ≠ (forms.contactOptions v.contacts).map (fun o => o.2) :=
  ⟨_, rfl, rfl, by decide, by decide, by decide⟩

end tui

namespace tui

theorem forms_write_loading_err {L : Lib} (v : forms.EditView L) (w : Write) :
    (v.write w).loading = v.loading ∧ (v.write w).err = v.err := by
  unfold forms.EditView.write
  split <;> exact ⟨rfl, rfl⟩

theorem forms_writes_loading_err {L : Lib} (ws : List Write) (v : forms.EditView L) :
    (ws.foldl forms.EditView.write v).loading = v.loading ∧
      (ws.foldl forms.EditView.write v).err = v.err := by
  induction ws generalizing v with
  | nil => exact ⟨rfl, rfl⟩
  | cons w rest ih =>
    simp only [List.foldl_cons]
    rw [(ih (v.write w)).1, (ih (v.write w)).2]
    exact forms_write_loading_err v w

theorem formsEdit_finish_formSafe {L : Lib} (v : forms.EditView L) (msg : Msg)
    (hl : v.loading = false) (hform : v.form.isSome = true) :
    ∃ r, v.finish msg = some r ∧ r.1.FormSafe := by
  unfold forms.EditView.finish
  cases hf : v.form with
  | none => simp [hf] at hform
  | some f =>
    simp only
    split_ifs
    · exact ⟨_, rfl, hl, Or.inr (by simp [hf])⟩
    · refine ⟨_, rfl, ?_, Or.inr rfl⟩
      show (List.foldl forms.EditView.write v (L.formUpdate f msg).2.1).loading = false
      rw [(forms_writes_loading_err _ v).1, hl]

theorem formsEdit_Update_formSafe {L : Lib} (v : forms.EditView L) (msg : Msg)
    (h : v.FormSafe) : ∃ r, v.Update msg = some r ∧ r.1.FormSafe := by
  obtain ⟨hl, hor⟩ := h
  unfold forms.EditView.Update
  rw [if_neg (by simp [hl])]
  split_ifs with he
  · cases msg with
    | key s =>
      simp only
      split_ifs
      · exact ⟨_, rfl, hl, hor⟩
      · exact ⟨_, rfl, hl, hor⟩
    | _ => exact ⟨_, rfl, hl, hor⟩
  · have hform : v.form.isSome = true := by
      rcases hor with h | h
      · exact absurd h he
      · exact h
    cases msg with
    | windowSize w hgt => exact formsEdit_finish_formSafe _ _ hl hform
    | key s =>
      simp only
      split_ifs
      · exact ⟨_, rfl, hl, hor⟩
      · exact formsEdit_finish_formSafe _ _ hl hform
    | formUpdated id error =>
      cases error with
      | none => exact ⟨_, rfl, hl, Or.inr hform⟩
      | some e => exact ⟨_, rfl, hl, Or.inl (by simp)⟩
    | _ => exact formsEdit_finish_formSafe _ _ hl hform

theorem contactsEdit_finish_formSafe {L : Lib} (v : contacts.EditView L) (msg : Msg)
    (hl : v.loading = false) (hform : v.form.isSome = true) :
    ∃ r, v.finish msg = some r ∧ r.1.FormSafe := by
  unfold contacts.EditView.finish
  cases hf : v.form with
  | none => simp [hf] at hform
  | some f =>
    simp only
    split_ifs
    · exact ⟨_, rfl, hl, Or.inr (by simp [hf])⟩
    · exact ⟨_, rfl, hl, Or.inr rfl⟩

theorem contactsEdit_Update_formSafe {L : Lib} (v : contacts.EditView L) (msg : Msg)
    (h : v.FormSafe) : ∃ r, v.Update msg = some r ∧ r.1.FormSafe := by
  obtain ⟨hl, hor⟩ := h
  unfold contacts.EditView.Update
  rw [if_neg (by simp [hl])]
  split_ifs with he
  · cases msg with
    | key s =>
      simp only
      split_ifs
      · exact ⟨_, rfl, hl, hor⟩
      · exact ⟨_, rfl, hl, hor⟩
    | _ => exact ⟨_, rfl, hl, hor⟩
  · have hform : v.form.isSome = true := by
      rcases hor with h | h
      · exact absurd h he
      · exact h
    cases msg with
    | windowSize w hgt => exact contactsEdit_finish_formSafe _ _ hl hform
    | key s =>
      simp only
      split_ifs
      · exact ⟨_, rfl, hl, hor⟩
      · exact contactsEdit_finish_formSafe _ _ hl hform
    | contactUpdated id error =>
      cases error with
      | none => exact ⟨_, rfl, hl, Or.inr hform⟩
      | some e => exact ⟨_, rfl, hl, Or.inl (by simp)⟩
    | _ => exact contactsEdit_finish_formSafe _ _ hl hform

theorem formsEdit_View_total {L : Lib} (v : forms.EditView L) (h : v.FormSafe) :
    ∃ p, v.View = some p := by
  obtain ⟨hl, hor⟩ := h
  unfold forms.EditView.View
  rw [if_neg (by simp [hl])]
  cases he : v.err with
  | some e => exact ⟨_, rfl⟩
  | none =>
    simp only
    split_ifs
    · exact ⟨_, rfl⟩
    · cases hf : v.form with
      | none => simp [he, hf] at hor
      | some f => exact ⟨_, rfl⟩

theorem contactsEdit_View_total {L : Lib} (v : contacts.EditView L) (h : v.FormSafe) :
    ∃ p, v.View = some p := by
  obtain ⟨hl, hor⟩ := h
  unfold contacts.EditView.View
  rw [if_neg (by simp [hl])]
  cases he : v.err with
  | some e => exact ⟨_, rfl⟩
  | none =>
    simp only
    split_ifs
    · exact ⟨_, rfl⟩
    · cases hf : v.form with
      | none => simp [he, hf] at hor
      | some f => exact ⟨_, rfl⟩

/-- C26. Edit view form safety: every edit view returned by `NewEditView` is not loading
and has err set or its form built; an edit view in such a state handles every message
without a panic and is in such a state afterwards, and `View` renders it without a
panic, before and after: a missing form is never read, updated or rendered. -/
theorem C26_edit_form_safety {L : Lib} (R : database.Remote) (cfg : config.Config)
    (formID : String) (contactID : Int) (vf : forms.EditView L) (vc : contacts.EditView L)
    (msg : Msg) (hf : vf.FormSafe) (hc : vc.FormSafe) :
    (∃ v, forms.NewEditView L R cfg formID = some v ∧ v.FormSafe) ∧
      (∃ v, contacts.NewEditView L R cfg contactID = some v ∧ v.FormSafe) ∧
      (∃ r, vf.Update msg = some r ∧ r.1.FormSafe ∧ ∃ p, r.1.View = some p) ∧
      (∃ p, vf.View = some p) ∧
      (∃ r, vc.Update msg = some r ∧ r.1.FormSafe ∧ ∃ p, r.1.View = some p) ∧
      (∃ p, vc.View = some p) := by
  refine ⟨?_, ?_, ?_, formsEdit_View_total vf hf, ?_, contactsEdit_View_total vc hc⟩
  · obtain ⟨v, hv, hs⟩ := forms_NewEditView_safe L R cfg formID
    exact ⟨v, hv, hs⟩
  · obtain ⟨v, hv, hs⟩ := contacts_NewEditView_safe L R cfg contactID
    exact ⟨v, hv, hs⟩
  · obtain ⟨r, hr, hs⟩ := formsEdit_Update_formSafe vf msg hf
    exact ⟨r, hr, hs, formsEdit_View_total r.1 hs⟩
  · obtain ⟨r, hr, hs⟩ := contactsEdit_Update_formSafe vc msg hc
    exact ⟨r, hr, hs, contactsEdit_View_total r.1 hs⟩

/-- Witness of C26: the form edit view whose load has failed handles `enter` and is
rendered afterwards, and the contact edit view whose load has failed is rendered. -/
theorem C26_edit_form_safety_witness :
    (∃ r, fixtures.failedFormEdit.Update (.key "enter") = some r ∧ r.1.FormSafe ∧
        ∃ p, r.1.View = some p) ∧
      (∃ p, fixtures.failedContactEdit.View = some p) :=
  ⟨(C26_edit_form_safety fixtures.remoteData fixtures.cfg "contact" 7
      fixtures.failedFormEdit fixtures.failedContactEdit (.key "enter")
      ⟨rfl, Or.inl (by decide)⟩ ⟨rfl, Or.inl (by decide)⟩).2.2.1,
    (C26_edit_form_safety fixtures.remoteData fixtures.cfg "contact" 7
      fixtures.failedFormEdit fixtures.failedContactEdit (.key "enter")
      ⟨rfl, Or.inl (by decide)⟩ ⟨rfl, Or.inl (by decide)⟩).2.2.2.2.2⟩

end tui

namespace tui

theorem formsCreate_finish_err {L : Lib} (v : forms.CreateView L) (msg : Msg)
    (hform : v.form.isSome = true) : ∃ r, v.finish msg = some r ∧ r.1.err = v.err := by
  unfold forms.CreateView.finish
  cases hf : v.form with
  | none => simp [hf] at hform
  | some f =>
    simp only
    split_ifs
    · exact ⟨_, rfl, rfl⟩
    · exact ⟨_, rfl, rfl⟩

theorem contactsCreate_finish_err {L : Lib} (v : contacts.CreateView L) (msg : Msg)
    (hform : v.form.isSome = true) : ∃ r, v.finish msg = some r ∧ r.1.err = v.err := by
  unfold contacts.CreateView.finish
  cases hf : v.form with
  | none => simp [hf] at hform
  | some f =>
    simp only
    split_ifs
    · exact ⟨_, rfl, rfl⟩
    · exact ⟨_, rfl, rfl⟩

theorem formsCreate_Update_err {L : Lib} (v : forms.CreateView L) (msg : Msg) (e : String)
    (he : v.err = some e) (hform : v.form.isSome = true) :
    ∃ r e2, v.Update msg = some r ∧ r.1.err = some e2 := by
  have fin : ∀ w : forms.CreateView L, w.err = some e → w.form.isSome = true →
      ∃ r e2, w.finish msg = some r ∧ r.1.err = some e2 := fun w hw hwf => by
    obtain ⟨r, hr, hre⟩ := formsCreate_finish_err w msg hwf
    exact ⟨r, e, hr, by rw [hre, hw]⟩
  cases msg with
  | windowSize w h => exact fin _ he hform
  | key s =>
    simp only [forms.CreateView.Update]
    split_ifs
    · exact ⟨_, e, rfl, he⟩
    · exact fin _ he hform
  | formCreated id error =>
    cases error with
    | none => exact ⟨_, e, rfl, he⟩
    | some e3 => exact ⟨_, e3, rfl, rfl⟩
  | _ => exact fin _ he hform

theorem contactsCreate_Update_err {L : Lib} (v : contacts.CreateView L) (msg : Msg)
    (e : String) (he : v.err = some e) (hform : v.form.isSome = true) :
    ∃ r e2, v.Update msg = some r ∧ r.1.err = some e2 := by
  have fin : ∀ w : contacts.CreateView L, w.err = some e → w.form.isSome = true →
      ∃ r e2, w.finish msg = some r ∧ r.1.err = some e2 := fun w hw hwf => by
    obtain ⟨r, hr, hre⟩ := contactsCreate_finish_err w msg hwf
    exact ⟨r, e, hr, by rw [hre, hw]⟩
  cases msg with
  | windowSize w h => exact fin _ he hform
  | key s =>
    simp only [contacts.CreateView.Update]
    split_ifs
    · exact ⟨_, e, rfl, he⟩
    · exact fin _ he hform
  | contactCreated id error =>
    cases error with
    | none => exact ⟨_, e, rfl, he⟩
    | some e3 => exact ⟨_, e3, rfl, rfl⟩
  | _ => exact fin _ he hform

/-- C27. Create view error is sticky: a create view that has its form and has err set
still has err set after `Update` has handled any message, a successful creation result
among them, and after the create command has run, whatever the remote store answers; and
with err set `View` returns the error panel. -/
theorem C27_create_error_sticky {L : Lib} (table : Char → Char) (W : database.Writes)
    (vf : forms.CreateView L) (vc : contacts.CreateView L) (msg : Msg) (e1 e2 : String)
    (hef : vf.err = some e1) (hec : vc.err = some e2)
    (hff : vf.form.isSome = true) (hfc : vc.form.isSome = true) :
    (∃ r e, vf.Update msg = some r ∧ r.1.err = some e ∧ r.1.View = some (.renderError e)) ∧
      (∃ e, (vf.createForm table W).1.err = some e ∧
        (vf.createForm table W).1.View = some (.renderError e)) ∧
      vf.View = some (.renderError e1) ∧
      (∃ r e, vc.Update msg = some r ∧ r.1.err = some e ∧ r.1.View = some (.renderError e)) ∧
      (∃ e, (vc.createContact W).1.err = some e ∧
        (vc.createContact W).1.View = some (.renderError e)) ∧
      vc.View = some (.renderError e2) := by
  have viewF : ∀ (w : forms.CreateView L) (e : String), w.err = some e →
      w.View = some (.renderError e) := fun w e hw => by simp [forms.CreateView.View, hw]
  have viewC : ∀ (w : contacts.CreateView L) (e : String), w.err = some e →
      w.View = some (.renderError e) := fun w e hw => by simp [contacts.CreateView.View, hw]
  refine ⟨?_, ?_, viewF vf e1 hef, ?_, ?_, viewC vc e2 hec⟩
  · obtain ⟨r, e, hr, he⟩ := formsCreate_Update_err vf msg e1 hef hff
    exact ⟨r, e, hr, he, viewF _ _ he⟩
  · have h : ∃ e, (vf.createForm table W).1.err = some e := by
      unfold forms.CreateView.createForm
      cases vf.db with
      | none => exact ⟨_, rfl⟩
      | some db =>
        simp only
        split
        · exact ⟨_, rfl⟩
        · exact ⟨e1, hef⟩
    obtain ⟨e, he⟩ := h
    exact ⟨e, he, viewF _ _ he⟩
  · obtain ⟨r, e, hr, he⟩ := contactsCreate_Update_err vc msg e2 hec hfc
    exact ⟨r, e, hr, he, viewC _ _ he⟩
  · have h : ∃ e, (vc.createContact W).1.err = some e := by
      unfold contacts.CreateView.createContact
      cases vc.db with
      | none => exact ⟨_, rfl⟩
      | some db =>
        simp only
        split
        · exact ⟨_, rfl⟩
        · exact ⟨e2, hec⟩
    obtain ⟨e, he⟩ := h
    exact ⟨e, he, viewC _ _ he⟩

/-- Witness of C27: the form create view that failed once still shows its error after a
creation result without error. -/
theorem C27_create_error_sticky_witness :
    ∃ r e,
      ({ fixtures.confirmedForm with err := some "UNIQUE constraint failed" } :
          forms.CreateView fixtures.libSubmit).Update (.formCreated "contact" none) = some r ∧
        r.1.err = some e ∧ r.1.View = some (.renderError e) :=
  (C27_create_error_sticky (fun c => c) fixtures.writesOk
    ({ fixtures.confirmedForm with err := some "UNIQUE constraint failed" } :
      forms.CreateView fixtures.libSubmit)
    ({ fixtures.confirmedContact with err := some "UNIQUE constraint failed" } :
      contacts.CreateView fixtures.libSubmit)
    (.formCreated "contact" none) "UNIQUE constraint failed" "UNIQUE constraint failed"
    rfl rfl rfl rfl).1

theorem keepsIDChar_fixed (table : Char → Char) (c : Char) (h : forms.keepsIDChar c = true) :
    strings.toLowerRune table c = c ∧ c ≠ ' ' ∧ c ≠ '_' := by
  have hn : (97 ≤ c.toNat ∧ c.toNat ≤ 122) ∨ (48 ≤ c.toNat ∧ c.toNat ≤ 57) ∨ c.toNat = 45 := by
    simpa [forms.keepsIDChar, or_assoc] using h
  refine ⟨?_, ?_, ?_⟩
  · unfold strings.toLowerRune
    rw [if_pos (by omega), if_neg (by omega)]
  · rintro rfl
    simp at hn
  · rintro rfl
    simp at hn

theorem generate_on_clean (table : Char → Char) (cs : List Char)
    (h : ∀ c ∈ cs, forms.keepsIDChar c = true) :
    (strings.replaceChar '_' '-'
        (strings.replaceChar ' ' '-' (cs.map (strings.toLowerRune table)))).filter
      forms.keepsIDChar = cs := by
  induction cs with
  | nil => rfl
  | cons c rest ih =>
    have hc := h c (List.mem_cons_self _ _)
    obtain ⟨h1, h2, h3⟩ := keepsIDChar_fixed table c hc
    have hrest := ih (fun d hd => h d (List.mem_cons_of_mem _ hd))
    simp only [strings.replaceChar, List.map_cons, List.map_map] at hrest ⊢
    simp only [h1, if_neg h2, if_neg h3, List.filter_cons, hc, if_true]
    rw [hrest]

/-- C29. `generateFormID` yields, for every name (and whatever the Unicode case table
holds above ASCII), a text of the characters `a` to `z`, `0` to `9` and `-` only; it has
no space, so the validator of the Form ID input accepts it; and `generateFormID` returns
its own output unchanged. -/
theorem C29_generateFormID (table : Char → Char) (name : String) :
    (∀ c ∈ (forms.generateFormID table name).data,
        ('a' ≤ c ∧ c ≤ 'z') ∨ ('0' ≤ c ∧ c ≤ '9') ∨ c = '-') ∧
      ' ' ∉ (forms.generateFormID table name).data ∧
      forms.validateFormID (forms.generateFormID table name) = none ∧
      forms.generateFormID table (forms.generateFormID table name) =
        forms.generateFormID table name := by
  have hall : ∀ c ∈ (forms.generateFormID table name).data, forms.keepsIDChar c = true := by
    intro c hc
    simp only [forms.generateFormID] at hc
    exact (List.mem_filter.1 hc).2
  have hsp : ' ' ∉ (forms.generateFormID table name).data := by
    intro hmem
    have := hall ' ' hmem
    simp [forms.keepsIDChar] at this
  refine ⟨?_, hsp, ?_, ?_⟩
  · intro c hc
    have hk := hall c hc
    have hn : (97 ≤ c.toNat ∧ c.toNat ≤ 122) ∨ (48 ≤ c.toNat ∧ c.toNat ≤ 57) ∨
        c.toNat = 45 := by
      simpa [forms.keepsIDChar, or_assoc] using hk
    rcases hn with h | h | h
    · left
      exact ⟨show 97 ≤ c.toNat from h.1, show c.toNat ≤ 122 from h.2⟩
    · right; left
      exact ⟨show 48 ≤ c.toNat from h.1, show c.toNat ≤ 57 from h.2⟩
    · right; right
      rw [← Char.ofNat_toNat c, h]
  · simp [forms.validateFormID, hsp]
  · exact congrArg String.mk (generate_on_clean table _ hall)

end tui

namespace tui

theorem byteArray_toList_loop (bs : ByteArray) (n : Nat) :
    ∀ (i : Nat) (r : List UInt8), bs.size - i = n →
      ByteArray.toList.loop bs i r = r.reverse ++ bs.data.toList.drop i := by
  induction n with
  | zero =>
    intro i r h
    rw [ByteArray.toList.loop]
    have hle : bs.data.toList.length ≤ i := by
      have : bs.size ≤ i := by omega
      simpa [ByteArray.size] using this
    rw [if_neg (by omega), List.drop_eq_nil_of_le hle]; simp
  | succ n ih =>
    intro i r h
    rw [ByteArray.toList.loop]
    have hlt : i < bs.size := by omega
    rw [if_pos hlt, ih (i + 1) _ (by omega)]
    have hsz : i < bs.data.toList.length := by simpa [ByteArray.size] using hlt
    rw [List.drop_eq_getElem_cons hsz]
    have hget : bs.get! i = bs.data.toList[i] := by
      have hsz2 : i < bs.data.size := by simpa using hsz
      have h1 : bs.get! i = bs.data[i] := by
        simp [ByteArray.get!, hsz2, getElem!_pos]
      rw [h1]
      exact Array.getElem_eq_getElem_toList ..
    rw [hget]
    simp

theorem bytesOf_stars : settings.bytesOf "****" = [42, 42, 42, 42] := by
  have h := byteArray_toList_loop ("****".toUTF8) _ 0 [] rfl
  simp only [settings.bytesOf, ByteArray.toList, h]
  decide

/-- C30. Secret masking: `maskString` and `maskToken` map every non-empty secret of at
most 8 bytes to the four stars; they map a secret of more than 8 bytes to its first four
bytes, the four stars and its last four bytes, 12 bytes in all, so two such secrets with
the same first four and last four bytes get the same output; and the two functions
agree on every non-empty input. -/
theorem C30_secret_masking (s t : settings.Bytes) :
    (s ≠ [] → s.length ≤ 8 →
        config.maskString s = settings.bytesOf "****" ∧
          settings.maskToken s = settings.bytesOf "****") ∧
      settings.bytesOf "****" = [42, 42, 42, 42] ∧
      (8 < s.length →
        config.maskString s = s.take 4 ++ settings.bytesOf "****" ++ s.drop (s.length - 4) ∧
          settings.maskToken s = config.maskString s ∧
          (config.maskString s).length = 12) ∧
      (8 < s.length → 8 < t.length → s.take 4 = t.take 4 →
        s.drop (s.length - 4) = t.drop (t.length - 4) →
        config.maskString s = config.maskString t ∧
          settings.maskToken s = settings.maskToken t) ∧
      (s ≠ [] → config.maskString s = settings.maskToken s) := by
  have long : ∀ u : settings.Bytes, 8 < u.length →
      config.maskString u = u.take 4 ++ settings.bytesOf "****" ++ u.drop (u.length - 4) ∧
        settings.maskToken u = config.maskString u := by
    intro u hu
    have hne : u ≠ [] := by
      intro h; rw [h] at hu; simp at hu
    have hgt : ¬ u.length ≤ 8 := by omega
    simp [config.maskString, settings.maskToken, hne, hgt]
  refine ⟨?_, bytesOf_stars, ?_, ?_, ?_⟩
  · intro hne hle
    simp [config.maskString, settings.maskToken, hne, hle]
  · intro hs
    refine ⟨(long s hs).1, (long s hs).2, ?_⟩
    rw [(long s hs).1, bytesOf_stars]
    simp only [List.length_append, List.length_take, List.length_drop, List.length_cons,
      List.length_nil]
    omega
  · intro hs ht h1 h2
    rw [(long s hs).2, (long t ht).2, (long s hs).1, (long t ht).1, h1, h2]
    exact ⟨rfl, rfl⟩
  · intro hne
    by_cases hle : s.length ≤ 8
    · simp [config.maskString, settings.maskToken, hne, hle]
    · exact ((long s (by omega)).2).symm

end tui

namespace tui

theorem intercalate_go_data (s : String) (as : List String) (acc : String) :
    (String.intercalate.go acc s as).data =
      acc.data ++ (as.map fun a => s.data ++ a.data).flatten := by
  induction as generalizing acc with
  | nil => simp [String.intercalate.go]
  | cons a rest ih =>
    simp [String.intercalate.go, ih, String.data_append, List.append_assoc]

theorem splitChars_no_sep (sep : Char) (l : List Char) (h : sep ∉ l) :
    strings.splitChars sep l = [l] := by
  induction l with
  | nil => rfl
  | cons c rest ih =>
    have hc : c ≠ sep := fun hc => h (by rw [hc]; exact List.mem_cons_self _ _)
    have hr : sep ∉ rest := fun hr => h (List.mem_cons_of_mem _ hr)
    simp [strings.splitChars, hc, ih hr]

theorem splitChars_append (sep : Char) (l rest : List Char) (h : sep ∉ l) :
    strings.splitChars sep (l ++ sep :: rest) = l :: strings.splitChars sep rest := by
  induction l with
  | nil => simp [strings.splitChars]
  | cons c l ih =>
    have hc : c ≠ sep := fun hc => h (by rw [hc]; exact List.mem_cons_self _ _)
    have hr : sep ∉ l := fun hr => h (List.mem_cons_of_mem _ hr)
    simp [strings.splitChars, hc, ih hr]

theorem splitChars_lines (l : List Char) (ls : List (List Char))
    (h : ∀ x ∈ l :: ls, '\n' ∉ x) :
    strings.splitChars '\n' (l ++ (ls.map fun a => '\n' :: a).flatten) = l :: ls := by
  induction ls generalizing l with
  | nil => simpa using splitChars_no_sep '\n' l (h l (List.mem_cons_self _ _))
  | cons m ms ih =>
    have hl := h l (List.mem_cons_self _ _)
    have hm : ∀ x ∈ m :: ms, '\n' ∉ x := fun x hx => h x (List.mem_cons_of_mem _ hx)
    simp only [List.map_cons, List.flatten_cons, List.cons_append]
    rw [splitChars_append '\n' l _ hl, ih m hm]

theorem trim_clean (cs : List Char) (h1 : cs.head?.any strings.isSpace = false)
    (h2 : cs.getLast?.any strings.isSpace = false) : strings.trimSpaceChars cs = cs := by
  have drop_id : ∀ xs : List Char, xs.head?.any strings.isSpace = false →
      xs.dropWhile strings.isSpace = xs := by
    intro xs hx
    cases xs with
    | nil => rfl
    | cons x rest =>
      have : strings.isSpace x = false := by simpa using hx
      simp [List.dropWhile, this]
  unfold strings.trimSpaceChars
  rw [drop_id cs h1, drop_id cs.reverse (by rw [List.head?_reverse]; exact h2)]
  exact List.reverse_reverse cs

theorem cleanText_spec (cs : List Char) (h : forms.cleanText cs = true) :
    '|' ∉ cs ∧ '\n' ∉ cs ∧ cs.head?.any strings.isSpace = false ∧
      cs.getLast?.any strings.isSpace = false := by
  simp only [forms.cleanText, Bool.and_eq_true, Bool.not_eq_true', List.contains_eq_any_beq,
    List.any_eq_false, beq_iff_eq] at h
  obtain ⟨⟨⟨h1, h2⟩, h3⟩, h4⟩ := h
  exact ⟨fun hm => h1 _ hm rfl, fun hm => h2 _ hm rfl, h3, h4⟩

theorem string_mk_data (s : String) : String.mk s.data = s := rfl

theorem fieldStrings_data (fields : List forms.FieldData) :
    (forms.fieldStrings fields).data =
      match fields.map forms.fieldLineChars with
      | [] => []
      | l :: ls => l ++ (ls.map fun a => '\n' :: a).flatten := by
  have hline : ∀ f : forms.FieldData,
      (f.ElementorID ++ "|" ++ f.Label ++ "|" ++ f.Typ ++
        (if f.Required then " *" else "")).data = forms.fieldLineChars f := by
    intro f
    cases hr : f.Required <;>
      simp [forms.fieldLineChars, hr, String.data_append, List.append_assoc]
  cases fields with
  | nil => rfl
  | cons f rest =>
    simp only [forms.fieldStrings, List.map_cons, String.intercalate, intercalate_go_data,
      List.map_map, hline]
    congr 2
    apply List.map_congr_left
    intro g _
    simp [hline]

theorem text_ends (l : List Char) (ls : List (List Char))
    (h : ∀ x ∈ l :: ls, x ≠ [] ∧ x.head?.any strings.isSpace = false ∧
      x.getLast?.any strings.isSpace = false) :
    (l ++ (ls.map fun a => '\n' :: a).flatten).head?.any strings.isSpace = false ∧
      (l ++ (ls.map fun a => '\n' :: a).flatten).getLast?.any strings.isSpace = false := by
  constructor
  · obtain ⟨hne, hh, _⟩ := h l (List.mem_cons_self _ _)
    cases l with
    | nil => exact absurd rfl hne
    | cons c cs => simpa using hh
  · induction ls generalizing l with
    | nil => simpa using (h l (List.mem_cons_self _ _)).2.2
    | cons m ms ih =>
      have hm : ∀ x ∈ m :: ms, x ≠ [] ∧ x.head?.any strings.isSpace = false ∧
          x.getLast?.any strings.isSpace = false := fun x hx => h x (List.mem_cons_of_mem _ hx)
      have hmne : m ≠ [] := (hm m (List.mem_cons_self _ _)).1
      have hrw : l ++ ((m :: ms).map fun a => '\n' :: a).flatten =
          (l ++ ['\n']) ++ (m ++ (ms.map fun a => '\n' :: a).flatten) := by
        simp [List.append_assoc]
      rw [hrw, List.getLast?_append_of_ne_nil _ (by simp [hmne])]
      exact ih m hm

theorem trim_trailing_space (cs : List Char) (hne : cs ≠ [])
    (h1 : cs.head?.any strings.isSpace = false)
    (h2 : cs.getLast?.any strings.isSpace = false) :
    strings.trimSpaceChars (cs ++ [' ']) = cs := by
  have drop_id : ∀ xs : List Char, xs.head?.any strings.isSpace = false →
      xs.dropWhile strings.isSpace = xs := by
    intro xs hx
    cases xs with
    | nil => rfl
    | cons x rest =>
      have : strings.isSpace x = false := by simpa using hx
      simp [List.dropWhile, this]
  have hhead : (cs ++ [' ']).head?.any strings.isSpace = false := by
    cases cs with
    | nil => exact absurd rfl hne
    | cons c rest => simpa using h1
  have hsp : strings.isSpace ' ' = true := by decide
  unfold strings.trimSpaceChars
  rw [drop_id _ hhead, List.reverse_append]
  simp only [List.reverse_cons, List.reverse_nil, List.nil_append, List.singleton_append,
    List.dropWhile_cons, hsp, if_true]
  rw [drop_id cs.reverse (by rw [List.head?_reverse]; exact h2)]
  exact List.reverse_reverse cs

theorem line_facts (f : forms.FieldData) (h : f.Clean = true) :
    '\n' ∉ forms.fieldLineChars f ∧ forms.fieldLineChars f ≠ [] ∧
      (forms.fieldLineChars f).head?.any strings.isSpace = false ∧
      (forms.fieldLineChars f).getLast?.any strings.isSpace = false ∧
      strings.splitChars '|' (forms.fieldLineChars f) =
        [f.ElementorID.data, f.Label.data,
          f.Typ.data ++ if f.Required then [' ', '*'] else []] := by
  simp only [forms.FieldData.Clean, Bool.and_eq_true, Bool.not_eq_true'] at h
  obtain ⟨⟨⟨hid, hlabel⟩, htyp⟩, _⟩ := h
  obtain ⟨i1, i2, i3, _⟩ := cleanText_spec _ hid
  obtain ⟨l1, l2, _, _⟩ := cleanText_spec _ hlabel
  obtain ⟨t1, t2, _, t4⟩ := cleanText_spec _ htyp
  have hsuf1 : '|' ∉ (if f.Required then [' ', '*'] else ([] : List Char)) := by
    split_ifs <;> decide
  have hsuf2 : '\n' ∉ (if f.Required then [' ', '*'] else ([] : List Char)) := by
    split_ifs <;> decide
  refine ⟨?_, ?_, ?_, ?_, ?_⟩
  · simp only [forms.fieldLineChars, List.mem_append, List.mem_cons, not_or]
    exact ⟨i2, by decide, l2, by decide, t2, hsuf2⟩
  · simp [forms.fieldLineChars]
  · unfold forms.fieldLineChars
    cases hd : f.ElementorID.data with
    | nil => simp; decide
    | cons c rest =>
      rw [hd] at i3
      simpa using i3
  · have hrw : forms.fieldLineChars f =
        (f.ElementorID.data ++ '|' :: (f.Label.data ++ ['|'])) ++
          (f.Typ.data ++ if f.Required then [' ', '*'] else []) := by
      simp [forms.fieldLineChars, List.append_assoc]
    cases hr : f.Required with
    | true =>
      have hrw2 : forms.fieldLineChars f =
          (f.ElementorID.data ++ '|' :: (f.Label.data ++ '|' :: (f.Typ.data ++ [' ']))) ++
            ['*'] := by
        simp [forms.fieldLineChars, hr, List.append_assoc]
      rw [hrw2, List.getLast?_append_of_ne_nil _ (by simp)]
      decide
    | false =>
      cases ht : f.Typ.data with
      | nil =>
        have hrw2 : forms.fieldLineChars f =
            (f.ElementorID.data ++ '|' :: f.Label.data) ++ ['|'] := by
          simp [forms.fieldLineChars, hr, ht, List.append_assoc]
        rw [hrw2, List.getLast?_append_of_ne_nil _ (by simp)]
        decide
      | cons c rest =>
        rw [hrw, hr, ht]
        simp only [Bool.false_eq_true, if_false, List.append_nil]
        rw [List.getLast?_append_of_ne_nil _ (by simp), ← ht]
        exact t4
  · unfold forms.fieldLineChars
    rw [splitChars_append '|' _ _ i1, splitChars_append '|' _ _ l1,
      splitChars_no_sep '|' _ (by
        simp only [List.mem_append, not_or]
        exact ⟨t1, hsuf1⟩)]

theorem parseFieldLine_line (f : forms.FieldData) (h : f.Clean = true) :
    forms.parseFieldLine (String.mk (forms.fieldLineChars f)) = some f := by
  obtain ⟨_, _, _, _, hsplit⟩ := line_facts f h
  simp only [forms.FieldData.Clean, Bool.and_eq_true, Bool.not_eq_true'] at h
  obtain ⟨⟨⟨hid, hlabel⟩, htyp⟩, hstar⟩ := h
  obtain ⟨_, _, i3, i4⟩ := cleanText_spec _ hid
  obtain ⟨_, _, l3, l4⟩ := cleanText_spec _ hlabel
  obtain ⟨_, _, t3, t4⟩ := cleanText_spec _ htyp
  have hidt : strings.TrimSpace f.ElementorID = f.ElementorID := by
    show String.mk (strings.trimSpaceChars f.ElementorID.data) = f.ElementorID
    rw [trim_clean _ i3 i4]
  have hlabt : strings.TrimSpace f.Label = f.Label := by
    show String.mk (strings.trimSpaceChars f.Label.data) = f.Label
    rw [trim_clean _ l3 l4]
  unfold forms.parseFieldLine
  simp only [strings.Split, hsplit, List.map_cons, List.map_nil, string_mk_data, hidt, hlabt,
    List.length_nil, Nat.lt_irrefl, false_or]
  cases hr : f.Required with
  | false =>
    simp only [Bool.false_eq_true, if_false, List.append_nil, trim_clean _ t3 t4, hstar,
      string_mk_data]
    cases f
    simp_all
  | true =>
    simp only [if_true]
    cases ht : f.Typ.data with
    | nil =>
      have e1 : strings.trimSpaceChars ([] ++ [' ', '*']) = ['*'] := by decide
      have e2 : strings.hasStarSuffix ['*'] = true := by decide
      have e3 : strings.trimSpaceChars (strings.trimStarSuffix ['*']) = [] := by decide
      have hty : f.Typ = "" := String.ext ht
      simp only [e1, e2, e3, if_true]
      cases f
      simp_all
    | cons c rest =>
      have hne : f.Typ.data ≠ [] := by simp [ht]
      have hh : (f.Typ.data ++ [' ', '*']).head?.any strings.isSpace = false := by
        rw [ht] at t3 ⊢
        simpa using t3
      have hl : (f.Typ.data ++ [' ', '*']).getLast?.any strings.isSpace = false := by
        rw [List.getLast?_append_of_ne_nil _ (by simp)]
        decide
      have hsuf : strings.hasStarSuffix (f.Typ.data ++ [' ', '*']) = true := by
        unfold strings.hasStarSuffix
        rw [List.getLast?_append_of_ne_nil _ (by simp)]
        decide
      have hdrop : strings.trimStarSuffix (f.Typ.data ++ [' ', '*']) = f.Typ.data ++ [' '] := by
        unfold strings.trimStarSuffix
        rw [if_pos hsuf]
        have : f.Typ.data ++ [' ', '*'] = (f.Typ.data ++ [' ']) ++ ['*'] := by simp
        rw [this, List.dropLast_concat]
      rw [← ht]
      simp only [trim_clean _ hh hl, hsuf, hdrop, trim_trailing_space _ hne t3 t4, if_true,
        string_mk_data]
      cases f
      simp_all

theorem parseFieldLines_lines (fields acc : List forms.FieldData)
    (h : ∀ f ∈ fields, f.Clean = true) :
    forms.parseFieldLines ((fields.map forms.fieldLineChars).map String.mk) acc =
      (acc ++ fields, none) := by
  induction fields generalizing acc with
  | nil => simp [forms.parseFieldLines]
  | cons f rest ih =>
    have hf := h f (List.mem_cons_self _ _)
    obtain ⟨_, hne, hh, hl, _⟩ := line_facts f hf
    have htrim : strings.TrimSpace (String.mk (forms.fieldLineChars f)) ≠ "" := by
      show String.mk (strings.trimSpaceChars (forms.fieldLineChars f)) ≠ ""
      rw [trim_clean _ hh hl]
      intro hc
      exact hne (congrArg String.data hc)
    simp only [List.map_cons, forms.parseFieldLines, if_neg htrim, parseFieldLine_line f hf]
    rw [ih _ (fun g hg => h g (List.mem_cons_of_mem _ hg))]
    simp

/-- C28. Field-line round trip: for every list of fields whose id, label and type have
no `|`, no newline and no white space at their ends, and whose type does not end in
`*`, the validator of the fields input, run on the text `buildForm` writes for the list
(whatever `formData.Fields` held before), returns no error and leaves exactly the list
in `formData.Fields`, in order and with the same Required flags. -/
theorem C28_field_line_round_trip (fields old : List forms.FieldData)
    (h : ∀ f ∈ fields, f.Clean = true) :
    forms.validateFields old (forms.fieldStrings fields) = (fields, none) := by
  cases fields with
  | nil => rfl
  | cons f rest =>
    have hdata := fieldStrings_data (f :: rest)
    simp only [List.map_cons] at hdata
    have hfacts : ∀ x ∈ forms.fieldLineChars f :: rest.map forms.fieldLineChars,
        x ≠ [] ∧ x.head?.any strings.isSpace = false ∧
          x.getLast?.any strings.isSpace = false := by
      intro x hx
      have hx2 : x ∈ (f :: rest).map forms.fieldLineChars := by simpa using hx
      obtain ⟨g, hg, rfl⟩ := List.mem_map.1 hx2
      obtain ⟨_, a, b, c, _⟩ := line_facts g (h g hg)
      exact ⟨a, b, c⟩
    have hnl : ∀ x ∈ forms.fieldLineChars f :: rest.map forms.fieldLineChars, '\n' ∉ x := by
      intro x hx
      have hx2 : x ∈ (f :: rest).map forms.fieldLineChars := by simpa using hx
      obtain ⟨g, hg, rfl⟩ := List.mem_map.1 hx2
      exact (line_facts g (h g hg)).1
    obtain ⟨e1, e2⟩ := text_ends _ _ hfacts
    have htrim : strings.TrimSpace (forms.fieldStrings (f :: rest)) =
        String.mk (forms.fieldLineChars f ++
          ((rest.map forms.fieldLineChars).map fun a => '\n' :: a).flatten) := by
      show String.mk (strings.trimSpaceChars (forms.fieldStrings (f :: rest)).data) = _
      rw [hdata, trim_clean _ e1 e2]
    have hsplit : strings.Split (strings.TrimSpace (forms.fieldStrings (f :: rest))) '\n' =
        ((f :: rest).map forms.fieldLineChars).map String.mk := by
      rw [htrim]
      show (strings.splitChars '\n' _).map String.mk = _
      rw [splitChars_lines _ _ hnl]
      rfl
    unfold forms.validateFields
    rw [hsplit, if_neg (by simp), parseFieldLines_lines _ _ h]
    simp

/-- Witness of C28: the default fields of the form create view, two of them required. -/
theorem C28_field_line_round_trip_witness :
    forms.validateFields []
        (forms.fieldStrings
          (forms.NewCreateView fixtures.lib fixtures.remote fixtures.cfg).formData.Fields) =
      ((forms.NewCreateView fixtures.lib fixtures.remote fixtures.cfg).formData.Fields, none) :=
  C28_field_line_round_trip
    (forms.NewCreateView fixtures.lib fixtures.remote fixtures.cfg).formData.Fields []
    (by decide)

end tui

end ElementorWhatsapp
